import Mathlib

/-! # CustomOS: process manager, mailbox manager, semaphores and device drivers

A shallow embedding of `processManager.c` and `mailboxManager.c`, of the semaphore
system calls of `syscallManager.c`, and of the sleep queue, the clock driver's wake-up
loop and the disk request handling of `driverManager.c`.

* C `int` values are `Int`; no modelled computation relies on wrap-around.
* A pointer into one of the fixed tables (`ProcTable`, `MailSlotTable`,
  `MBoxProcTable`, `userProcTable`, `Driver_Table`) is the index of the entry it
  points to; `NULL` is `none`.
* Tables are total functions on `Nat`; only the entries below the table's
  capacity are meaningful.
* A kernel function is a state transformer with three possible outcomes:
  it returns, it calls `halt(code)`, or it faults (dereferences `NULL`,
  indexes a table out of bounds, or loops forever on a cyclic list).
-/

namespace CustomOS

/-! ## Constants of the USLOSS headers -/

/-- Constants declared in the USLOSS headers (`usloss.h`, `phase1.h`, `phase2.h`), which
are not part of the repository.  `SIZEOF_MAIL_BOX` is `sizeof(mail_box)` in bytes. -/
structure Config where
  MAXPROC : Nat
  MAXMBOX : Nat
  MAXSLOTS : Nat
  MAX_MESSAGE : Nat
  LOWEST_PRIORITY : Nat
  SIZEOF_MAIL_BOX : Nat
deriving DecidableEq, Repr

/-- The values the USLOSS headers give these constants (LP64 layout for `sizeof`). -/
def usloss : Config :=
  { MAXPROC := 50, MAXMBOX := 2000, MAXSLOTS := 2500, MAX_MESSAGE := 150,
    LOWEST_PRIORITY := 6, SIZEOF_MAIL_BOX := 56 }

/-- The macro `SENTINELPRIORITY` of `kernel.h`. -/
def SENTINELPRIORITY (c : Config) : Nat := c.LOWEST_PRIORITY

/-! ## Data model (`kernel.h`, `message.h`) -/

/-- The `struct proc_struct` of `kernel.h`.  The character arrays `name` and `start_arg`,
the function pointer `start_func`, the saved `context` and the `stack` pointer are left out:
no modelled function reads them. -/
structure proc_struct where
  next_proc_ptr : Option Nat
  child_proc_ptr : Option Nat
  next_sibling_ptr : Option Nat
  next_in_list : Option Nat
  pid : Int
  priority : Int
  stacksize : Int
  status : Int
  parent_pid : Int
  num_children : Int
  cur_start_time : Int
  total_cpu_time : Int
  status_to_parent : Int
  slot : Int
deriving DecidableEq, Repr

/-- An all-zero process descriptor, as left by `memset`. -/
def proc_struct.zero : proc_struct :=
  { next_proc_ptr := none, child_proc_ptr := none, next_sibling_ptr := none,
    next_in_list := none, pid := 0, priority := 0, stacksize := 0, status := 0,
    parent_pid := 0, num_children := 0, cur_start_time := 0, total_cpu_time := 0,
    status_to_parent := 0, slot := 0 }

/-- The `struct procLinkedList` of `kernel.h`. -/
structure procLinkedList where
  hasProc : Int
  head : Option Nat
  tail : Option Nat
deriving DecidableEq, Repr

/-- An all-zero list header. -/
def procLinkedList.zero : procLinkedList := { hasProc := 0, head := none, tail := none }

/-- The `struct mailbox` of `message.h`. -/
structure mail_box where
  mbox_id : Int
  num_slots : Int
  slot_size : Int
  unused_slots : Int
  numWaiting : Int
  numBlocked : Int
  isReleased : Int
  first_slot : Option Nat
  waitingProc : Option Nat
  blockedProc : Option Nat
deriving DecidableEq, Repr

/-- An all-zero mailbox table entry. -/
def mail_box.zero : mail_box :=
  { mbox_id := 0, num_slots := 0, slot_size := 0, unused_slots := 0, numWaiting := 0,
    numBlocked := 0, isReleased := 0, first_slot := none, waitingProc := none,
    blockedProc := none }

/-- The `struct mail_slot` of `message.h`; `message` maps a byte offset to the byte stored
there. -/
structure mail_slot where
  mbox_id : Int
  isOccupied : Int
  index : Int
  messageSize : Int
  message : Nat → Int
  next_in_box : Option Nat
  prev_in_box : Option Nat
  associatedProcs : Option Nat

/-- An all-zero mail slot. -/
def mail_slot.zero : mail_slot :=
  { mbox_id := 0, isOccupied := 0, index := 0, messageSize := 0, message := fun _ => 0,
    next_in_box := none, prev_in_box := none, associatedProcs := none }

/-- The `struct mbox_proc` of `message.h`. -/
structure mbox_proc where
  pid : Int
  status : Int
  index : Int
  next : Option Nat
  prev : Option Nat
deriving DecidableEq, Repr

/-- An all-zero `mbox_proc`. -/
def mbox_proc.zero : mbox_proc := { pid := 0, status := 0, index := 0, next := none, prev := none }

/-- The global variables of `processManager.c`. -/
structure ProcState where
  ProcTable : Nat → proc_struct
  ReadyProcs : Nat → procLinkedList
  BlockedProcs : procLinkedList
  Current : Option Nat
  next_pid : Nat
  numProcs : Int

/-- The whole kernel state: the two pieces of simulated hardware the code reads (the
processor status register and the clock), the process manager's variables, and the global
variables of `mailboxManager.c`. -/
structure Kernel where
  psr : Nat
  sys_clock : Int
  proc : ProcState
  nextMailBoxID : Int
  CurrentProc : Option Nat
  numMailBoxes : Int
  mail_slots_used : Int
  MailBoxTable : Nat → mail_box
  MailSlotTable : Nat → mail_slot
  MBoxProcTable : Nat → mbox_proc

/-- Assignment to one table entry: `tbl[i] = v`. -/
def setAt {α : Type} (tbl : Nat → α) (i : Nat) (v : α) : Nat → α :=
  fun j => if j = i then v else tbl j

/-! ## Outcomes and sequencing -/

/-- What a function does when run on a state of type `σ`. -/
inductive Outcome (σ α : Type) where
  | ret : α → σ → Outcome σ α
  | halt : Int → σ → Outcome σ α
  | fault : Outcome σ α

/-- A function of the kernel acting on a state of type `σ` and returning an `α`. -/
def K (σ α : Type) : Type := σ → Outcome σ α

/-- Return a value without touching the state. -/
def K.pure {σ α : Type} (a : α) : K σ α := fun s => Outcome.ret a s

/-- Run `m`, then run `f` on its result; a halt or a fault ends the run. -/
def K.bind {σ α β : Type} (m : K σ α) (f : α → K σ β) : K σ β := fun s =>
  match m s with
  | Outcome.ret a s1 => f a s1
  | Outcome.halt code s1 => Outcome.halt code s1
  | Outcome.fault => Outcome.fault

instance {σ : Type} : Monad (K σ) where
  pure := K.pure
  bind := K.bind

/-- Read the whole state. -/
def getK {σ : Type} : K σ σ := fun s => Outcome.ret s s

/-- Apply an update to the state. -/
def modifyK {σ : Type} (f : σ → σ) : K σ Unit := fun s => Outcome.ret () (f s)

/-- The USLOSS call `halt(code)`: the simulator stops. -/
def halt {σ α : Type} (code : Int) : K σ α := fun s => Outcome.halt code s

/-- Undefined behaviour or non-termination. -/
def fault {σ α : Type} : K σ α := fun _ => Outcome.fault

/-- Dereference a pointer: faults on `NULL`. -/
def deref {σ : Type} (p : Option Nat) : K σ Nat :=
  match p with
  | some i => pure i
  | none => fault

/-- Use the C integer `i` as an index into a table of `n` entries: faults when out of bounds. -/
def tableIndex {σ : Type} (i : Int) (n : Nat) : K σ Nat :=
  if 0 ≤ i ∧ i < n then pure i.toNat else fault

/-- Run a function of the process manager that touches only the process manager's
variables inside the whole kernel state. -/
def liftProc {α : Type} (m : K ProcState α) : K Kernel α := fun s =>
  match m s.proc with
  | Outcome.ret a p => Outcome.ret a { s with proc := p }
  | Outcome.halt code p => Outcome.halt code { s with proc := p }
  | Outcome.fault => Outcome.fault

/-- Apply an update to the process manager's variables. -/
def modifyProc (f : ProcState → ProcState) : K Kernel Unit :=
  modifyK fun s => { s with proc := f s.proc }

/-! ## Interrupt control (identical in both source files) -/

/-- The dummy mask `PSR_CURRENT_MODE` (bit 0) tested against the PSR. -/
def inKernelMode (psr : Nat) : Bool := psr % 2 = 1

/-- Clears bit 1 of the PSR: `psr_get() & ~PSR_CURRENT_INT`. -/
def psrClearInt (psr : Nat) : Nat := if psr.testBit 1 then psr - 2 else psr

/-- Sets bit 1 of the PSR: `psr_get() | 0x2`. -/
def psrSetInt (psr : Nat) : Nat := psr ||| 2

/-- The function `disableInterrupts`. -/
def disableInterrupts : K Kernel Unit := fun s =>
  if inKernelMode s.psr then Outcome.ret () { s with psr := psrClearInt s.psr }
  else Outcome.halt 1 s

/-- The function `enableInterrupts`. -/
def enableInterrupts : K Kernel Unit := fun s =>
  if inKernelMode s.psr then Outcome.ret () { s with psr := psrSetInt s.psr }
  else Outcome.halt 1 s

/-- The function `check_kernel_mode` of `mailboxManager.c`. -/
def check_kernel_mode : K Kernel Unit := fun s =>
  if inKernelMode s.psr then Outcome.ret () s else Outcome.halt 1 s

/-! ## Process manager (`processManager.c`) -/

/-- The function `get_pid`: `Current->pid`. -/
def get_pid : K ProcState Int := do
  let s ← getK
  let cur ← deref s.Current
  pure (s.ProcTable cur).pid

/-- The function `read_cur_start_time`: `Current->cur_start_time`. -/
def read_cur_start_time : K ProcState Int := do
  let s ← getK
  let cur ← deref s.Current
  pure (s.ProcTable cur).cur_start_time

/-- The function `is_zapped`: 1 when `Current->status == 3`, else 0. -/
def is_zapped : K ProcState Int := do
  let s ← getK
  let cur ← deref s.Current
  if (s.ProcTable cur).status = 3 then pure 1 else pure 0

/-- The function `addToReadyList` of `processManager.c`. -/
def addToReadyList (c : Config) (slot : Int) : K ProcState Unit := do
  let i ← tableIndex slot c.MAXPROC
  let s ← getK
  let p ← tableIndex (s.ProcTable i).priority (SENTINELPRIORITY c + 1)
  if (s.ReadyProcs p).hasProc ≠ 0 then do
    let t ← deref (s.ReadyProcs p).tail
    modifyK fun s => { s with
      ProcTable := setAt s.ProcTable t { s.ProcTable t with next_in_list := some i } }
    modifyK fun s => { s with
      ReadyProcs := setAt s.ReadyProcs p { s.ReadyProcs p with tail := some i } }
  else
    modifyK fun s => { s with
      ReadyProcs := setAt s.ReadyProcs p { hasProc := 1, head := some i, tail := some i } }

/-- The function `frontToBack`.  Its parameter is a `procLinkedList` passed by value: the
assignments to `theList.head` and `theList.tail` change the local copy, which is the value
returned here; the assignments through `->next_in_list` change the process table. -/
def frontToBack (theList : procLinkedList) : K ProcState procLinkedList := do
  if theList.head ≠ theList.tail then do
    let t ← deref theList.tail
    modifyK fun s => { s with
      ProcTable := setAt s.ProcTable t { s.ProcTable t with next_in_list := theList.head } }
    let l1 : procLinkedList := { theList with tail := theList.head }
    let h ← deref l1.head
    let s ← getK
    let l2 : procLinkedList := { l1 with head := (s.ProcTable h).next_in_list }
    let t2 ← deref l2.tail
    modifyK fun s => { s with
      ProcTable := setAt s.ProcTable t2 { s.ProcTable t2 with next_in_list := none } }
    pure l2
  else
    pure theList

/-- The `while` loop of `removeFromReadyList`, entered with `cur`; at most `fuel` tests of
the loop condition are made. -/
def removeFromReadyList_loop (pidToRemove : Int) : Nat → Option Nat → K ProcState Unit
  | 0, _ => fault
  | fuel + 1, cur => do
    let cu ← deref cur
    let s ← getK
    match (s.ProcTable cu).next_in_list with
    | none => pure ()
    | some nx =>
      if (s.ProcTable nx).pid = pidToRemove then do
        modifyK fun s => { s with
          ProcTable := setAt s.ProcTable cu
            { s.ProcTable cu with next_in_list := (s.ProcTable nx).next_in_list } }
        modifyK fun s => { s with
          ProcTable := setAt s.ProcTable nx { s.ProcTable nx with next_in_list := none } }
        let s1 ← getK
        removeFromReadyList_loop pidToRemove fuel (s1.ProcTable cu).next_in_list
      else
        removeFromReadyList_loop pidToRemove fuel (some nx)

/-- The function `removeFromReadyList`. -/
def removeFromReadyList (c : Config) (priority : Int) (pidToRemove : Int) : K ProcState Unit := do
  let p ← tableIndex priority (SENTINELPRIORITY c + 1)
  let s ← getK
  let cur ← deref (s.ReadyProcs p).head
  if (s.ProcTable cur).pid = pidToRemove ∧ (s.ProcTable cur).next_in_list = none then
    modifyK fun s => { s with
      ReadyProcs := setAt s.ReadyProcs p { hasProc := 0, head := none, tail := none } }
  else if (s.ProcTable cur).pid = pidToRemove then do
    modifyK fun s => { s with
      ReadyProcs := setAt s.ReadyProcs p
        { s.ReadyProcs p with head := (s.ProcTable cur).next_in_list } }
    modifyK fun s => { s with
      ProcTable := setAt s.ProcTable cur { s.ProcTable cur with next_in_list := none } }
  else
    removeFromReadyList_loop pidToRemove c.MAXPROC (some cur)

/-- The function `addToBlockedList` of `processManager.c`. -/
def addToBlockedList (c : Config) (slot : Int) : K ProcState Unit := do
  let i ← tableIndex slot c.MAXPROC
  let s ← getK
  if s.BlockedProcs.hasProc ≠ 0 then do
    let t ← deref s.BlockedProcs.tail
    modifyK fun s => { s with
      ProcTable := setAt s.ProcTable t { s.ProcTable t with next_in_list := some i } }
    modifyK fun s => { s with BlockedProcs := { s.BlockedProcs with tail := some i } }
  else
    modifyK fun s => { s with BlockedProcs := { hasProc := 1, head := some i, tail := some i } }

/-- The `while` loop of `removeFromBlockedList`, entered with `cur`; at most `fuel` tests
of the loop condition are made. -/
def removeFromBlockedList_loop (pidToRemove : Int) : Nat → Option Nat → K ProcState Unit
  | 0, _ => fault
  | fuel + 1, cur => do
    let cu ← deref cur
    let s ← getK
    match (s.ProcTable cu).next_in_list with
    | none => pure ()
    | some nx =>
      if (s.ProcTable nx).pid = pidToRemove then do
        modifyK fun s => { s with
          ProcTable := setAt s.ProcTable nx { s.ProcTable nx with status := 1 } }
        modifyK fun s => { s with
          ProcTable := setAt s.ProcTable cu
            { s.ProcTable cu with next_in_list := (s.ProcTable nx).next_in_list } }
        modifyK fun s => { s with
          ProcTable := setAt s.ProcTable nx { s.ProcTable nx with next_in_list := none } }
        let s1 ← getK
        removeFromBlockedList_loop pidToRemove fuel (s1.ProcTable cu).next_in_list
      else
        removeFromBlockedList_loop pidToRemove fuel (some nx)

/-- The function `removeFromBlockedList`. -/
def removeFromBlockedList (c : Config) (pidToRemove : Int) : K ProcState Int := do
  let s ← getK
  match s.BlockedProcs.head with
  | none => pure (-1)
  | some cur =>
    if (s.ProcTable cur).pid = pidToRemove ∧ (s.ProcTable cur).next_in_list = none then do
      modifyK fun s => { s with
        ProcTable := setAt s.ProcTable cur { s.ProcTable cur with status := 1 } }
      modifyK fun s => { s with BlockedProcs := { hasProc := 0, head := none, tail := none } }
      pure 0
    else if (s.ProcTable cur).pid = pidToRemove then do
      modifyK fun s => { s with
        ProcTable := setAt s.ProcTable cur { s.ProcTable cur with status := 1 } }
      modifyK fun s => { s with
        BlockedProcs := { s.BlockedProcs with head := (s.ProcTable cur).next_in_list } }
      modifyK fun s => { s with
        ProcTable := setAt s.ProcTable cur { s.ProcTable cur with next_in_list := none } }
      pure 0
    else do
      removeFromBlockedList_loop pidToRemove c.MAXPROC (some cur)
      pure 0

/-- The function `unblock_proc`. -/
def unblock_proc (c : Config) (pid : Int) : K ProcState Int := do
  let slot := Int.tmod pid c.MAXPROC
  if slot > (c.MAXPROC : Int) - 1 then
    pure (-2)
  else do
    let i ← tableIndex slot c.MAXPROC
    let s ← getK
    if (s.ProcTable i).pid = 0 then
      pure (-2)
    else do
      let theProc := s.ProcTable i
      if theProc.status ≤ 10 then
        pure (-2)
      else do
        let cur ← deref s.Current
        if theProc.pid = (s.ProcTable cur).pid then
          pure (-2)
        else if theProc.status = 3 then
          pure (-1)
        else do
          let _ ← removeFromBlockedList c pid
          addToReadyList c slot
          pure 0

/-- The `for` loop of `dispatcher`, with `n` iterations left and loop index `i`. -/
def dispatcher_loop : Nat → Nat → K Kernel Unit
  | 0, _ => pure ()
  | n + 1, i => do
    let s ← getK
    if (s.proc.ReadyProcs i).hasProc ≠ 0 then do
      let next_process := (s.proc.ReadyProcs i).head
      let old_process ← deref s.proc.Current
      let start ← liftProc read_cur_start_time
      modifyProc fun p => { p with
        ProcTable := setAt p.ProcTable old_process
          { p.ProcTable old_process with
            total_cpu_time := (p.ProcTable old_process).total_cpu_time + (s.sys_clock - start) } }
      modifyProc fun p => { p with Current := next_process }
      let cur ← deref next_process
      modifyProc fun p => { p with
        ProcTable := setAt p.ProcTable cur { p.ProcTable cur with cur_start_time := s.sys_clock } }
      enableInterrupts
    else
      dispatcher_loop n (i + 1)

/-- The function `dispatcher`.  The calls `p1_switch` and `context_switch` belong to the
simulator and change none of the modelled variables. -/
def dispatcher (c : Config) : K Kernel Unit := do
  disableInterrupts
  dispatcher_loop (SENTINELPRIORITY c) 1

/-- The function `time_slice`. -/
def time_slice (c : Config) : K Kernel Unit := do
  let startTime ← liftProc read_cur_start_time
  let s ← getK
  if s.sys_clock - startTime ≥ 80000 then do
    let cur ← deref s.proc.Current
    let p ← tableIndex (s.proc.ProcTable cur).priority (SENTINELPRIORITY c + 1)
    let _ ← liftProc (frontToBack (s.proc.ReadyProcs p))
    dispatcher c
  else
    pure ()

/-- The function `block_me`. -/
def block_me (c : Config) (new_status : Int) : K Kernel Int := do
  if new_status ≥ 10 then
    halt 1
  else do
    let s ← getK
    let cur ← deref s.proc.Current
    modifyProc fun p => { p with
      ProcTable := setAt p.ProcTable cur { p.ProcTable cur with status := new_status } }
    let s1 ← getK
    liftProc (removeFromReadyList c (s1.proc.ProcTable cur).priority (s1.proc.ProcTable cur).pid)
    let s2 ← getK
    liftProc (addToBlockedList c (s2.proc.ProcTable cur).slot)
    dispatcher c
    pure 0

/-! ## Views of the linked lists -/

/-- The nodes reached from `head` by following `next`, at most `fuel` of them. -/
def chainFrom (next : Nat → Option Nat) : Nat → Option Nat → List Nat
  | 0, _ => []
  | _ + 1, none => []
  | fuel + 1, some a => a :: chainFrom next fuel (next a)

/-- The ready queue of priority `p`, from its head along `next_in_list`. -/
def readyQueue (c : Config) (s : ProcState) (p : Nat) : List Nat :=
  chainFrom (fun k => (s.ProcTable k).next_in_list) c.MAXPROC (s.ReadyProcs p).head

/-- The blocked list, from its head along `next_in_list`. -/
def blockedQueue (c : Config) (s : ProcState) : List Nat :=
  chainFrom (fun k => (s.ProcTable k).next_in_list) c.MAXPROC s.BlockedProcs.head

/-! ## Mailbox manager (`mailboxManager.c`) -/

/-- The library call `memcpy(dst, src, n)` on byte maps: the first `n` bytes come from
`src`, the others stay. -/
def memcpy (dst src : Nat → Int) (n : Nat) : Nat → Int :=
  fun i => if i < n then src i else dst i

/-- The call `memset(p, 0, sizeof(MailBoxTable[0]))` with `p` pointing at a mail slot, as
`removeMSG` and `freeSlots` make it.  The size is that of a mailbox, not of a mail slot:
with 4-byte `int`s and `16 ≤ sizeof(mail_box) ≤ 16 + MAX_MESSAGE` it clears the four leading
`int` fields and the first `sizeof(mail_box) - 16` bytes of `message`, and does not reach
the link fields behind `message`. -/
def clearSlotHead (c : Config) (sl : mail_slot) : mail_slot :=
  { sl with
    mbox_id := 0, isOccupied := 0, index := 0, messageSize := 0,
    message := fun i => if i + 16 < c.SIZEOF_MAIL_BOX then 0 else sl.message i }

/-- The `for` loop of `handleProc`, with `n` iterations left and loop index `i`: `none` when
the loop is left by the early `return`, else the final value of `nextAvailableSlot`. -/
def handleProc_loop (tbl : Nat → mbox_proc) (current_pid : Int) : Nat → Nat → Int → Option Int
  | 0, _, nextAvailableSlot => some nextAvailableSlot
  | n + 1, i, nextAvailableSlot =>
    if (tbl i).pid = current_pid then none
    else
      handleProc_loop tbl current_pid n (i + 1)
        (if nextAvailableSlot = -1 ∧ (tbl i).pid = 0 then (i : Int) else nextAvailableSlot)

/-- The function `handleProc`.  It calls `getpid()`, the phase-1 name of the function that
`processManager.c` defines as `get_pid`. -/
def handleProc (c : Config) : K Kernel Unit := do
  disableInterrupts
  let current_pid ← liftProc get_pid
  let s ← getK
  match handleProc_loop s.MBoxProcTable current_pid c.MAXPROC 0 (-1) with
  | none => pure ()
  | some nextAvailableSlot => do
    let i ← tableIndex nextAvailableSlot c.MAXPROC
    modifyK fun s => { s with
      MBoxProcTable := setAt s.MBoxProcTable i { s.MBoxProcTable i with pid := current_pid } }
    modifyK fun s => { s with
      MBoxProcTable := setAt s.MBoxProcTable i
        { s.MBoxProcTable i with index := nextAvailableSlot } }
    modifyK fun s => { s with CurrentProc := some i }
    enableInterrupts

/-- The function `getSlot`. -/
def getSlot (c : Config) (mboxID : Int) : K Kernel Int := do
  let slot := Int.tmod mboxID c.MAXMBOX
  let i ← tableIndex slot c.MAXMBOX
  let s ← getK
  if (s.MailBoxTable i).mbox_id = 0 then pure (-1) else pure slot

/-- The `for` loop of `nextOpenMailSlot`, with `n` iterations left and loop index `i`. -/
def nextOpenMailSlot_loop (tbl : Nat → mail_slot) : Nat → Nat → Int
  | 0, _ => -1
  | n + 1, i => if (tbl i).isOccupied = 0 then (i : Int) else nextOpenMailSlot_loop tbl n (i + 1)

/-- The function `nextOpenMailSlot`. -/
def nextOpenMailSlot (c : Config) : K Kernel Int := do
  let s ← getK
  pure (nextOpenMailSlot_loop s.MailSlotTable c.MAXSLOTS 0)

/-- The function `removeMSG`. -/
def removeMSG (c : Config) (mBoxTableSlot : Int) : K Kernel Unit := do
  let b ← tableIndex mBoxTableSlot c.MAXMBOX
  let s ← getK
  match (s.MailBoxTable b).first_slot with
  | none => pure ()
  | some fs => do
    let slotIndex := (s.MailSlotTable fs).index
    modifyK fun s => { s with
      MailBoxTable := setAt s.MailBoxTable b
        { s.MailBoxTable b with first_slot := (s.MailSlotTable fs).next_in_box } }
    let j ← tableIndex slotIndex c.MAXSLOTS
    modifyK fun s => { s with
      MailSlotTable := setAt s.MailSlotTable j (clearSlotHead c (s.MailSlotTable j)) }
    modifyK fun s => { s with
      MailBoxTable := setAt s.MailBoxTable b
        { s.MailBoxTable b with unused_slots := (s.MailBoxTable b).unused_slots + 1 } }
    modifyK fun s => { s with mail_slots_used := s.mail_slots_used - 1 }

/-- The loop `while (cur->next != NULL) cur = cur->next;` over `mbox_proc` entries: the
entry it stops at, or `none` when `fuel` entries were visited without reaching the end. -/
def lastProc (tbl : Nat → mbox_proc) : Nat → Nat → Option Nat
  | 0, _ => none
  | fuel + 1, cur =>
    match (tbl cur).next with
    | none => some cur
    | some nx => lastProc tbl fuel nx

/-- The loop `while (curSlot->next_in_box != NULL) curSlot = curSlot->next_in_box;`: the
slot it stops at, or `none` when `fuel` slots were visited without reaching the end. -/
def lastSlot (tbl : Nat → mail_slot) : Nat → Nat → Option Nat
  | 0, _ => none
  | fuel + 1, cur =>
    match (tbl cur).next_in_box with
    | none => some cur
    | some nx => lastSlot tbl fuel nx

/-- The function `addToWaitingList`. -/
def addToWaitingList (c : Config) (mBoxTableSlot : Int) : K Kernel Unit := do
  disableInterrupts
  let b ← tableIndex mBoxTableSlot c.MAXMBOX
  let s ← getK
  let cp ← deref s.CurrentProc
  let me ← tableIndex (s.MBoxProcTable cp).index c.MAXPROC
  match (s.MailBoxTable b).waitingProc with
  | none =>
    modifyK fun s => { s with
      MailBoxTable := setAt s.MailBoxTable b { s.MailBoxTable b with waitingProc := some me } }
  | some first => do
    let cur ← deref (lastProc s.MBoxProcTable c.MAXPROC first)
    modifyK fun s => { s with
      MBoxProcTable := setAt s.MBoxProcTable cur { s.MBoxProcTable cur with next := some me } }
  modifyK fun s => { s with
    MailBoxTable := setAt s.MailBoxTable b
      { s.MailBoxTable b with numWaiting := (s.MailBoxTable b).numWaiting + 1 } }
  enableInterrupts

/-- The function `addToBlockedList` of `mailboxManager.c`. -/
def mailboxManager.addToBlockedList (c : Config) (mBoxTableSlot : Int) : K Kernel Unit := do
  disableInterrupts
  let b ← tableIndex mBoxTableSlot c.MAXMBOX
  let s ← getK
  let cp ← deref s.CurrentProc
  let me ← tableIndex (s.MBoxProcTable cp).index c.MAXPROC
  match (s.MailBoxTable b).blockedProc with
  | none =>
    modifyK fun s => { s with
      MailBoxTable := setAt s.MailBoxTable b { s.MailBoxTable b with blockedProc := some me } }
  | some first => do
    let cur ← deref (lastProc s.MBoxProcTable c.MAXPROC first)
    modifyK fun s => { s with
      MBoxProcTable := setAt s.MBoxProcTable cur { s.MBoxProcTable cur with next := some me } }
  modifyK fun s => { s with
    MailBoxTable := setAt s.MailBoxTable b
      { s.MailBoxTable b with numBlocked := (s.MailBoxTable b).numBlocked + 1 } }
  enableInterrupts

/-- Lines 243-248 of `MboxSend` (392-397 of `MboxCondSend`): fill mail slot
`slotTableIndex` for the mailbox in table entry `b`.  `j` is `slotTableIndex` as an index.
The `memcpy` writes `msg_size` bytes into the `MAX_MESSAGE`-byte array `message`. -/
def fillSlot (c : Config) (b j : Nat) (slotTableIndex : Int) (msg_ptr : Nat → Int)
    (msg_size : Int) : K Kernel Unit := do
  modifyK fun s => { s with
    MailSlotTable := setAt s.MailSlotTable j
      { s.MailSlotTable j with
        isOccupied := 1, index := slotTableIndex, mbox_id := (s.MailBoxTable b).mbox_id,
        messageSize := msg_size, next_in_box := none } }
  if msg_size < 0 ∨ msg_size > c.MAX_MESSAGE then
    fault
  else
    modifyK fun s => { s with
      MailSlotTable := setAt s.MailSlotTable j
        { s.MailSlotTable j with
          message := memcpy (s.MailSlotTable j).message msg_ptr msg_size.toNat } }

/-- Lines 250-266 of `MboxSend` (399-415 of `MboxCondSend`): put mail slot `j` at the end of
the message list of the mailbox in table entry `b`. -/
def linkSlot (c : Config) (b j : Nat) : K Kernel Unit := do
  let s ← getK
  match (s.MailBoxTable b).first_slot with
  | none =>
    modifyK fun s => { s with
      MailBoxTable := setAt s.MailBoxTable b { s.MailBoxTable b with first_slot := some j } }
  | some first => do
    let curSlot ← deref (lastSlot s.MailSlotTable c.MAXSLOTS first)
    modifyK fun s => { s with
      MailSlotTable := setAt s.MailSlotTable curSlot
        { s.MailSlotTable curSlot with next_in_box := some j } }

/-- Lines 270-281 of `MboxSend` (419-430 of `MboxCondSend`): wake up the next waiting
process of the mailbox in table entry `b`, if there is one. -/
def wakeWaiting (c : Config) (b : Nat) : K Kernel Unit := do
  let s1 ← getK
  if (s1.MailBoxTable b).numWaiting > 0 then do
    let old ← deref (s1.MailBoxTable b).waitingProc
    let waiting_pid := (s1.MBoxProcTable old).pid
    modifyK fun s => { s with
      MailBoxTable := setAt s.MailBoxTable b
        { s.MailBoxTable b with waitingProc := (s.MBoxProcTable old).next } }
    modifyK fun s => { s with
      MailBoxTable := setAt s.MailBoxTable b
        { s.MailBoxTable b with numWaiting := (s.MailBoxTable b).numWaiting - 1 } }
    modifyK fun s => { s with
      MBoxProcTable := setAt s.MBoxProcTable old { s.MBoxProcTable old with next := none } }
    let _ ← liftProc (unblock_proc c waiting_pid)
    pure ()
  else
    pure ()

/-- Lines 240-284 of `MboxSend`, repeated verbatim as lines 389-433 of `MboxCondSend`: take
the next open mail slot, fill it, append it to the message list of the mailbox, decrement
`unused_slots`, wake the first waiting receiver if there is one, and return 0. -/
def storeAndWake (c : Config) (mboxTableSlot : Int) (msg_ptr : Nat → Int) (msg_size : Int) :
    K Kernel Int := do
  let b ← tableIndex mboxTableSlot c.MAXMBOX
  disableInterrupts
  let slotTableIndex ← nextOpenMailSlot c
  let j ← tableIndex slotTableIndex c.MAXSLOTS
  fillSlot c b j slotTableIndex msg_ptr msg_size
  linkSlot c b j
  modifyK fun s => { s with
    MailBoxTable := setAt s.MailBoxTable b
      { s.MailBoxTable b with unused_slots := (s.MailBoxTable b).unused_slots - 1 } }
  wakeWaiting c b
  enableInterrupts
  pure 0

/-- Lines 235-284 of `MboxSend`: what the sender executes once it is past the blocking
test, either at once or when it runs again after `block_me(11)`.  Lines 384-433 of
`MboxCondSend` are the same text. -/
def MboxSend_afterBlock (c : Config) (mboxTableSlot : Int) (msg_ptr : Nat → Int)
    (msg_size : Int) : K Kernel Int := do
  let b ← tableIndex mboxTableSlot c.MAXMBOX
  let z ← liftProc is_zapped
  let s ← getK
  if z ≠ 0 ∨ (s.MailBoxTable b).isReleased ≠ 0 then
    pure (-3)
  else
    storeAndWake c mboxTableSlot msg_ptr msg_size

/-- The function `MboxSend`. -/
def MboxSend (c : Config) (mbox_id : Int) (msg_ptr : Nat → Int) (msg_size : Int) : K Kernel Int := do
  check_kernel_mode
  handleProc c
  let s ← getK
  if s.mail_slots_used ≥ c.MAXSLOTS then
    halt 1
  else do
    let mboxTableSlot ← getSlot c mbox_id
    if mboxTableSlot = -1 then
      pure (-1)
    else do
      let b ← tableIndex mboxTableSlot c.MAXMBOX
      let s1 ← getK
      if msg_size > (s1.MailBoxTable b).slot_size then
        pure (-1)
      else if (s1.MailBoxTable b).numWaiting = 0 ∧ (s1.MailBoxTable b).unused_slots = 0 then do
        mailboxManager.addToBlockedList c mboxTableSlot
        let _ ← block_me c 11
        MboxSend_afterBlock c mboxTableSlot msg_ptr msg_size
      else
        MboxSend_afterBlock c mboxTableSlot msg_ptr msg_size

/-- The function `MboxCondSend`. -/
def MboxCondSend (c : Config) (mbox_id : Int) (message : Nat → Int) (msg_size : Int) :
    K Kernel Int := do
  check_kernel_mode
  handleProc c
  let s ← getK
  if s.mail_slots_used ≥ c.MAXSLOTS then
    pure (-2)
  else do
    let mboxTableSlot ← getSlot c mbox_id
    if mboxTableSlot = -1 then
      pure (-1)
    else do
      let b ← tableIndex mboxTableSlot c.MAXMBOX
      let s1 ← getK
      if msg_size > (s1.MailBoxTable b).slot_size then
        pure (-1)
      else if (s1.MailBoxTable b).unused_slots = 0 then
        pure (-2)
      else
        MboxSend_afterBlock c mboxTableSlot message msg_size

/-- Lines 329-342 of `MboxReceive` (478-491 of `MboxCondReceive`): if a sender is blocked on
the mailbox in table entry `b` and the mailbox has an unused slot, take the first blocked
sender off the queue and unblock it. -/
def wakeBlocked (c : Config) (b : Nat) : K Kernel Unit := do
  let s1 ← getK
  if (s1.MailBoxTable b).numBlocked > 0 ∧ (s1.MailBoxTable b).unused_slots > 0 then do
    let old ← deref (s1.MailBoxTable b).blockedProc
    let blocked_pid := (s1.MBoxProcTable old).pid
    modifyK fun s => { s with
      MailBoxTable := setAt s.MailBoxTable b
        { s.MailBoxTable b with blockedProc := (s.MBoxProcTable old).next } }
    modifyK fun s => { s with
      MailBoxTable := setAt s.MailBoxTable b
        { s.MailBoxTable b with numBlocked := (s.MailBoxTable b).numBlocked - 1 } }
    modifyK fun s => { s with
      MBoxProcTable := setAt s.MBoxProcTable old { s.MBoxProcTable old with next := none } }
    enableInterrupts
    let _ ← liftProc (unblock_proc c blocked_pid)
    pure ()
  else
    pure ()

/-- Lines 314-344 of `MboxReceive`: what the receiver executes once it is past the blocking
test, either at once or when it runs again after `block_me(11)`.  Lines 463-492 of
`MboxCondReceive` are the same text.  The result is the returned `int` and the contents of
the caller's buffer.  The `memcpy` copies `msg_size` bytes, the capacity of the buffer, out
of the `MAX_MESSAGE`-byte array `message`. -/
def MboxReceive_afterBlock (c : Config) (mboxTableSlot : Int) (msg_ptr : Nat → Int)
    (msg_size : Int) : K Kernel (Int × (Nat → Int)) := do
  let b ← tableIndex mboxTableSlot c.MAXMBOX
  let z ← liftProc is_zapped
  let s ← getK
  if z ≠ 0 ∨ (s.MailBoxTable b).isReleased ≠ 0 then
    pure (-3, msg_ptr)
  else do
    let first ← deref (s.MailBoxTable b).first_slot
    if (s.MailSlotTable first).messageSize > msg_size then
      pure (-1, msg_ptr)
    else do
      disableInterrupts
      let received_msg_size := (s.MailSlotTable first).messageSize
      if msg_size < 0 ∨ msg_size > c.MAX_MESSAGE then
        fault
      else do
        let buf := memcpy msg_ptr (s.MailSlotTable first).message msg_size.toNat
        removeMSG c mboxTableSlot
        wakeBlocked c b
        pure (received_msg_size, buf)

/-- The function `MboxReceive`. -/
def MboxReceive (c : Config) (mbox_id : Int) (msg_ptr : Nat → Int) (msg_size : Int) :
    K Kernel (Int × (Nat → Int)) := do
  check_kernel_mode
  handleProc c
  let mboxTableSlot ← getSlot c mbox_id
  if mboxTableSlot = -1 then
    pure (-1, msg_ptr)
  else do
    let b ← tableIndex mboxTableSlot c.MAXMBOX
    let s ← getK
    if (s.MailBoxTable b).first_slot = none then do
      addToWaitingList c mboxTableSlot
      let _ ← block_me c 11
      MboxReceive_afterBlock c mboxTableSlot msg_ptr msg_size
    else
      MboxReceive_afterBlock c mboxTableSlot msg_ptr msg_size

/-- The function `MboxCondReceive`. -/
def MboxCondReceive (c : Config) (mbox_id : Int) (message : Nat → Int) (msg_size : Int) :
    K Kernel (Int × (Nat → Int)) := do
  check_kernel_mode
  handleProc c
  let mboxTableSlot ← getSlot c mbox_id
  if mboxTableSlot = -1 then
    pure (-1, message)
  else do
    let b ← tableIndex mboxTableSlot c.MAXMBOX
    let s ← getK
    if (s.MailBoxTable b).first_slot = none then
      pure (-2, message)
    else
      MboxReceive_afterBlock c mboxTableSlot message msg_size

/-- The `while` loop of `zapWaiting`, entered with `curProc`; `zap` is the phase-1 function
of that name, which `processManager.c` declares and does not define. -/
def zapWaiting_loop (zap : Int → K Kernel Int) : Nat → Option Nat → K Kernel Unit
  | _, none => pure ()
  | 0, some _ => fault
  | fuel + 1, some cur => do
    let s ← getK
    let _ ← zap (s.MBoxProcTable cur).pid
    let s1 ← getK
    modifyK fun s => { s with
      MBoxProcTable := setAt s.MBoxProcTable cur { s.MBoxProcTable cur with next := none } }
    zapWaiting_loop zap fuel (s1.MBoxProcTable cur).next

/-- The function `zapWaiting`. -/
def zapWaiting (zap : Int → K Kernel Int) (c : Config) (mBoxTableSlot : Int) : K Kernel Unit := do
  let b ← tableIndex mBoxTableSlot c.MAXMBOX
  let s ← getK
  zapWaiting_loop zap c.MAXPROC (s.MailBoxTable b).waitingProc

/-- The `while` loop of `unblockBlocked`, entered with `curProc`. -/
def unblockBlocked_loop (c : Config) : Nat → Option Nat → K Kernel Unit
  | _, none => pure ()
  | 0, some _ => fault
  | fuel + 1, some cur => do
    let s ← getK
    let _ ← liftProc (unblock_proc c (s.MBoxProcTable cur).pid)
    let s1 ← getK
    modifyK fun s => { s with
      MBoxProcTable := setAt s.MBoxProcTable cur { s.MBoxProcTable cur with next := none } }
    unblockBlocked_loop c fuel (s1.MBoxProcTable cur).next

/-- The function `unblockBlocked`. -/
def unblockBlocked (c : Config) (mBoxTableSlot : Int) : K Kernel Unit := do
  let b ← tableIndex mBoxTableSlot c.MAXMBOX
  let s ← getK
  let curProc := (s.MailBoxTable b).blockedProc
  disableInterrupts
  unblockBlocked_loop c c.MAXPROC curProc
  enableInterrupts

/-- The `while` loop of `freeSlots`, entered with `cur`. -/
def freeSlots_loop (c : Config) : Nat → Option Nat → K Kernel Unit
  | _, none => pure ()
  | 0, some _ => fault
  | fuel + 1, some temp => do
    let s ← getK
    let cur := (s.MailSlotTable temp).next_in_box
    modifyK fun s => { s with
      MailSlotTable := setAt s.MailSlotTable temp (clearSlotHead c (s.MailSlotTable temp)) }
    modifyK fun s => { s with mail_slots_used := s.mail_slots_used - 1 }
    freeSlots_loop c fuel cur

/-- The function `freeSlots`. -/
def freeSlots (c : Config) (tableSlot : Int) : K Kernel Unit := do
  let b ← tableIndex tableSlot c.MAXMBOX
  let s ← getK
  freeSlots_loop c c.MAXSLOTS (s.MailBoxTable b).first_slot

/-- The function `MboxRelease`; `zap` is the phase-1 function of that name. -/
def MboxRelease (zap : Int → K Kernel Int) (c : Config) (mailboxID : Int) : K Kernel Int := do
  check_kernel_mode
  handleProc c
  let mBoxTableSlot ← getSlot c mailboxID
  if mBoxTableSlot = -1 then
    pure (-1)
  else do
    let z ← liftProc is_zapped
    if z ≠ 0 then
      pure (-3)
    else do
      let b ← tableIndex mBoxTableSlot c.MAXMBOX
      disableInterrupts
      modifyK fun s => { s with
        MailBoxTable := setAt s.MailBoxTable b { s.MailBoxTable b with isReleased := 1 } }
      zapWaiting zap c mBoxTableSlot
      unblockBlocked c mBoxTableSlot
      freeSlots c mBoxTableSlot
      modifyK fun s => { s with MailBoxTable := setAt s.MailBoxTable b mail_box.zero }
      modifyK fun s => { s with numMailBoxes := s.numMailBoxes - 1 }
      enableInterrupts
      pure 0

/-- Test of an outcome: it is a return of the value `v` in a state that passes `P`. -/
def Outcome.retSat {σ α : Type} [DecidableEq α] (o : Outcome σ α) (v : α) (P : σ → Bool) :
    Bool :=
  match o with
  | Outcome.ret a s => decide (a = v) && P s
  | _ => false

/-- Stand-in for the phase-1 function `zap`, which the repository declares and does not
define: a run that calls it faults, so a run that returns has not called it. -/
def noZap : Int → K Kernel Int := fun _ => fault

/-! ## Concrete states used to exercise the definitions -/

/-- The state right after the tables are cleared: kernel mode, interrupts enabled, every
table entry zero, no current process. -/
def bootState : Kernel :=
  { psr := 3, sys_clock := 0,
    proc :=
      { ProcTable := fun _ => proc_struct.zero, ReadyProcs := fun _ => procLinkedList.zero,
        BlockedProcs := procLinkedList.zero, Current := none, next_pid := 1, numProcs := 0 },
    nextMailBoxID := 1, CurrentProc := none,
    numMailBoxes := 0, mail_slots_used := 0, MailBoxTable := fun _ => mail_box.zero,
    MailSlotTable := fun _ => mail_slot.zero, MBoxProcTable := fun _ => mbox_proc.zero }

/-- A ready process descriptor with the given pid and priority, in table slot `pid`. -/
def readyProc (pid priority : Int) : proc_struct :=
  { proc_struct.zero with pid := pid, priority := priority, status := 1, slot := pid }

/-- The sentinel (pid 1, priority 6) and one process (pid 2, priority 1) are ready; the
process with pid 2 is running. -/
def twoProcs : ProcState :=
  { ProcTable := setAt (setAt (fun _ => proc_struct.zero) 1 (readyProc 1 6)) 2 (readyProc 2 1),
    ReadyProcs := setAt (setAt (fun _ => procLinkedList.zero) 6
      { hasProc := 1, head := some 1, tail := some 1 }) 1
      { hasProc := 1, head := some 2, tail := some 2 },
    BlockedProcs := procLinkedList.zero,
    Current := some 2, next_pid := 3, numProcs := 2 }

/-- The kernel state with the processes of `twoProcs` and no mailbox in use. -/
def twoProcState : Kernel := { bootState with proc := twoProcs }

/-- The sentinel is ready at priority 6 and the processes with pids 2 and 3 are queued, in
this order, at priority 1; pid 2 is running since time 0 and the clock reads 80000. -/
def sliceState : Kernel :=
  { bootState with
    sys_clock := 80000,
    proc :=
      { ProcTable := setAt (setAt (setAt (fun _ => proc_struct.zero) 1 (readyProc 1 6))
          2 { readyProc 2 1 with next_in_list := some 3 }) 3 (readyProc 3 1),
        ReadyProcs := setAt (setAt (fun _ => procLinkedList.zero) 6
          { hasProc := 1, head := some 1, tail := some 1 }) 1
          { hasProc := 1, head := some 2, tail := some 3 },
        BlockedProcs := procLinkedList.zero,
        Current := some 2, next_pid := 4, numProcs := 3 } }

/-- A one-byte message holding the character `A`. -/
def msgA : Nat → Int := fun i => if i = 0 then 65 else 0

/-- The processes of `twoProcs` with mailbox 7 (1 slot of 4 bytes, empty) in use. -/
def oneBoxState : Kernel :=
  { twoProcState with
    nextMailBoxID := 8, numMailBoxes := 1,
    MailBoxTable := setAt (fun _ => mail_box.zero) 7
      { mail_box.zero with mbox_id := 7, num_slots := 1, slot_size := 4, unused_slots := 1 } }

/-- The sentinel and pid 2 are ready, pid 2 is running, and pid 3 (priority 1) is on the
blocked list with status 11. -/
def blocked3Procs : ProcState :=
  { ProcTable := setAt (setAt (setAt (fun _ => proc_struct.zero) 1 (readyProc 1 6))
      2 (readyProc 2 1)) 3 { readyProc 3 1 with status := 11 },
    ReadyProcs := setAt (setAt (fun _ => procLinkedList.zero) 6
      { hasProc := 1, head := some 1, tail := some 1 }) 1
      { hasProc := 1, head := some 2, tail := some 2 },
    BlockedProcs := { hasProc := 1, head := some 3, tail := some 3 },
    Current := some 2, next_pid := 4, numProcs := 3 }

/-- The mailbox process table with pid 2 in entry 0 and pid 3 in entry 1. -/
def twoMboxProcs : Nat → mbox_proc :=
  setAt (setAt (fun _ => mbox_proc.zero) 0 { mbox_proc.zero with pid := 2, index := 0 })
    1 { mbox_proc.zero with pid := 3, index := 1 }

/-- Mailbox 7 was created with 0 slots of 4 bytes; pid 3 waits in a receive on it (it is
the only entry of the waiting queue and is blocked with status 11); pid 2 is running. -/
def rendezvousState : Kernel :=
  { bootState with
    proc := blocked3Procs,
    nextMailBoxID := 8, numMailBoxes := 1, CurrentProc := some 1,
    MBoxProcTable := twoMboxProcs,
    MailBoxTable := setAt (fun _ => mail_box.zero) 7
      { mail_box.zero with
        mbox_id := 7, num_slots := 0, slot_size := 4, unused_slots := 0, numWaiting := 1,
        waitingProc := some 1 } }

/-- Mailbox 7 (1 slot of 4 bytes) is full: mail slot 0 holds its only message; pid 3 is the
only entry of its blocked-senders queue and is blocked with status 11; pid 2 is running. -/
def fullBoxState : Kernel :=
  { bootState with
    proc := blocked3Procs,
    nextMailBoxID := 8, numMailBoxes := 1, CurrentProc := some 1,
    MBoxProcTable := twoMboxProcs,
    MailSlotTable := setAt (fun _ => mail_slot.zero) 0
      { mail_slot.zero with mbox_id := 7, isOccupied := 1, index := 0, messageSize := 1,
                            message := msgA },
    MailBoxTable := setAt (fun _ => mail_box.zero) 7
      { mail_box.zero with
        mbox_id := 7, num_slots := 1, slot_size := 4, unused_slots := 0, numBlocked := 1,
        first_slot := some 0, blockedProc := some 1 } }

/-- The state `s` at the moment the process in table slot `i` has been dispatched. -/
def resumedAs (s : Kernel) (i : Nat) : Kernel :=
  { s with proc := { s.proc with Current := some i } }

/-! ## Views of the mailbox structures -/

/-- The state `s1` agrees with `s` on the process manager's variables, the clock, the
mailbox table, the mail slots and the counters of the mailbox manager. -/
def SameMail (s s1 : Kernel) : Prop :=
  s1.proc = s.proc ∧ s1.sys_clock = s.sys_clock ∧ s1.MailBoxTable = s.MailBoxTable ∧
  s1.MailSlotTable = s.MailSlotTable ∧ s1.mail_slots_used = s.mail_slots_used ∧
  s1.numMailBoxes = s.numMailBoxes ∧ s1.nextMailBoxID = s.nextMailBoxID

/-- Following `next` from the pointer `p` visits exactly the nodes of `L`, in order, and
then reaches `NULL`. -/
def IsChain (next : Nat → Option Nat) : Option Nat → List Nat → Prop
  | p, [] => p = none
  | p, a :: L => p = some a ∧ IsChain next (next a) L

/-- The `next_in_box` link of each mail slot. -/
def slotNext (s : Kernel) : Nat → Option Nat := fun k => (s.MailSlotTable k).next_in_box

/-- The message list of the mailbox in table entry `b` consists of the mail slots `L`, in
order: they are linked from `first_slot`, are pairwise distinct, lie in the table, are
marked occupied and carry their own index. -/
def MsgList (c : Config) (s : Kernel) (b : Nat) (L : List Nat) : Prop :=
  IsChain (slotNext s) (s.MailBoxTable b).first_slot L ∧ L.Nodup ∧
  ∀ j ∈ L, j < c.MAXSLOTS ∧ (s.MailSlotTable j).isOccupied ≠ 0 ∧
    (s.MailSlotTable j).index = (j : Int)

/-- The first `n` bytes of a buffer. -/
def bytes (buf : Nat → Int) (n : Int) : List Int := (List.range n.toNat).map buf

/-- The message held by mail slot `j`: the first `messageSize` bytes of `message`. -/
def payload (s : Kernel) (j : Nat) : List Int :=
  bytes (s.MailSlotTable j).message (s.MailSlotTable j).messageSize

/-- Test of an outcome: it is a return whose value and state pass `P`. -/
def Outcome.retWhen {σ α : Type} (o : Outcome σ α) (P : α → σ → Bool) : Bool :=
  match o with
  | Outcome.ret a s => P a s
  | _ => false

/-- A receive buffer filled with zero bytes. -/
def zeroBuf : Nat → Int := fun _ => 0

/-- All 2500 mail slots are occupied: mailbox 8 (2500 slots of 4 bytes) holds 2500 one-byte
messages, in mail slots 0, 1, ..., 2499 in this order.  Mailbox 7 (1 slot of 4 bytes) is
empty.  `mail_slots_used` is 0, as the sends leave it.  Pid 2 is running. -/
def fullPoolState : Kernel :=
  { twoProcState with
    nextMailBoxID := 9, numMailBoxes := 2, mail_slots_used := 0,
    MailSlotTable := fun k =>
      { mail_slot.zero with
        mbox_id := 8, isOccupied := 1, index := (k : Int), messageSize := 1, message := msgA,
        next_in_box := if k + 1 < 2500 then some (k + 1) else none },
    MailBoxTable := setAt (setAt (fun _ => mail_box.zero) 7
      { mail_box.zero with mbox_id := 7, num_slots := 1, slot_size := 4, unused_slots := 1 })
      8 { mail_box.zero with
          mbox_id := 8, num_slots := 2500, slot_size := 4, unused_slots := 0,
          first_slot := some 0 } }

/-- The state `s` with interrupts disabled. -/
def intsOff (s : Kernel) : Kernel := { s with psr := psrClearInt s.psr }

/-- The one-byte message "B". -/
def msgB : Nat → Int := fun i => if i = 0 then 66 else 0

/-- The processes of `twoProcs` with mailboxes 7 and 8 (1 slot of 4 bytes each, both empty)
in use. -/
def twoBoxState : Kernel :=
  { twoProcState with
    nextMailBoxID := 9, numMailBoxes := 2,
    MailBoxTable := setAt (setAt (fun _ => mail_box.zero) 7
      { mail_box.zero with mbox_id := 7, num_slots := 1, slot_size := 4, unused_slots := 1 })
      8 { mail_box.zero with mbox_id := 8, num_slots := 1, slot_size := 4, unused_slots := 1 } }

/-- The message lists of all mailboxes: the list of the mailbox in table entry `b` consists
of the mail slots `Ls b`, and no mail slot is on the lists of two entries. -/
def Boxes (c : Config) (s : Kernel) (Ls : Nat → List Nat) : Prop :=
  (∀ b, MsgList c s b (Ls b)) ∧ ∀ b b2, b ≠ b2 → ∀ k ∈ Ls b, k ∉ Ls b2

/-- The per-mailbox history `h` with the payload `x` appended to the history of table
entry `b`. -/
def record (h : Nat → List (List Int)) (b : Nat) (x : List Int) : Nat → List (List Int) :=
  fun k => if k = b then h k ++ [x] else h k

/-- `MboxRun c s0 sent received s`: starting in state `s0`, a sequence of successful
operations on any mailboxes leads to state `s`.  For each table entry `b` of `MailBoxTable`
(a mailbox id `id` is served by entry `id % MAXMBOX`), `sent b` lists, in order, the
payloads of the sends on it (`MboxSend` or `MboxCondSend` returning 0) and `received b`
lists, in order, what the receives on it (`MboxReceive` or `MboxCondReceive` returning a
length `r ≥ 0`) put into the first `r` bytes of the caller's buffer.  Between two operations
the rest of the system may run, as long as it leaves the mail slots and the `first_slot`
pointers of the mailboxes alone. -/
inductive MboxRun (c : Config) :
    Kernel → (Nat → List (List Int)) → (Nat → List (List Int)) → Kernel → Prop
  | start (s : Kernel) : MboxRun c s (fun _ => []) (fun _ => []) s
  | send {s0 s s1 : Kernel} {sent received : Nat → List (List Int)} (id : Int)
      (msg : Nat → Int) (n : Int) :
      MboxRun c s0 sent received s →
      MboxSend c id msg n s = Outcome.ret 0 s1 →
      MboxRun c s0 (record sent (Int.tmod id c.MAXMBOX).toNat (bytes msg n)) received s1
  | condSend {s0 s s1 : Kernel} {sent received : Nat → List (List Int)} (id : Int)
      (msg : Nat → Int) (n : Int) :
      MboxRun c s0 sent received s →
      MboxCondSend c id msg n s = Outcome.ret 0 s1 →
      MboxRun c s0 (record sent (Int.tmod id c.MAXMBOX).toNat (bytes msg n)) received s1
  | receive {s0 s s1 : Kernel} {sent received : Nat → List (List Int)} (id : Int)
      (buf buf1 : Nat → Int) (cap r : Int) :
      MboxRun c s0 sent received s →
      MboxReceive c id buf cap s = Outcome.ret (r, buf1) s1 → 0 ≤ r →
      MboxRun c s0 sent (record received (Int.tmod id c.MAXMBOX).toNat (bytes buf1 r)) s1
  | condReceive {s0 s s1 : Kernel} {sent received : Nat → List (List Int)} (id : Int)
      (buf buf1 : Nat → Int) (cap r : Int) :
      MboxRun c s0 sent received s →
      MboxCondReceive c id buf cap s = Outcome.ret (r, buf1) s1 → 0 ≤ r →
      MboxRun c s0 sent (record received (Int.tmod id c.MAXMBOX).toNat (bytes buf1 r)) s1
  | other {s0 s s1 : Kernel} {sent received : Nat → List (List Int)} :
      MboxRun c s0 sent received s →
      s1.MailSlotTable = s.MailSlotTable →
      (∀ b, (s1.MailBoxTable b).first_slot = (s.MailBoxTable b).first_slot) →
      MboxRun c s0 sent received s1

/-! ## Process creation and termination (`processManager.c`) -/

/-- Constants of `usloss.h` and `phase1.h` that only `fork1` reads; the headers are not part
of the repository. -/
structure ForkLimits where
  USLOSS_MIN_STACK : Int
  MAXNAME : Nat
  MAXARG : Nat
deriving DecidableEq, Repr

/-- The values the USLOSS headers give these constants. -/
def forkLimits : ForkLimits := { USLOSS_MIN_STACK := 81920, MAXNAME := 50, MAXARG := 100 }

/-- The `while` loop of `assign_pid`; at most `fuel` tests of the loop condition are made.
When `numProcs < MAXPROC` and no table entry is free the loop of the source does not end. -/
def assign_pid_loop (c : Config) : Nat → K ProcState Unit
  | 0 => fault
  | fuel + 1 => do
    let s ← getK
    let i ← tableIndex ((s.next_pid % c.MAXPROC : Nat) : Int) c.MAXPROC
    if (s.ProcTable i).pid ≠ 0 ∧ s.numProcs < c.MAXPROC then do
      modifyK fun s => { s with next_pid := s.next_pid + 1 }
      assign_pid_loop c fuel
    else
      pure ()

/-- The function `assign_pid`.  After an assignment `next_pid` still holds the pid that was
assigned. -/
def assign_pid (c : Config) : K ProcState Int := do
  assign_pid_loop c (2 * c.MAXPROC)
  let s ← getK
  let proc_slot : Int := ((s.next_pid % c.MAXPROC : Nat) : Int)
  let i ← tableIndex proc_slot c.MAXPROC
  modifyK fun s => { s with
    ProcTable := setAt s.ProcTable i { s.ProcTable i with pid := (s.next_pid : Int) } }
  pure proc_slot

/-- The function `fork1`.  `nameLen` is `strlen(name)`, `f` is the function pointer (`none`
for `NULL`) and `arg` is `strlen(arg)` (`none` when `arg` is `NULL`).  The copies of the
name, of the argument and of `f`, the `malloc` of the stack, `context_init` and `p1_fork`
change none of the modelled variables. -/
def fork1 (c : Config) (l : ForkLimits) (nameLen : Nat) (f : Option Nat) (arg : Option Nat)
    (stacksize priority : Int) : K Kernel Int := do
  disableInterrupts
  let s ← getK
  if ¬ inKernelMode s.psr then
    halt 1
  else if stacksize < l.USLOSS_MIN_STACK then
    pure (-2)
  else if s.proc.numProcs ≥ c.MAXPROC ∨ priority < 1 ∨ priority > 6 ∨ f = none then
    pure (-1)
  else do
    let proc_slot ← liftProc (assign_pid c)
    let i ← tableIndex proc_slot c.MAXPROC
    if (nameLen : Int) ≥ (l.MAXNAME : Int) - 1 then
      halt 1
    else do
      match arg with
      | none => pure ()
      | some n => if (n : Int) ≥ (l.MAXARG : Int) - 1 then halt 1 else pure ()
      modifyProc fun p => { p with
        ProcTable := setAt p.ProcTable i { p.ProcTable i with stacksize := stacksize } }
      modifyProc fun p => { p with
        ProcTable := setAt p.ProcTable i { p.ProcTable i with priority := priority } }
      modifyProc fun p => { p with
        ProcTable := setAt p.ProcTable i { p.ProcTable i with slot := proc_slot } }
      let s1 ← getK
      match s1.proc.Current with
      | none =>
        modifyProc fun p => { p with Current := some i }
      | some cur =>
        if (s1.proc.ProcTable cur).child_proc_ptr = none then do
          modifyProc fun p => { p with
            ProcTable := setAt p.ProcTable i
              { p.ProcTable i with parent_pid := (p.ProcTable cur).pid } }
          modifyProc fun p => { p with
            ProcTable := setAt p.ProcTable cur { p.ProcTable cur with child_proc_ptr := some i } }
          modifyProc fun p => { p with
            ProcTable := setAt p.ProcTable cur
              { p.ProcTable cur with num_children := (p.ProcTable cur).num_children + 1 } }
        else do
          modifyProc fun p => { p with
            ProcTable := setAt p.ProcTable i
              { p.ProcTable i with parent_pid := (p.ProcTable cur).pid } }
          let firstChild ← deref (s1.proc.ProcTable cur).child_proc_ptr
          modifyProc fun p => { p with
            ProcTable := setAt p.ProcTable firstChild
              { p.ProcTable firstChild with next_sibling_ptr := some i } }
          modifyProc fun p => { p with
            ProcTable := setAt p.ProcTable cur
              { p.ProcTable cur with num_children := (p.ProcTable cur).num_children + 1 } }
      modifyProc fun p => { p with
        ProcTable := setAt p.ProcTable i { p.ProcTable i with status := 1 } }
      liftProc (addToReadyList c proc_slot)
      modifyProc fun p => { p with numProcs := p.numProcs + 1 }
      dispatcher c
      let s2 ← getK
      pure (s2.proc.ProcTable i).pid

/-- The `while` loop of `removeFromChildList`, entered with `cur`; at most `fuel` tests of
the loop condition are made.  The body assigns to `next_in_list`, as the source does. -/
def removeFromChildList_loop (pidToRemove : Int) : Nat → Option Nat → K ProcState Unit
  | 0, _ => fault
  | fuel + 1, cur => do
    let cu ← deref cur
    let s ← getK
    match (s.ProcTable cu).next_sibling_ptr with
    | none => pure ()
    | some nx =>
      if (s.ProcTable nx).pid = pidToRemove then do
        modifyK fun s => { s with
          ProcTable := setAt s.ProcTable cu
            { s.ProcTable cu with next_in_list := (s.ProcTable nx).next_in_list } }
        modifyK fun s => { s with
          ProcTable := setAt s.ProcTable nx { s.ProcTable nx with next_in_list := none } }
        let s1 ← getK
        removeFromChildList_loop pidToRemove fuel (s1.ProcTable cu).next_sibling_ptr
      else
        removeFromChildList_loop pidToRemove fuel (some nx)

/-- The function `removeFromChildList`. -/
def removeFromChildList (c : Config) (pidToRemove : Int) : K ProcState Unit := do
  let s ← getK
  let me ← deref s.Current
  match (s.ProcTable me).child_proc_ptr with
  | none => pure ()
  | some cur =>
    if (s.ProcTable cur).pid = pidToRemove ∧ (s.ProcTable cur).next_sibling_ptr = none then
      modifyK fun s => { s with
        ProcTable := setAt s.ProcTable me { s.ProcTable me with child_proc_ptr := none } }
    else if (s.ProcTable cur).pid = pidToRemove then
      modifyK fun s => { s with
        ProcTable := setAt s.ProcTable me
          { s.ProcTable me with child_proc_ptr := (s.ProcTable cur).next_sibling_ptr } }
    else
      removeFromChildList_loop pidToRemove c.MAXPROC (some cur)

/-- The loop `while (1)` of `join` (lines 291-313), entered with `cur`: what the parent
executes when the dispatcher has made it the current process again.  The result is the
returned pid and the value stored through `code`.  At most `fuel` children are inspected;
when no child on the list has status 4 the loop of the source does not end. -/
def join_loop (c : Config) : Nat → Option Nat → K ProcState (Int × Int)
  | 0, _ => fault
  | fuel + 1, cur => do
    let cu ← deref cur
    let s ← getK
    if (s.ProcTable cu).status = 4 then do
      let code := (s.ProcTable cu).status_to_parent
      let quit_pid := (s.ProcTable cu).pid
      removeFromChildList c (s.ProcTable cu).pid
      let s1 ← getK
      let sl ← tableIndex (s1.ProcTable cu).slot c.MAXPROC
      modifyK fun s => { s with ProcTable := setAt s.ProcTable sl proc_struct.zero }
      let s2 ← getK
      let me ← deref s2.Current
      modifyK fun s => { s with
        ProcTable := setAt s.ProcTable me
          { s.ProcTable me with num_children := (s.ProcTable me).num_children - 1 } }
      modifyK fun s => { s with numProcs := s.numProcs - 1 }
      pure (quit_pid, code)
    else
      match (s.ProcTable cu).next_sibling_ptr with
      | none => do
        let me ← deref s.Current
        join_loop c fuel (s.ProcTable me).child_proc_ptr
      | some nx => join_loop c fuel (some nx)

/-- Lines 291-313 of `join`, with the local variable `cur` as it was set at line 283. -/
def join_afterBlock (c : Config) (cur : Option Nat) : K ProcState (Int × Int) :=
  join_loop c (2 * c.MAXPROC) cur

/-- The function `join`; `code` is the value the caller's variable holds before the call and
the result is the returned `int` and the value of that variable afterwards.  The call of
`dispatcher` switches to another process; `whileBlocked` stands for what happens until the
caller is the current process again. -/
def join (c : Config) (whileBlocked : K Kernel Unit) (code : Int) : K Kernel (Int × Int) := do
  disableInterrupts
  let s ← getK
  let me ← deref s.proc.Current
  if (s.proc.ProcTable me).num_children = 0 then
    pure (-2, code)
  else do
    let cur := (s.proc.ProcTable me).child_proc_ptr
    modifyProc fun p => { p with
      ProcTable := setAt p.ProcTable me { p.ProcTable me with status := 9 } }
    let s1 ← getK
    liftProc (removeFromReadyList c (s1.proc.ProcTable me).priority (s1.proc.ProcTable me).pid)
    let s2 ← getK
    liftProc (addToBlockedList c (s2.proc.ProcTable me).slot)
    dispatcher c
    whileBlocked
    liftProc (join_afterBlock c cur)

/-- The function `quit`.  `p1_quit` changes none of the modelled variables; the function
ends with the context switch inside `dispatcher`. -/
def quit (c : Config) (code : Int) : K Kernel Unit := do
  disableInterrupts
  let s ← getK
  let me ← deref s.proc.Current
  if (s.proc.ProcTable me).num_children > 0 then
    halt 1
  else do
    modifyProc fun p => { p with
      ProcTable := setAt p.ProcTable me { p.ProcTable me with status := 4 } }
    modifyProc fun p => { p with
      ProcTable := setAt p.ProcTable me { p.ProcTable me with status_to_parent := code } }
    let s1 ← getK
    let _ ← liftProc (removeFromBlockedList c (s1.proc.ProcTable me).parent_pid)
    let s2 ← getK
    liftProc (addToReadyList c (Int.tmod (s2.proc.ProcTable me).parent_pid c.MAXPROC))
    let s3 ← getK
    liftProc (removeFromReadyList c (s3.proc.ProcTable me).priority (s3.proc.ProcTable me).pid)
    dispatcher c

/-- The children of the process in table slot `p`, from `child_proc_ptr` along
`next_sibling_ptr`. -/
def childList (c : Config) (s : ProcState) (p : Nat) : List Nat :=
  chainFrom (fun k => (s.ProcTable k).next_sibling_ptr) c.MAXPROC (s.ProcTable p).child_proc_ptr

/-! ## Mailbox creation (`mailboxManager.c`) -/

/-- The loop `while (1)` of `assignMailBoxID`; at most `fuel` table entries are tested.
When no table entry is free the loop of the source does not end. -/
def assignMailBoxID_loop (c : Config) : Nat → K Kernel Int
  | 0 => fault
  | fuel + 1 => do
    let s ← getK
    let table_slot := Int.tmod s.nextMailBoxID c.MAXMBOX
    let i ← tableIndex table_slot c.MAXMBOX
    if (s.MailBoxTable i).mbox_id = 0 then do
      modifyK fun s => { s with
        MailBoxTable := setAt s.MailBoxTable i
          { s.MailBoxTable i with mbox_id := s.nextMailBoxID } }
      pure table_slot
    else do
      modifyK fun s => { s with nextMailBoxID := s.nextMailBoxID + 1 }
      assignMailBoxID_loop c fuel

/-- The function `assignMailBoxID`.  After an assignment `nextMailBoxID` still holds the id
that was assigned. -/
def assignMailBoxID (c : Config) : K Kernel Int :=
  assignMailBoxID_loop c c.MAXMBOX

/-- The function `MboxCreate`. -/
def MboxCreate (c : Config) (slots slot_size : Int) : K Kernel Int := do
  check_kernel_mode
  handleProc c
  let s ← getK
  if s.numMailBoxes ≥ c.MAXMBOX ∨ slot_size < 0 ∨ slot_size > c.MAX_MESSAGE ∨ slots < 0 then
    pure (-1)
  else do
    disableInterrupts
    let slot ← assignMailBoxID c
    let b ← tableIndex slot c.MAXMBOX
    let s1 ← getK
    let assignedID := (s1.MailBoxTable b).mbox_id
    modifyK fun s => { s with
      MailBoxTable := setAt s.MailBoxTable b { s.MailBoxTable b with num_slots := slots } }
    modifyK fun s => { s with
      MailBoxTable := setAt s.MailBoxTable b { s.MailBoxTable b with slot_size := slot_size } }
    modifyK fun s => { s with
      MailBoxTable := setAt s.MailBoxTable b { s.MailBoxTable b with unused_slots := slots } }
    modifyK fun s => { s with
      MailBoxTable := setAt s.MailBoxTable b { s.MailBoxTable b with numWaiting := 0 } }
    modifyK fun s => { s with numMailBoxes := s.numMailBoxes + 1 }
    enableInterrupts
    pure assignedID

/-- Test of an outcome: it is a halt with code `v` in a state that passes `P`. -/
def Outcome.haltSat {σ α : Type} (o : Outcome σ α) (v : Int) (P : σ → Bool) : Bool :=
  match o with
  | Outcome.halt code s => decide (code = v) && P s
  | _ => false

/-- Test of an outcome: it is a fault. -/
def Outcome.isFault {σ α : Type} (o : Outcome σ α) : Bool :=
  match o with
  | Outcome.fault => true
  | _ => false

/-- The number of mail slots marked occupied. -/
def occupiedSlots (c : Config) (s : Kernel) : Nat :=
  ((List.range c.MAXSLOTS).filter fun k => decide ((s.MailSlotTable k).isOccupied ≠ 0)).length

/-- The sum of `num_slots - unused_slots` over the mailbox table entries in use. -/
def slotsInUse (c : Config) (s : Kernel) : Int :=
  ((List.range c.MAXMBOX).map fun b =>
    if (s.MailBoxTable b).mbox_id ≠ 0 then
      (s.MailBoxTable b).num_slots - (s.MailBoxTable b).unused_slots
    else 0).sum

/-! ## Concrete states for process creation, termination and mailbox creation -/

/-- Mailbox 7 was created with 0 slots of 4 bytes; pid 3 is blocked in a send on it (it is
the only entry of the blocked-senders queue and is blocked with status 11); no process
waits in a receive.  Pid 2 is running and has not used a mailbox yet. -/
def blockedSenderState : Kernel :=
  { bootState with
    proc := blocked3Procs,
    nextMailBoxID := 8, numMailBoxes := 1, CurrentProc := some 0,
    MBoxProcTable := setAt (fun _ => mbox_proc.zero) 0 { mbox_proc.zero with pid := 3, index := 0 },
    MailBoxTable := setAt (fun _ => mail_box.zero) 7
      { mail_box.zero with
        mbox_id := 7, num_slots := 0, slot_size := 4, unused_slots := 0, numBlocked := 1,
        blockedProc := some 0 } }

/-- Pid 2 (priority 1) is running and has two children, forked in this order: pid 3
(priority 2, ready) and pid 4 (priority 2), which has quit with exit code 5. -/
def joinState : ProcState :=
  { ProcTable := setAt (setAt (setAt (setAt (fun _ => proc_struct.zero) 1 (readyProc 1 6))
      2 { readyProc 2 1 with child_proc_ptr := some 3, num_children := 2 })
      3 { readyProc 3 2 with parent_pid := 2, next_sibling_ptr := some 4 })
      4 { readyProc 4 2 with parent_pid := 2, status := 4, status_to_parent := 5 },
    ReadyProcs := setAt (setAt (setAt (fun _ => procLinkedList.zero) 6
      { hasProc := 1, head := some 1, tail := some 1 }) 1
      { hasProc := 1, head := some 2, tail := some 2 }) 2
      { hasProc := 1, head := some 3, tail := some 3 },
    BlockedProcs := procLinkedList.zero,
    Current := some 2, next_pid := 4, numProcs := 4 }

/-- The process table of `quitState` before the blocked list is linked: the sentinel, pid 2
(priority 1, blocked in a `join` with status 9, parent of pid 4), pid 3 (priority 1, blocked
in a `join`) and pid 4 (priority 2, ready). -/
def quitProcs : Nat → proc_struct :=
  setAt (setAt (setAt (setAt (fun _ => proc_struct.zero) 1 (readyProc 1 6))
    2 { readyProc 2 1 with status := 9, child_proc_ptr := some 4, num_children := 1 })
    3 { readyProc 3 1 with status := 9 })
    4 { readyProc 4 2 with parent_pid := 2 }

/-- Pid 4 (no children) is running; its parent pid 2 and pid 3 are on the blocked list, the
process in table slot `first` before the process in table slot `second`. -/
def quitState (first second : Nat) : Kernel :=
  { bootState with
    proc :=
      { ProcTable := setAt quitProcs first { quitProcs first with next_in_list := some second },
        ReadyProcs := setAt (setAt (fun _ => procLinkedList.zero) 6
          { hasProc := 1, head := some 1, tail := some 1 }) 2
          { hasProc := 1, head := some 4, tail := some 4 },
        BlockedProcs := { hasProc := 1, head := some first, tail := some second },
        Current := some 4, next_pid := 5, numProcs := 4 } }

/-- Mailbox 7 was created with 0 slots of 4 bytes.  Pid 3 is blocked in a send on it: it is
the only entry of the blocked-senders queue and has status 11.  A later send, made while a
receiver was waiting, has put its message into mail slot 0 and left `unused_slots` at -1;
that receiver has not taken the message yet.  Pid 2 is running. -/
def strandedSenderState : Kernel :=
  { bootState with
    proc := blocked3Procs,
    nextMailBoxID := 8, numMailBoxes := 1, CurrentProc := some 1,
    MBoxProcTable := twoMboxProcs,
    MailSlotTable := setAt (fun _ => mail_slot.zero) 0
      { mail_slot.zero with mbox_id := 7, isOccupied := 1, index := 0, messageSize := 1,
                            message := msgA },
    MailBoxTable := setAt (fun _ => mail_box.zero) 7
      { mail_box.zero with
        mbox_id := 7, num_slots := 0, slot_size := 4, unused_slots := -1, numBlocked := 1,
        first_slot := some 0, blockedProc := some 1 } }

/-- The function `check_deadlock`; `status` is the value its uninitialised local variable
holds, and `whileBlocked` is passed on to `join`. -/
def check_deadlock (c : Config) (whileBlocked : K Kernel Unit) (status : Int) : K Kernel Unit := do
  let _ ← join c whileBlocked status
  halt 0

/-! ## Semaphores (`syscallManager.c`, `sems.h`) -/

/-- The `struct Semaphore` of `sems.h`. -/
structure Semaphore where
  status : Int
  id : Int
  value : Int
  firstWaiting : Option Nat
deriving DecidableEq, Repr

/-- An all-zero semaphore table entry. -/
def Semaphore.zero : Semaphore := { status := 0, id := 0, value := 0, firstWaiting := none }

/-- The `struct UserProc` of `sems.h`; a pointer to a `UserProc` is the index of the entry
in `userProcTable`.  The function pointer `entryPoint` is left out. -/
structure UserProc where
  nextChild : Option Nat
  pid : Int
  parentPid : Int
  startupMbox : Int
  semMbox : Int
  firstChild : Option Nat
  nextWaiting : Option Nat
deriving DecidableEq, Repr

/-- An all-zero user process table entry. -/
def UserProc.zero : UserProc :=
  { nextChild := none, pid := 0, parentPid := 0, startupMbox := 0, semMbox := 0,
    firstChild := none, nextWaiting := none }

/-- The USLOSS `sysargs` record a system call receives and fills in; the `void *` fields are
integers here. -/
structure sysargs where
  number : Int
  arg1 : Int
  arg2 : Int
  arg3 : Int
  arg4 : Int
  arg5 : Int
deriving DecidableEq, Repr

/-- The kernel state together with the global variables of `syscallManager.c`. -/
structure SysState where
  kernel : Kernel
  userProcTable : Nat → UserProc
  semTable : Nat → Semaphore
  numSems : Int
  semIDAssign : Int
  mutexBox : Int

/-- Run a function of the process manager or of the mailbox manager inside the state of the
system call layer. -/
def liftKernel {α : Type} (m : K Kernel α) : K SysState α := fun s =>
  match m s.kernel with
  | Outcome.ret a k => Outcome.ret a { s with kernel := k }
  | Outcome.halt code k => Outcome.halt code { s with kernel := k }
  | Outcome.fault => Outcome.fault

/-- The `NULL` message pointer the semaphore code passes with length 0: no byte of it is
read or written. -/
def nullMsg : Nat → Int := fun _ => 0

/-- The function `getSemSlot`; `MAXSEMS` is a constant of the USLOSS headers. -/
def getSemSlot (MAXSEMS : Nat) (semID : Int) : Int := Int.tmod semID MAXSEMS

/-- The loop `while (cur->nextWaiting != NULL) cur = cur->nextWaiting;` of `addToWaitList`:
the entry it stops at, or `none` when `fuel` entries were visited without reaching the end. -/
def lastWaiting (tbl : Nat → UserProc) : Nat → Nat → Option Nat
  | 0, _ => none
  | fuel + 1, cur =>
    match (tbl cur).nextWaiting with
    | none => some cur
    | some nx => lastWaiting tbl fuel nx

/-- The function `addToWaitList`. -/
def addToWaitList (c : Config) (MAXSEMS : Nat) (semSlot procSlot : Int) : K SysState Unit := do
  let i ← tableIndex semSlot MAXSEMS
  let p ← tableIndex procSlot c.MAXPROC
  let s ← getK
  match (s.semTable i).firstWaiting with
  | none =>
    modifyK fun s => { s with
      semTable := setAt s.semTable i { s.semTable i with firstWaiting := some p } }
  | some first => do
    let cur ← deref (lastWaiting s.userProcTable c.MAXPROC first)
    modifyK fun s => { s with
      userProcTable := setAt s.userProcTable cur { s.userProcTable cur with nextWaiting := some p } }

/-- The function `syscall_semP`.  It calls `getpid()`, the phase-1 name of `get_pid`.  The
record `*pargs` is the argument and, as modified, the result. -/
def syscall_semP (c : Config) (MAXSEMS : Nat) (pargs : sysargs) : K SysState sysargs := do
  let semID := pargs.arg1
  let slot := getSemSlot MAXSEMS semID
  let i ← tableIndex slot MAXSEMS
  let s ← getK
  if (s.semTable i).status = 0 ∨ semID < 0 then
    pure { pargs with arg4 := -1 }
  else do
    let _ ← liftKernel (MboxSend c s.mutexBox nullMsg 0)
    let s1 ← getK
    if (s1.semTable i).value > 0 then do
      modifyK fun s => { s with
        semTable := setAt s.semTable i { s.semTable i with value := (s.semTable i).value - 1 } }
      pure { pargs with arg4 := 0 }
    else do
      let pid ← liftKernel (liftProc get_pid)
      let procSlot := Int.tmod pid c.MAXPROC
      addToWaitList c MAXSEMS slot procSlot
      let s2 ← getK
      let _ ← liftKernel (MboxReceive c s2.mutexBox nullMsg 0)
      let p ← tableIndex procSlot c.MAXPROC
      let s3 ← getK
      let _ ← liftKernel (MboxReceive c (s3.userProcTable p).semMbox nullMsg 0)
      pure { pargs with arg4 := 0 }

/-- The function `syscall_semV`. -/
def syscall_semV (c : Config) (MAXSEMS : Nat) (pargs : sysargs) : K SysState sysargs := do
  let semID := pargs.arg1
  let slot := getSemSlot MAXSEMS semID
  let i ← tableIndex slot MAXSEMS
  let s ← getK
  if (s.semTable i).status = 0 ∨ semID < 0 then
    pure { pargs with arg4 := -1 }
  else do
    modifyK fun s => { s with
      semTable := setAt s.semTable i { s.semTable i with value := (s.semTable i).value + 1 } }
    let _ ← liftKernel (MboxSend c s.mutexBox nullMsg 0)
    let s1 ← getK
    match (s1.semTable i).firstWaiting with
    | some curFirst => do
      modifyK fun s => { s with
        semTable := setAt s.semTable i
          { s.semTable i with firstWaiting := (s.userProcTable curFirst).nextWaiting } }
      let s2 ← getK
      let _ ← liftKernel (MboxCondSend c (s2.userProcTable curFirst).semMbox nullMsg 0)
      pure ()
    | none => pure ()
    let s3 ← getK
    let _ ← liftKernel (MboxReceive c s3.mutexBox nullMsg 0)
    pure { pargs with arg4 := 0 }

/-- The `while` loop of `syscall_semFree`, entered with `cur`; `zap` is the phase-1 function
of that name, which `processManager.c` declares and does not define.  The loop advances
along `nextChild`, as the source does. -/
def semFree_loop (zap : Int → K SysState Int) : Nat → Option Nat → K SysState Unit
  | _, none => pure ()
  | 0, some _ => fault
  | fuel + 1, some cur => do
    let s ← getK
    let _ ← zap (s.userProcTable cur).pid
    let s1 ← getK
    semFree_loop zap fuel (s1.userProcTable cur).nextChild

/-- The function `syscall_semFree`; `zap` is the phase-1 function of that name. -/
def syscall_semFree (zap : Int → K SysState Int) (c : Config) (MAXSEMS : Nat) (pargs : sysargs) :
    K SysState sysargs := do
  let semID := pargs.arg1
  let slot := getSemSlot MAXSEMS semID
  let i ← tableIndex slot MAXSEMS
  let s ← getK
  if (s.semTable i).status = 0 ∨ semID < 0 then
    pure { pargs with arg4 := -1 }
  else do
    let arg4 ← (match (s.semTable i).firstWaiting with
      | some cur => do
        semFree_loop zap c.MAXPROC (some cur)
        pure (1 : Int)
      | none => pure (0 : Int))
    modifyK fun s => { s with semTable := setAt s.semTable i { s.semTable i with value := 0 } }
    modifyK fun s => { s with semTable := setAt s.semTable i { s.semTable i with status := 0 } }
    modifyK fun s => { s with
      semTable := setAt s.semTable i { s.semTable i with firstWaiting := none } }
    modifyK fun s => { s with numSems := s.numSems - 1 }
    pure { pargs with arg4 := arg4 }

/-- Modelled from the spec: `zap(pid)` "marks target ZAPPED", which is status 3 of the
process in table slot `pid % MAXPROC`; the declaration is in `processManager.c`, the
definition is missing.  The wait until the target quits is left out. -/
def zapMark (c : Config) (pid : Int) : K SysState Int := do
  let i ← tableIndex (Int.tmod pid c.MAXPROC) c.MAXPROC
  modifyK fun s => { s with
    kernel := { s.kernel with
      proc := { s.kernel.proc with
        ProcTable := setAt s.kernel.proc.ProcTable i
          { s.kernel.proc.ProcTable i with status := 3 } } } }
  pure 0

/-- The waiter list of the semaphore in table entry `i`, from `firstWaiting` along
`nextWaiting`. -/
def waiterList (c : Config) (s : SysState) (i : Nat) : List Nat :=
  chainFrom (fun k => (s.userProcTable k).nextWaiting) c.MAXPROC (s.semTable i).firstWaiting

/-! ## The sleep queue (`driverManager.c`, `driver.h`) -/

/-- The `struct driver_proc` of `driver.h`; a pointer to a `driver_proc` is the index of the
entry in `Driver_Table`, and `disk_buf` is an address. -/
structure driver_proc where
  nextDiskReq : Option Nat
  nextAsleep : Option Nat
  pid : Int
  slot : Int
  wake_time : Int
  been_zapped : Int
  semHandle : Int
  time_asleep : Int
  operation : Int
  track_start : Int
  sector_start : Int
  num_sectors : Int
  sectors_read : Int
  current_track : Int
  current_sector : Int
  unit : Int
  disk_buf : Int
deriving DecidableEq, Repr

/-- An all-zero driver table entry. -/
def driver_proc.zero : driver_proc :=
  { nextDiskReq := none, nextAsleep := none, pid := 0, slot := 0, wake_time := 0,
    been_zapped := 0, semHandle := 0, time_asleep := 0, operation := 0, track_start := 0,
    sector_start := 0, num_sectors := 0, sectors_read := 0, current_track := 0,
    current_sector := 0, unit := 0, disk_buf := 0 }

/-- The `struct sleepQueue` of `driver.h`. -/
structure sleepQueue where
  hasProc : Int
  head : Option Nat
deriving DecidableEq, Repr

/-- The variables of `driverManager.c` that the sleep queue uses. -/
structure DriverState where
  Driver_Table : Nat → driver_proc
  sleepingProcs : sleepQueue

/-- The `while` loop of `addToSleepQueue`, entered with `cur`: the entry after which the new
one is inserted, or `none` when `fuel` tests of the loop condition did not end the loop. -/
def addToSleepQueue_loop (tbl : Nat → driver_proc) (wakeTime : Int) : Nat → Nat → Option Nat
  | 0, _ => none
  | fuel + 1, cur =>
    if wakeTime > (tbl cur).wake_time then
      match (tbl cur).nextAsleep with
      | none => some cur
      | some nx =>
        if wakeTime < (tbl nx).wake_time then some cur
        else addToSleepQueue_loop tbl wakeTime fuel nx
    else some cur

/-- The function `addToSleepQueue`. -/
def addToSleepQueue (c : Config) (slot : Int) : K DriverState Unit := do
  let i ← tableIndex slot c.MAXPROC
  let s ← getK
  if s.sleepingProcs.hasProc = 0 then do
    modifyK fun s => { s with sleepingProcs := { s.sleepingProcs with head := some i } }
    modifyK fun s => { s with sleepingProcs := { s.sleepingProcs with hasProc := 1 } }
  else do
    let wakeTime := (s.Driver_Table i).wake_time
    let cur ← deref s.sleepingProcs.head
    if wakeTime < (s.Driver_Table cur).wake_time then do
      modifyK fun s => { s with
        Driver_Table := setAt s.Driver_Table i { s.Driver_Table i with nextAsleep := some cur } }
      modifyK fun s => { s with sleepingProcs := { s.sleepingProcs with head := some i } }
    else do
      let cur1 ← deref (addToSleepQueue_loop s.Driver_Table wakeTime c.MAXPROC cur)
      let oldNext := (s.Driver_Table cur1).nextAsleep
      modifyK fun s => { s with
        Driver_Table := setAt s.Driver_Table cur1
          { s.Driver_Table cur1 with nextAsleep := some i } }
      let s1 ← getK
      let nw ← deref (s1.Driver_Table cur1).nextAsleep
      modifyK fun s => { s with
        Driver_Table := setAt s.Driver_Table nw { s.Driver_Table nw with nextAsleep := oldNext } }

/-- The link `nextAsleep` of each driver table entry. -/
def sleepNext (s : DriverState) : Nat → Option Nat := fun k => (s.Driver_Table k).nextAsleep

/-- The sleep queue consists of the driver table entries `L`, in order: they are linked from
`sleepingProcs.head` and pairwise distinct, and `hasProc` is 0 exactly when there are none. -/
def SleepQueue (s : DriverState) (L : List Nat) : Prop :=
  IsChain (sleepNext s) s.sleepingProcs.head L ∧ L.Nodup ∧
  (s.sleepingProcs.hasProc = 0 ↔ L = [])

/-- The wake-up times of the entries `L`, in order. -/
def wakeTimes (s : DriverState) (L : List Nat) : List Int :=
  L.map fun k => (s.Driver_Table k).wake_time

/-- The sleep queue read from its head along `nextAsleep`, at most `fuel` entries. -/
def sleepList (fuel : Nat) (s : DriverState) : List Nat :=
  chainFrom (sleepNext s) fuel s.sleepingProcs.head


/-! ## Concrete states for unblocking, the sentinel, semaphores and the sleep queue -/

/-- The sentinel (pid 1, priority 6) and pid 2 (priority 2) are ready; pid 2 is running. -/
def forkParentState : Kernel :=
  { bootState with
    proc :=
      { ProcTable := setAt (setAt (fun _ => proc_struct.zero) 1 (readyProc 1 6)) 2 (readyProc 2 2),
        ReadyProcs := setAt (setAt (fun _ => procLinkedList.zero) 6
          { hasProc := 1, head := some 1, tail := some 1 }) 2
          { hasProc := 1, head := some 2, tail := some 2 },
        BlockedProcs := procLinkedList.zero,
        Current := some 2, next_pid := 2, numProcs := 2 } }

/-- The sentinel (pid 1, priority 6) is running and has one child, pid 2 (priority 1,
ready). -/
def sentinelJoinState : Kernel :=
  { bootState with
    proc :=
      { ProcTable := setAt (setAt (fun _ => proc_struct.zero)
          1 { readyProc 1 6 with child_proc_ptr := some 2, num_children := 1 })
          2 { readyProc 2 1 with parent_pid := 1 },
        ReadyProcs := setAt (setAt (fun _ => procLinkedList.zero) 6
          { hasProc := 1, head := some 1, tail := some 1 }) 1
          { hasProc := 1, head := some 2, tail := some 2 },
        BlockedProcs := procLinkedList.zero,
        Current := some 1, next_pid := 2, numProcs := 2 } }

/-- The mailboxes the semaphore code uses, with the ids `start2` obtains for them: the mutex
mailbox 107 (1 slot of 0 bytes) and the zero-slot semaphore mailboxes 12, 14, 16 and 18 of
the processes in table slots 2, 3, 4 and 5.  All are empty. -/
def semBoxes : Nat → mail_box :=
  setAt (setAt (setAt (setAt (setAt (fun _ => mail_box.zero)
    107 { mail_box.zero with mbox_id := 107, num_slots := 1, unused_slots := 1 })
    12 { mail_box.zero with mbox_id := 12 })
    14 { mail_box.zero with mbox_id := 14 })
    16 { mail_box.zero with mbox_id := 16 })
    18 { mail_box.zero with mbox_id := 18 }

/-- The user process table entries of pids 2, 3, 4 and 5, with their semaphore mailboxes. -/
def semProcs : Nat → UserProc :=
  setAt (setAt (setAt (setAt (fun _ => UserProc.zero)
    2 { UserProc.zero with pid := 2, startupMbox := 11, semMbox := 12 })
    3 { UserProc.zero with pid := 3, parentPid := 2, startupMbox := 13, semMbox := 14 })
    4 { UserProc.zero with pid := 4, parentPid := 2, startupMbox := 15, semMbox := 16 })
    5 { UserProc.zero with pid := 5, parentPid := 2, startupMbox := 17, semMbox := 18 }

/-- Semaphore 0 is in use with value 2 and no waiter; the mutex mailbox is empty; pid 2 is
running. -/
def semState : SysState :=
  { kernel := { twoProcState with nextMailBoxID := 107, numMailBoxes := 107,
                                  MailBoxTable := semBoxes },
    userProcTable := semProcs,
    semTable := setAt (fun _ => Semaphore.zero) 0 { status := 1, id := 0, value := 2,
                                                    firstWaiting := none },
    numSems := 1, semIDAssign := 1, mutexBox := 107 }

/-- Semaphore 0 is in use with value 0 and the waiter list [pid 3]: pid 3 is blocked (status
11) in the receive on its semaphore mailbox 14, of whose waiting queue it is the only entry.
The mutex mailbox is empty; pid 2 is running. -/
def semWaiterState : SysState :=
  { kernel :=
      { bootState with
        proc := blocked3Procs,
        nextMailBoxID := 107, numMailBoxes := 107, CurrentProc := some 1,
        MBoxProcTable := twoMboxProcs,
        MailBoxTable := setAt semBoxes 14
          { mail_box.zero with mbox_id := 14, numWaiting := 1, waitingProc := some 1 } },
    userProcTable := semProcs,
    semTable := setAt (fun _ => Semaphore.zero) 0 { status := 1, id := 0, value := 0,
                                                    firstWaiting := some 3 },
    numSems := 1, semIDAssign := 1, mutexBox := 107 }

/-- Pid 2 (running) has the children pid 4, pid 3 and pid 5, spawned in this order, so that
`nextChild` leads from 4 to 3 and from 3 to 5.  Semaphore 0 is in use with value 0 and the
waiter list [pid 3, pid 4]; pids 3 and 4 are blocked with status 11, pid 5 is ready. -/
def semFreeState : SysState :=
  { kernel :=
      { bootState with
        proc :=
          { ProcTable := setAt (setAt (setAt (setAt (setAt (fun _ => proc_struct.zero)
              1 (readyProc 1 6)) 2 (readyProc 2 1))
              3 { readyProc 3 1 with status := 11, next_in_list := some 4, parent_pid := 2 })
              4 { readyProc 4 1 with status := 11, parent_pid := 2 })
              5 { readyProc 5 1 with parent_pid := 2 },
            ReadyProcs := setAt (setAt (fun _ => procLinkedList.zero) 6
              { hasProc := 1, head := some 1, tail := some 1 }) 1
              { hasProc := 1, head := some 2, tail := some 5 },
            BlockedProcs := { hasProc := 1, head := some 3, tail := some 4 },
            Current := some 2, next_pid := 5, numProcs := 5 },
        nextMailBoxID := 107, numMailBoxes := 107, MailBoxTable := semBoxes },
    userProcTable := setAt (setAt (setAt semProcs
      2 { semProcs 2 with firstChild := some 4 })
      3 { semProcs 3 with nextChild := some 5, nextWaiting := some 4 })
      4 { semProcs 4 with nextChild := some 3 },
    semTable := setAt (fun _ => Semaphore.zero) 0 { status := 1, id := 0, value := 0,
                                                    firstWaiting := some 3 },
    numSems := 1, semIDAssign := 1, mutexBox := 107 }

/-- The call record of a semaphore system call on the semaphore with id `semID`. -/
def semArgs (semID : Int) : sysargs :=
  { number := 0, arg1 := semID, arg2 := 0, arg3 := 0, arg4 := 7, arg5 := 0 }

/-- The driver table in which the entries 2, 3 and 4 all have the wake-up time 5000000 and
no entry is linked; the sleep queue is empty. -/
def tieState : DriverState :=
  { Driver_Table := setAt (setAt (setAt (fun _ => driver_proc.zero)
      2 { driver_proc.zero with pid := 2, slot := 2, wake_time := 5000000 })
      3 { driver_proc.zero with pid := 3, slot := 3, wake_time := 5000000 })
      4 { driver_proc.zero with pid := 4, slot := 4, wake_time := 5000000 },
    sleepingProcs := { hasProc := 0, head := none } }

/-- The driver table in which the entries 2, 3 and 4 have the wake-up times of `sleep(3)`,
`sleep(1)` and `sleep(2)` called at time 0; the sleep queue is empty. -/
def threeSleepers : DriverState :=
  { Driver_Table := setAt (setAt (setAt (fun _ => driver_proc.zero)
      2 { driver_proc.zero with pid := 2, slot := 2, wake_time := 3000000 })
      3 { driver_proc.zero with pid := 3, slot := 3, wake_time := 1000000 })
      4 { driver_proc.zero with pid := 4, slot := 4, wake_time := 2000000 },
    sleepingProcs := { hasProc := 0, head := none } }

/-- The processes of `blocked3Procs`, with pid 3 on the blocked list holding status 10. -/
def statusTenProcs : ProcState :=
  { blocked3Procs with
    ProcTable := setAt blocked3Procs.ProcTable 3 { readyProc 3 1 with status := 10 } }

/-- The sentinel and pid 2 are ready and pid 2 is running; the pids 3, 4 and 5 (priority 1)
are on the blocked list, in this order, each with status 11. -/
def blockedMidProcs : ProcState :=
  { ProcTable := setAt (setAt (setAt (setAt (setAt (fun _ => proc_struct.zero)
      1 (readyProc 1 6)) 2 (readyProc 2 1))
      3 { readyProc 3 1 with status := 11, next_in_list := some 4 })
      4 { readyProc 4 1 with status := 11, next_in_list := some 5 })
      5 { readyProc 5 1 with status := 11 },
    ReadyProcs := setAt (setAt (fun _ => procLinkedList.zero) 6
      { hasProc := 1, head := some 1, tail := some 1 }) 1
      { hasProc := 1, head := some 2, tail := some 2 },
    BlockedProcs := { hasProc := 1, head := some 3, tail := some 5 },
    Current := some 2, next_pid := 6, numProcs := 5 }

/-- The driver table of `threeSleepers` with the entries 3 (1 s) and 2 (3 s) on the sleep
queue, in this order; entry 4 (2 s) is not queued. -/
def sleepTwoState : DriverState :=
  { Driver_Table := setAt threeSleepers.Driver_Table 3
      { threeSleepers.Driver_Table 3 with nextAsleep := some 2 },
    sleepingProcs := { hasProc := 1, head := some 3 } }

/-- The driver table of `tieState` with the entries 2 and 3 on the sleep queue, in this
order; entry 4 is not queued.  All three have the same wake-up time. -/
def tieTwoState : DriverState :=
  { Driver_Table := setAt tieState.Driver_Table 2
      { tieState.Driver_Table 2 with nextAsleep := some 3 },
    sleepingProcs := { hasProc := 1, head := some 2 } }

/-! ## Views of the process lists and of the sleep queue -/

/-- The `next_in_list` link of each process descriptor. -/
def procNext (s : ProcState) : Nat → Option Nat := fun k => (s.ProcTable k).next_in_list

/-- The process table after the loop of `removeFromBlockedList` has unlinked entry `i`,
the successor of entry `pred`: the three assignments of the loop body, in order. -/
def unlinkedTable (tbl : Nat → proc_struct) (pred i : Nat) : Nat → proc_struct :=
  let t1 := setAt tbl i { tbl i with status := 1 }
  let t2 := setAt t1 pred { t1 pred with next_in_list := (t1 i).next_in_list }
  setAt t2 i { t2 i with next_in_list := none }

/-- The state after `addToSleepQueue` has put the entry `i` in front of the head `h`. -/
def sleepFront (s : DriverState) (i h : Nat) : DriverState :=
  { s with
    Driver_Table := setAt s.Driver_Table i { s.Driver_Table i with nextAsleep := some h },
    sleepingProcs := { s.sleepingProcs with head := some i } }

/-- The state after `addToSleepQueue` has put the entry `i` behind the entry `c1`. -/
def sleepAfter (s : DriverState) (i c1 : Nat) : DriverState :=
  { s with
    Driver_Table := setAt (setAt s.Driver_Table c1
        { s.Driver_Table c1 with nextAsleep := some i }) i
      { s.Driver_Table i with nextAsleep := (s.Driver_Table c1).nextAsleep } }

/-! ## The clock driver and the disk driver (`driverManager.c`) -/

/-- Constants of `usloss.h` that the disk code reads; the header is not part of the
repository. -/
structure DiskConsts where
  DISK_UNITS : Nat
  DISK_SECTOR_SIZE : Int
  DISK_TRACK_SIZE : Int
  DISK_READ : Int
  DISK_WRITE : Int
  DISK_SEEK : Int
deriving DecidableEq, Repr

/-- The values `usloss.h` gives these constants. -/
def diskConsts : DiskConsts :=
  { DISK_UNITS := 2, DISK_SECTOR_SIZE := 512, DISK_TRACK_SIZE := 16, DISK_READ := 0,
    DISK_WRITE := 1, DISK_SEEK := 2 }

/-- The `struct diskQueue` of `driver.h`. -/
structure diskQueue where
  hasProc : Int
  head : Option Nat
deriving DecidableEq, Repr

/-- The record `device_request` of `usloss.h` that `device_output` receives, with the three
fields the code assigns; the `void *` registers are integers here. -/
structure device_request where
  opr : Int
  reg1 : Int
  reg2 : Int
deriving DecidableEq, Repr

/-- A call the driver code makes into a layer that is not part of the repository:
`device_output(DISK_DEV, unit, &req)` or `semv_real(sem)`. -/
inductive DriverCall where
  | output : Int → device_request → DriverCall
  | semv : Int → DriverCall
deriving DecidableEq, Repr

/-- The global variables of `driverManager.c` that the modelled functions use, together
with `calls`, the calls made so far into the layers outside the repository, oldest
first. -/
structure DriverSys where
  drv : DriverState
  diskRequests : Nat → diskQueue
  trackNumber : Int
  num_tracks : Nat → Int
  calls : List DriverCall

/-- Run a function that touches only the driver table and the sleep queue inside the whole
driver state. -/
def liftDriver {α : Type} (m : K DriverState α) : K DriverSys α := fun s =>
  match m s.drv with
  | Outcome.ret a d => Outcome.ret a { s with drv := d }
  | Outcome.halt code d => Outcome.halt code { s with drv := d }
  | Outcome.fault => Outcome.fault

/-- Modelled from the spec: `semv_real(sem)` is the V operation on the semaphore `sem`
("V-ing each waiter's private semaphore"); it is defined outside the repository.  The call
is recorded in `calls`; the driver table and the queues are not touched. -/
def semv_real (sem : Int) : K DriverSys Int := do
  modifyK fun s => { s with calls := s.calls ++ [DriverCall.semv sem] }
  pure 0

/-- Modelled from the spec: `device_output(DISK_DEV, unit, &req)` hands a request to the
simulated disk; it belongs to the simulator.  The call is recorded in `calls` and returns
`DEV_OK` (0); the driver table and the queues are not touched. -/
def recordOutput (unit : Int) (req : device_request) : K DriverSys Int := do
  modifyK fun s => { s with calls := s.calls ++ [DriverCall.output unit req] }
  pure 0

/-- The call `device_output` during which the driver is preempted: the call is recorded as
by `recordOutput`, and `other`, what the processes dispatched meanwhile do to the driver
state, runs before the call returns. -/
def preemptedOutput (other : K DriverSys Unit) (unit : Int) (req : device_request) :
    K DriverSys Int := do
  let r ← recordOutput unit req
  other
  pure r

/-- The function `waitdevice` of `mailboxManager.c`: it returns 0 and touches nothing. -/
def waitdevice {σ : Type} : K σ Int := pure 0

/-- The function `removeFromSleepQueue`. -/
def removeFromSleepQueue : K DriverState Int := do
  let s ← getK
  match s.sleepingProcs.head with
  | none => pure (-1)
  | some cur =>
    match (s.Driver_Table cur).nextAsleep with
    | none => do
      let removedSlot := (s.Driver_Table cur).slot
      modifyK fun s => { s with sleepingProcs := { s.sleepingProcs with head := none } }
      modifyK fun s => { s with sleepingProcs := { s.sleepingProcs with hasProc := 0 } }
      pure removedSlot
    | some nx => do
      modifyK fun s => { s with sleepingProcs := { s.sleepingProcs with head := some nx } }
      modifyK fun s => { s with
        Driver_Table := setAt s.Driver_Table cur { s.Driver_Table cur with nextAsleep := none } }
      let s1 ← getK
      pure (s1.Driver_Table cur).slot

/-- The inner `while` loop of `ClockDriver` (lines 153-163), which wakes the sleepers whose
time has come; `curTime` is the time `gettimeofday_real` stored, and at most `fuel` tests
of the loop condition are made. -/
def ClockDriver_loop (c : Config) (curTime : Int) : Nat → K DriverSys Unit
  | 0 => fault
  | fuel + 1 => do
    let s ← getK
    match s.drv.sleepingProcs.head with
    | none => pure ()
    | some procInQueue =>
      if curTime ≥ (s.drv.Driver_Table procInQueue).wake_time then do
        let removedSlot ← liftDriver removeFromSleepQueue
        if removedSlot ≠ -1 then do
          let r ← tableIndex removedSlot c.MAXPROC
          let s1 ← getK
          let privateSem := (s1.drv.Driver_Table r).semHandle
          let _ ← semv_real privateSem
          pure ()
        else
          pure ()
        ClockDriver_loop c curTime fuel
      else
        pure ()

/-- Lines 148-164 of `ClockDriver`: one pass over the sleep queue at the time `curTime`
that `gettimeofday_real` stored.  The queue holds at most `MAXPROC` entries. -/
def ClockDriver_wake (c : Config) (curTime : Int) : K DriverSys Unit :=
  ClockDriver_loop c curTime (c.MAXPROC + 1)

/-- The `while` loop of `addToDiskQueue`, entered with `cur`: the entry after which the new
one is inserted.  The second test reads `cur->nextAsleep->track_start`, as the source does.
At most `fuel` tests of the loop condition are made. -/
def addToDiskQueue_loop (track : Int) : Nat → Nat → K DriverSys Nat
  | 0, _ => fault
  | fuel + 1, cur => do
    let s ← getK
    if track > (s.drv.Driver_Table cur).track_start then
      match (s.drv.Driver_Table cur).nextDiskReq with
      | none => pure cur
      | some nx => do
        let na ← deref (s.drv.Driver_Table cur).nextAsleep
        if track < (s.drv.Driver_Table na).track_start then
          pure cur
        else
          addToDiskQueue_loop track fuel nx
    else
      pure cur

/-- The function `addToDiskQueue`. -/
def addToDiskQueue (c : Config) (d : DiskConsts) (slot unit : Int) : K DriverSys Unit := do
  let i ← tableIndex slot c.MAXPROC
  let u ← tableIndex unit d.DISK_UNITS
  let s ← getK
  if (s.diskRequests u).hasProc = 0 then do
    modifyK fun s => { s with
      diskRequests := setAt s.diskRequests u { s.diskRequests u with head := some i } }
    modifyK fun s => { s with
      diskRequests := setAt s.diskRequests u { s.diskRequests u with hasProc := 1 } }
  else do
    let track := (s.drv.Driver_Table i).track_start
    let cur ← deref (s.diskRequests u).head
    if track < (s.drv.Driver_Table cur).track_start then do
      modifyK fun s => { s with
        drv := { s.drv with
          Driver_Table := setAt s.drv.Driver_Table i
            { s.drv.Driver_Table i with nextDiskReq := some cur } } }
      modifyK fun s => { s with
        diskRequests := setAt s.diskRequests u { s.diskRequests u with head := some i } }
    else do
      let cur1 ← addToDiskQueue_loop track c.MAXPROC cur
      let s0 ← getK
      let oldNext := (s0.drv.Driver_Table cur1).nextDiskReq
      modifyK fun s => { s with
        drv := { s.drv with
          Driver_Table := setAt s.drv.Driver_Table cur1
            { s.drv.Driver_Table cur1 with nextDiskReq := some i } } }
      let s1 ← getK
      let nw ← deref (s1.drv.Driver_Table cur1).nextDiskReq
      modifyK fun s => { s with
        drv := { s.drv with
          Driver_Table := setAt s.drv.Driver_Table nw
            { s.drv.Driver_Table nw with nextDiskReq := oldNext } } }

/-- The function `removeFromDiskQueue`. -/
def removeFromDiskQueue (d : DiskConsts) (unit : Int) : K DriverSys Unit := do
  let u ← tableIndex unit d.DISK_UNITS
  let s ← getK
  match (s.diskRequests u).head with
  | none => pure ()
  | some cur =>
    match (s.drv.Driver_Table cur).nextDiskReq with
    | none => do
      modifyK fun s => { s with
        diskRequests := setAt s.diskRequests u { s.diskRequests u with head := none } }
      modifyK fun s => { s with
        diskRequests := setAt s.diskRequests u { s.diskRequests u with hasProc := 0 } }
    | some nx => do
      modifyK fun s => { s with
        diskRequests := setAt s.diskRequests u { s.diskRequests u with head := some nx } }
      modifyK fun s => { s with
        drv := { s.drv with
          Driver_Table := setAt s.drv.Driver_Table cur
            { s.drv.Driver_Table cur with nextDiskReq := none } } }

/-- The `for` loop of `handleDiskRead` (`isRead`) and of `handleDiskWrite`, whose bodies
differ in the operation code and in the assignment to `current_track`, which only the read
makes.  `device_output` is the simulator call; `i` is the loop counter and at most `fuel`
iterations are made. -/
def diskTransfer_loop (d : DiskConsts) (device_output : Int → device_request → K DriverSys Int)
    (isRead : Bool) (slot : Nat) (unit : Int) : Nat → Int → K DriverSys Unit
  | 0, i => do
    let s ← getK
    if i < (s.drv.Driver_Table slot).num_sectors then fault else pure ()
  | fuel + 1, i => do
    let s ← getK
    if i < (s.drv.Driver_Table slot).num_sectors then do
      let dev_req : device_request :=
        { opr := if isRead then d.DISK_READ else d.DISK_WRITE,
          reg1 := (s.drv.Driver_Table slot).current_sector,
          reg2 := (s.drv.Driver_Table slot).disk_buf }
      let _ ← device_output unit dev_req
      let _ ← (waitdevice : K DriverSys Int)
      let s1 ← getK
      if (s1.drv.Driver_Table slot).num_sectors > 1 then do
        modifyK fun s => { s with
          drv := { s.drv with
            Driver_Table := setAt s.drv.Driver_Table slot
              { s.drv.Driver_Table slot with
                current_sector := (s.drv.Driver_Table slot).current_sector + 1 } } }
        let s2 ← getK
        if (s2.drv.Driver_Table slot).current_sector > d.DISK_TRACK_SIZE then do
          let u ← tableIndex unit d.DISK_UNITS
          if s2.num_tracks u = 0 then
            fault
          else do
            modifyK fun s => { s with
              trackNumber := Int.tmod (s.trackNumber + 1) (s.num_tracks u) }
            modifyK fun s => { s with
              drv := { s.drv with
                Driver_Table := setAt s.drv.Driver_Table slot
                  { s.drv.Driver_Table slot with current_sector := 0 } } }
            if isRead then
              modifyK fun s => { s with
                drv := { s.drv with
                  Driver_Table := setAt s.drv.Driver_Table slot
                    { s.drv.Driver_Table slot with current_track := s.trackNumber } } }
            else
              pure ()
            let s3 ← getK
            let _ ← device_output unit { dev_req with opr := d.DISK_SEEK, reg1 := s3.trackNumber }
            let _ ← (waitdevice : K DriverSys Int)
            pure ()
        else
          pure ()
        modifyK fun s => { s with
          drv := { s.drv with
            Driver_Table := setAt s.drv.Driver_Table slot
              { s.drv.Driver_Table slot with
                disk_buf := (s.drv.Driver_Table slot).disk_buf + d.DISK_SECTOR_SIZE } } }
      else
        pure ()
      diskTransfer_loop d device_output isRead slot unit fuel (i + 1)
    else
      pure ()

/-- The function `handleDiskRead`; `device_output` is the simulator call.  The loop makes
`num_sectors` iterations. -/
def handleDiskRead (c : Config) (d : DiskConsts)
    (device_output : Int → device_request → K DriverSys Int) (slot unit : Int) :
    K DriverSys Unit := do
  let sl ← tableIndex slot c.MAXPROC
  let s ← getK
  diskTransfer_loop d device_output true sl unit (s.drv.Driver_Table sl).num_sectors.toNat 0
  removeFromDiskQueue d unit
  let s1 ← getK
  let _ ← semv_real (s1.drv.Driver_Table sl).semHandle
  pure ()

/-- The function `handleDiskWrite`; `device_output` is the simulator call.  The loop makes
`num_sectors` iterations. -/
def handleDiskWrite (c : Config) (d : DiskConsts)
    (device_output : Int → device_request → K DriverSys Int) (slot unit : Int) :
    K DriverSys Unit := do
  let sl ← tableIndex slot c.MAXPROC
  let s ← getK
  diskTransfer_loop d device_output false sl unit (s.drv.Driver_Table sl).num_sectors.toNat 0
  removeFromDiskQueue d unit
  let s1 ← getK
  let _ ← semv_real (s1.drv.Driver_Table sl).semHandle
  pure ()

/-- The link `nextDiskReq` of each driver table entry. -/
def diskNext (s : DriverSys) : Nat → Option Nat := fun k => (s.drv.Driver_Table k).nextDiskReq

/-- The request queue of disk unit `u` read from its head along `nextDiskReq`, at most
`fuel` entries. -/
def diskList (fuel : Nat) (s : DriverSys) (u : Nat) : List Nat :=
  chainFrom (diskNext s) fuel (s.diskRequests u).head

/-- The entries of `L` whose wake-up time has come at time `t`. -/
def dueAt (s : DriverState) (t : Int) (L : List Nat) : List Nat :=
  L.filter fun k => decide ((s.Driver_Table k).wake_time ≤ t)

/-- The entries of `L` whose wake-up time is still ahead at time `t`. -/
def aheadAt (s : DriverState) (t : Int) (L : List Nat) : List Nat :=
  L.filter fun k => decide (t < (s.Driver_Table k).wake_time)

/-- The driver table entries of `s1` have the wake-up times, `slot` fields and semaphore
handles they have in `s`. -/
def SameSleepers (s s1 : DriverState) : Prop :=
  ∀ k, (s1.Driver_Table k).wake_time = (s.Driver_Table k).wake_time ∧
    (s1.Driver_Table k).slot = (s.Driver_Table k).slot ∧
    (s1.Driver_Table k).semHandle = (s.Driver_Table k).semHandle

/-! ## Concrete states for the drivers, the child list and the mailbox frame conditions -/

/-- A disk request staged in the driver table for the process in slot `slot`, as
`disk_read_sys` and `disk_write_sys` fill it in; the private semaphore of the slot has the
handle `slot`. -/
def diskReq (slot op track sector n buf : Int) : driver_proc :=
  { driver_proc.zero with
    pid := slot, slot := slot, semHandle := slot, operation := op, num_sectors := n,
    disk_buf := buf, track_start := track, sector_start := sector, unit := 0,
    current_track := track, current_sector := sector }

/-- Both disk queues are empty; the slots 3, 4 and 5 hold staged one-sector reads that start
at the tracks 1, 5 and 3.  Each disk has 16 tracks and the head is on track 0. -/
def diskIdleState : DriverSys :=
  { drv :=
      { Driver_Table := setAt (setAt (setAt (fun _ => driver_proc.zero)
          3 (diskReq 3 0 1 0 1 1000)) 4 (diskReq 4 0 5 0 1 2000)) 5 (diskReq 5 0 3 0 1 3000),
        sleepingProcs := { hasProc := 0, head := none } },
    diskRequests := fun _ => { hasProc := 0, head := none },
    trackNumber := 0, num_tracks := fun _ => 16, calls := [] }

/-- The queue of unit 0 holds the one-sector read of slot 3 (track 5), which the disk
driver has taken up (the head is on track 5); slot 4 holds a staged one-sector read of
track 2 that is not queued yet. -/
def diskBusyState : DriverSys :=
  { drv :=
      { Driver_Table := setAt (setAt (fun _ => driver_proc.zero)
          3 (diskReq 3 0 5 0 1 1000)) 4 (diskReq 4 0 2 0 1 2000),
        sleepingProcs := { hasProc := 0, head := none } },
    diskRequests := setAt (fun _ => { hasProc := 0, head := none }) 0
      { hasProc := 1, head := some 3 },
    trackNumber := 5, num_tracks := fun _ => 16, calls := [] }

/-- The queue of unit 0 holds the request of slot 3 alone: operation `op`, `n` sectors from
track 5, sector `sector`, buffer address 1000.  The head is on track 5 of 16. -/
def diskWrapState (op sector n : Int) : DriverSys :=
  { drv :=
      { Driver_Table := setAt (fun _ => driver_proc.zero) 3 (diskReq 3 op 5 sector n 1000),
        sleepingProcs := { hasProc := 0, head := none } },
    diskRequests := setAt (fun _ => { hasProc := 0, head := none }) 0
      { hasProc := 1, head := some 3 },
    trackNumber := 5, num_tracks := fun _ => 16, calls := [] }

/-- The sleep queue holds the entries 3 (wake-up time 1000000), 4 (2000000) and 2
(3000000), in this order; the private semaphore of entry `k` has the handle `10 + k`. -/
def sleepingState : DriverSys :=
  { drv :=
      { Driver_Table := setAt (setAt (setAt (fun _ => driver_proc.zero)
          2 { driver_proc.zero with pid := 2, slot := 2, semHandle := 12, wake_time := 3000000 })
          3 { driver_proc.zero with pid := 3, slot := 3, semHandle := 13, wake_time := 1000000,
                                    nextAsleep := some 4 })
          4 { driver_proc.zero with pid := 4, slot := 4, semHandle := 14, wake_time := 2000000,
                                    nextAsleep := some 2 },
        sleepingProcs := { hasProc := 1, head := some 3 } },
    diskRequests := fun _ => { hasProc := 0, head := none },
    trackNumber := 0, num_tracks := fun _ => 16, calls := [] }

/-- Mailbox 7 (1 slot of 4 bytes, empty) is in use; the sentinel is ready and the pids 2
and 3 are queued at priority 1, pid 2 running.  No process is in `MBoxProcTable` yet. -/
def twoUserState : Kernel := { oneBoxState with proc := sliceState.proc }

/-- The state of `twoUserState` after pid 2 and then pid 3 have each made a mailbox call:
pid 2 is in entry 0 and pid 3 in entry 1 of `MBoxProcTable`, `CurrentProc` points to the
entry of pid 3, which registered last; pid 2 is running again. -/
def registeredState : Kernel :=
  { twoUserState with MBoxProcTable := twoMboxProcs, CurrentProc := some 1 }

/-- A receive buffer filled with the byte 9. -/
def nineBuf : Nat → Int := fun _ => 9

/-- The state of `semFreeState` (semaphore 0 with the waiter list [pid 3, pid 4]) in which
semaphore 1 is in use as well, with value 0 and no waiter. -/
def twoSemState : SysState :=
  { semFreeState with
    semTable := setAt semFreeState.semTable 1
      { status := 1, id := 1, value := 0, firstWaiting := none },
    numSems := 2, semIDAssign := 2 }

/-- The sentinel and pid 2 are ready and pid 2 is running; the pids 3 and 4 (priority 1) are
on the blocked list, in this order, each with status 11. -/
def blockedTwoProcs : ProcState :=
  { ProcTable := setAt (setAt (setAt (setAt (fun _ => proc_struct.zero)
      1 (readyProc 1 6)) 2 (readyProc 2 1))
      3 { readyProc 3 1 with status := 11, next_in_list := some 4 })
      4 { readyProc 4 1 with status := 11 },
    ReadyProcs := setAt (setAt (fun _ => procLinkedList.zero) 6
      { hasProc := 1, head := some 1, tail := some 1 }) 1
      { hasProc := 1, head := some 2, tail := some 2 },
    BlockedProcs := { hasProc := 1, head := some 3, tail := some 4 },
    Current := some 2, next_pid := 5, numProcs := 4 }

/-! # Theorems -/

/-! ## Basic facts about sequencing -/

section Sequencing
variable {σ α β : Type}

@[simp] theorem bind_run (m : K σ α) (f : α → K σ β) (s : σ) :
    (m >>= f) s = K.bind m f s := rfl

@[simp] theorem pure_run (a : α) (s : σ) : (pure a : K σ α) s = Outcome.ret a s := rfl

@[simp] theorem getK_run (s : σ) : (getK : K σ σ) s = Outcome.ret s s := rfl

@[simp] theorem modifyK_run (f : σ → σ) (s : σ) :
    modifyK f s = Outcome.ret () (f s) := rfl

@[simp] theorem modifyProc_run (f : ProcState → ProcState) (s : Kernel) :
    modifyProc f s = Outcome.ret () { s with proc := f s.proc } := rfl

@[simp] theorem halt_run (code : Int) (s : σ) :
    (halt code : K σ α) s = Outcome.halt code s := rfl

@[simp] theorem fault_run (s : σ) : (fault : K σ α) s = Outcome.fault := rfl

@[simp] theorem deref_some_run (i : Nat) (s : σ) :
    (deref (some i) : K σ Nat) s = Outcome.ret i s := rfl

@[simp] theorem deref_none_run (s : σ) : (deref none : K σ Nat) s = Outcome.fault := rfl

@[simp] theorem setAt_same {γ : Type} (tbl : Nat → γ) (i : Nat) (v : γ) :
    setAt tbl i v i = v := by
  simp [setAt]

theorem setAt_other {γ : Type} (tbl : Nat → γ) (i j : Nat) (v : γ) (h : j ≠ i) :
    setAt tbl i v j = tbl j := by
  simp [setAt, h]

theorem tableIndex_ok (i : Int) (n : Nat) (s : σ) (h0 : 0 ≤ i) (h1 : i < n) :
    (tableIndex i n : K σ Nat) s = Outcome.ret i.toNat s := by
  simp [tableIndex, h0, h1]

theorem retSat_spec [DecidableEq α] (o : Outcome σ α) (v : α) (P : σ → Bool)
    (h : o.retSat v P = true) : ∃ s, o = Outcome.ret v s ∧ P s = true := by
  cases o with
  | ret a s =>
    simp only [Outcome.retSat, Bool.and_eq_true, decide_eq_true_eq] at h
    exact ⟨s, by rw [h.1], h.2⟩
  | halt code s => simp [Outcome.retSat] at h
  | fault => simp [Outcome.retSat] at h

end Sequencing

/-! ## The dispatcher -/

theorem inKernelMode_clear (p : Nat) (h : inKernelMode p = true) :
    inKernelMode (psrClearInt p) = true := by
  unfold inKernelMode psrClearInt at *
  simp only [decide_eq_true_eq] at *
  split
  · rename_i hb
    have h2 : 2 ≤ p := by
      by_contra hlt
      have hp : p = 1 := by omega
      subst hp
      exact absurd hb (by decide)
    omega
  · exact h

theorem dispatcher_loop_skip (n i j : Nat) (s : Kernel) (old cur : Nat)
    (hmode : inKernelMode s.psr = true)
    (hcur : s.proc.Current = some old)
    (hij : i ≤ j) (hjn : j < i + n)
    (hhead : (s.proc.ReadyProcs j).head = some cur)
    (hne : (s.proc.ReadyProcs j).hasProc ≠ 0)
    (hmin : ∀ k, i ≤ k → k < j → (s.proc.ReadyProcs k).hasProc = 0) :
    ∃ s1, dispatcher_loop n i s = Outcome.ret () s1 ∧
      s1.proc.Current = some cur ∧ s1.proc.ReadyProcs = s.proc.ReadyProcs ∧
      s1.proc.BlockedProcs = s.proc.BlockedProcs ∧
      (∀ k, (s1.proc.ProcTable k).next_in_list = (s.proc.ProcTable k).next_in_list) ∧
      (∀ k, (s1.proc.ProcTable k).pid = (s.proc.ProcTable k).pid) ∧
      (∀ k, (s1.proc.ProcTable k).status = (s.proc.ProcTable k).status) ∧
      (∀ k, (s1.proc.ProcTable k).priority = (s.proc.ProcTable k).priority) ∧
      s1.MailBoxTable = s.MailBoxTable ∧ s1.MailSlotTable = s.MailSlotTable := by
  induction n generalizing i with
  | zero => omega
  | succ n ih =>
    by_cases heq : i = j
    · subst heq
      simp only [dispatcher_loop, bind_run, K.bind, getK_run, hne, ne_eq, not_false_eq_true,
          if_true, hcur, deref_some_run, read_cur_start_time, pure_run, modifyProc_run, hhead,
          enableInterrupts, hmode, liftProc]
      refine ⟨_, rfl, ?_, ?_, ?_, ?_, ?_, ?_, ?_, ?_, ?_⟩
      all_goals first
        | rfl
        | (intro k; simp only [setAt]; split_ifs <;> simp_all)
    · have hlt : i < j := by omega
      have h0 := hmin i (le_refl i) hlt
      simp only [dispatcher_loop, bind_run, K.bind, getK_run, h0, ne_eq, not_true_eq_false,
        if_false]
      exact ih (i + 1) (by omega) (by omega) (fun k hk1 hk2 => hmin k (by omega) hk2)

theorem chainFrom_congr (f g : Nat → Option Nat) (h : ∀ k, f k = g k) (fuel : Nat)
    (p : Option Nat) : chainFrom f fuel p = chainFrom g fuel p := by
  induction fuel generalizing p with
  | zero => rfl
  | succ n ih =>
    cases p with
    | none => rfl
    | some a => simp [chainFrom, h a, ih]

theorem chainFrom_eq_nil (f : Nat → Option Nat) (fuel : Nat) (hf : 0 < fuel)
    (p : Option Nat) : chainFrom f fuel p = [] ↔ p = none := by
  cases fuel with
  | zero => omega
  | succ n =>
    cases p with
    | none => simp [chainFrom]
    | some a => simp [chainFrom]

theorem chainFrom_head (f : Nat → Option Nat) (fuel : Nat) (hf : 0 < fuel)
    (p : Option Nat) : (chainFrom f fuel p).head? = p := by
  cases fuel with
  | zero => omega
  | succ n =>
    cases p with
    | none => simp [chainFrom]
    | some a => simp [chainFrom]

/-- C1: when some ready queue of priority 1..SENTINELPRIORITY is non-empty, `dispatcher`
returns with `Current` set to the head of the lowest-numbered non-empty ready queue, and
every ready queue (its header and the sequence of its members) is as before. -/
theorem dispatcher_selects_first_nonempty (c : Config) (s : Kernel) (i old : Nat)
    (hmode : inKernelMode s.psr = true) (hcur : s.proc.Current = some old)
    (hpos : 0 < c.MAXPROC)
    (hwf : ∀ p, (s.proc.ReadyProcs p).hasProc ≠ 0 ↔ (s.proc.ReadyProcs p).head ≠ none)
    (hi1 : 1 ≤ i) (hi2 : i ≤ SENTINELPRIORITY c)
    (hne : readyQueue c s.proc i ≠ [])
    (hmin : ∀ k, 1 ≤ k → k < i → readyQueue c s.proc k = []) :
    ∃ s1, dispatcher c s = Outcome.ret () s1 ∧
      s1.proc.Current = (readyQueue c s.proc i).head? ∧
      s1.proc.Current ≠ none ∧
      s1.proc.ReadyProcs = s.proc.ReadyProcs ∧
      ∀ p, readyQueue c s1.proc p = readyQueue c s.proc p := by
  have hhd : (s.proc.ReadyProcs i).head ≠ none := fun h =>
    hne ((chainFrom_eq_nil _ _ hpos _).2 h)
  obtain ⟨cur, hcurq⟩ := Option.ne_none_iff_exists'.1 hhd
  have hflag : (s.proc.ReadyProcs i).hasProc ≠ 0 := (hwf i).2 hhd
  have hlow : ∀ k, 1 ≤ k → k < i → (s.proc.ReadyProcs k).hasProc = 0 := by
    intro k hk1 hk2
    by_contra hk
    exact (hwf k).1 hk ((chainFrom_eq_nil _ _ hpos _).1 (hmin k hk1 hk2))
  obtain ⟨s1, hrun, h1, h2, _, h4, _⟩ := dispatcher_loop_skip (SENTINELPRIORITY c) 1 i
    { s with psr := psrClearInt s.psr } old cur (inKernelMode_clear _ hmode) hcur hi1
    (by omega) hcurq hflag hlow
  refine ⟨s1, ?_, ?_, ?_, h2, ?_⟩
  · simp only [dispatcher, bind_run, K.bind, disableInterrupts, hmode, if_true]
    exact hrun
  · simp [readyQueue, chainFrom_head _ _ hpos, hcurq, h1]
  · simp [h1]
  · intro p
    unfold readyQueue
    rw [h2]
    exact chainFrom_congr _ _ h4 _ _

theorem dispatcher_selects_first_nonempty_witness :
    ∃ s1, dispatcher usloss twoProcState = Outcome.ret () s1 ∧
      s1.proc.Current = (readyQueue usloss twoProcState.proc 1).head? ∧
      s1.proc.Current ≠ none ∧
      s1.proc.ReadyProcs = twoProcState.proc.ReadyProcs ∧
      ∀ p, readyQueue usloss s1.proc p = readyQueue usloss twoProcState.proc p :=
  dispatcher_selects_first_nonempty usloss twoProcState 1 2 (by decide) rfl (by decide)
    (by
      intro p
      simp only [twoProcState, twoProcs, setAt, procLinkedList.zero]
      split_ifs <;> simp)
    (by decide) (by decide) (by decide) (by intro k h1 h2; omega)

/-- C4: `block_me` tests `new_status >= 10` where `new_status < 10` is meant.  With the
status 11 that the mailbox manager passes it halts (for every state), and with status 9 it
does not halt: it records the status, empties the caller's ready queue, puts the caller on
the blocked list and dispatches the sentinel. -/
theorem block_me_guard_inverted :
    (∀ (c : Config) (s : Kernel), block_me c 11 s = Outcome.halt 1 s) ∧
    ∃ s1, block_me usloss 9 twoProcState = Outcome.ret 0 s1 ∧
      (s1.proc.ProcTable 2).status = 9 ∧ readyQueue usloss s1.proc 1 = [] ∧
      blockedQueue usloss s1.proc = [2] ∧ s1.proc.Current = some 1 := by
  refine ⟨fun c s => rfl, ?_⟩
  obtain ⟨s1, h1, hp⟩ := retSat_spec (block_me usloss 9 twoProcState) 0
    (fun s1 => decide ((s1.proc.ProcTable 2).status = 9 ∧ readyQueue usloss s1.proc 1 = [] ∧
      blockedQueue usloss s1.proc = [2] ∧ s1.proc.Current = some 1)) (by decide!)
  exact ⟨s1, h1, of_decide_eq_true hp⟩

/-- C5: `frontToBack` receives the list header by value.  On the queue [2, 3] with 2
running for 80000 microseconds, `time_slice` leaves the header with head 2 and tail 3,
process 2 with no successor and process 3 pointing back at 2: the queue read from its head
is [2], process 3 is no longer reachable, and the dispatcher selects 2 again. -/
theorem time_slice_loses_queue :
    ∃ s1, time_slice usloss sliceState = Outcome.ret () s1 ∧
      readyQueue usloss sliceState.proc 1 = [2, 3] ∧
      readyQueue usloss s1.proc 1 = [2] ∧
      (s1.proc.ReadyProcs 1).head = some 2 ∧ (s1.proc.ReadyProcs 1).tail = some 3 ∧
      (s1.proc.ProcTable 2).next_in_list = none ∧
      (s1.proc.ProcTable 3).next_in_list = some 2 ∧
      s1.proc.Current = some 2 := by
  obtain ⟨s1, h1, hp⟩ := retSat_spec (time_slice usloss sliceState) ()
    (fun s1 => decide (readyQueue usloss sliceState.proc 1 = [2, 3] ∧
      readyQueue usloss s1.proc 1 = [2] ∧
      (s1.proc.ReadyProcs 1).head = some 2 ∧ (s1.proc.ReadyProcs 1).tail = some 3 ∧
      (s1.proc.ProcTable 2).next_in_list = none ∧
      (s1.proc.ProcTable 3).next_in_list = some 2 ∧
      s1.proc.Current = some 2)) (by decide!)
  exact ⟨s1, h1, of_decide_eq_true hp⟩

/-! ## Mailbox manager: behaviour on concrete states -/

/-- C6: `getSlot` only tests that the table entry at `id % MAXMBOX` is in use.  With mailbox
7 live and no mailbox 2007 ever created, `MboxSend(2007, "A", 1)` returns 0 and stores the
message in mailbox 7: mail slot 0 becomes occupied and heads the message list of entry 7. -/
theorem MboxSend_accepts_congruent_id :
    ∃ s1, MboxSend usloss 2007 msgA 1 oneBoxState = Outcome.ret 0 s1 ∧
      (oneBoxState.MailBoxTable 7).mbox_id = 7 ∧
      (oneBoxState.MailSlotTable 0).isOccupied = 0 ∧
      (s1.MailSlotTable 0).isOccupied = 1 ∧ (s1.MailSlotTable 0).mbox_id = 7 ∧
      (s1.MailBoxTable 7).first_slot = some 0 ∧ (s1.MailBoxTable 7).unused_slots = 0 := by
  obtain ⟨s1, h1, hp⟩ := retSat_spec (MboxSend usloss 2007 msgA 1 oneBoxState) 0
    (fun s1 => decide ((oneBoxState.MailBoxTable 7).mbox_id = 7 ∧
      (oneBoxState.MailSlotTable 0).isOccupied = 0 ∧
      (s1.MailSlotTable 0).isOccupied = 1 ∧ (s1.MailSlotTable 0).mbox_id = 7 ∧
      (s1.MailBoxTable 7).first_slot = some 0 ∧ (s1.MailBoxTable 7).unused_slots = 0))
    (by decide!)
  exact ⟨s1, h1, of_decide_eq_true hp⟩

/-- C8: on the zero-slot mailbox 7 with pid 3 waiting in a receive, `MboxSend` does not
block: it returns 0 and makes pid 3 ready.  `MboxCondSend` with the same arguments on the
same state returns -2 and delivers nothing. -/
theorem MboxCondSend_differs_on_rendezvous :
    (∃ s1, MboxSend usloss 7 msgA 1 rendezvousState = Outcome.ret 0 s1 ∧
      (s1.proc.ProcTable 3).status = 1 ∧ readyQueue usloss s1.proc 1 = [2, 3] ∧
      (s1.MailBoxTable 7).numWaiting = 0) ∧
    (∃ s2, MboxCondSend usloss 7 msgA 1 rendezvousState = Outcome.ret (-2) s2 ∧
      (s2.proc.ProcTable 3).status = 11 ∧ (s2.MailBoxTable 7).numWaiting = 1 ∧
      (s2.MailSlotTable 0).isOccupied = 0) := by
  obtain ⟨s1, h1, hp⟩ := retSat_spec (MboxSend usloss 7 msgA 1 rendezvousState) 0
    (fun s1 => decide ((s1.proc.ProcTable 3).status = 1 ∧ readyQueue usloss s1.proc 1 = [2, 3] ∧
      (s1.MailBoxTable 7).numWaiting = 0)) (by decide!)
  obtain ⟨s2, h2, hq⟩ := retSat_spec (MboxCondSend usloss 7 msgA 1 rendezvousState) (-2)
    (fun s2 => decide ((s2.proc.ProcTable 3).status = 11 ∧ (s2.MailBoxTable 7).numWaiting = 1 ∧
      (s2.MailSlotTable 0).isOccupied = 0)) (by decide!)
  exact ⟨⟨s1, h1, of_decide_eq_true hp⟩, ⟨s2, h2, of_decide_eq_true hq⟩⟩

/-- C10: pid 3 is blocked in `MboxSend` on the full mailbox 7 when pid 2 releases it.
`MboxRelease` returns 0 and leaves entry 7 all-zero, so `isReleased` is 0 again.  When
pid 3 then runs the rest of `MboxSend`, it returns 0, mail slot 0 becomes occupied and
entry 7 is no longer all-zero (its `unused_slots` is -1). -/
theorem MboxSend_after_release_stores :
    ∃ s1, MboxRelease noZap usloss 7 fullBoxState = Outcome.ret 0 s1 ∧
      s1.MailBoxTable 7 = mail_box.zero ∧ (s1.MailSlotTable 0).isOccupied = 0 ∧
      (s1.proc.ProcTable 3).status = 1 ∧
      ∃ s2, MboxSend_afterBlock usloss 7 msgA 1 (resumedAs s1 3) = Outcome.ret 0 s2 ∧
        (s2.MailSlotTable 0).isOccupied = 1 ∧ s2.MailBoxTable 7 ≠ mail_box.zero ∧
        (s2.MailBoxTable 7).unused_slots = -1 ∧ (s2.MailBoxTable 7).first_slot = some 0 := by
  obtain ⟨s1, h1, hp⟩ := retSat_spec (MboxRelease noZap usloss 7 fullBoxState) 0
    (fun s1 => decide (s1.MailBoxTable 7 = mail_box.zero ∧ (s1.MailSlotTable 0).isOccupied = 0 ∧
      (s1.proc.ProcTable 3).status = 1) &&
      (MboxSend_afterBlock usloss 7 msgA 1 (resumedAs s1 3)).retSat 0 (fun s2 =>
        decide ((s2.MailSlotTable 0).isOccupied = 1 ∧ s2.MailBoxTable 7 ≠ mail_box.zero ∧
        (s2.MailBoxTable 7).unused_slots = -1 ∧ (s2.MailBoxTable 7).first_slot = some 0)))
    (by decide!)
  simp only [Bool.and_eq_true, decide_eq_true_eq] at hp
  obtain ⟨s2, h2, hq⟩ := retSat_spec _ _ _ hp.2
  simp only [decide_eq_true_eq] at hq
  exact ⟨s1, h1, hp.1.1, hp.1.2.1, hp.1.2.2, s2, h2, hq⟩

/-! ## Mailbox manager: general facts -/

theorem inKernelMode_set (p : Nat) (h : inKernelMode p = true) :
    inKernelMode (psrSetInt p) = true := by
  unfold inKernelMode psrSetInt at *
  simp only [decide_eq_true_eq] at *
  have : (p ||| 2) % 2 = 1 := by
    have h1 := Nat.testBit_lor p 2 0
    simp only [Nat.testBit_zero] at h1
    have h2 : decide (p % 2 = 1) = true := by simp [h]
    rw [h2] at h1
    simpa using h1
  exact this

theorem handleProc_loop_some (tbl : Nat → mbox_proc) (pid : Int) (n i : Nat) (init v : Int)
    (h : handleProc_loop tbl pid n i init = some v) :
    (∀ k, i ≤ k → k < i + n → (tbl k).pid ≠ pid) ∧
    (init ≠ -1 → v = init) ∧
    (init = -1 → (v = -1 ∧ ∀ k, i ≤ k → k < i + n → (tbl k).pid ≠ 0) ∨
      ∃ k : Nat, v = (k : Int) ∧ i ≤ k ∧ k < i + n ∧ (tbl k).pid = 0) := by
  induction n generalizing i init with
  | zero =>
    simp only [handleProc_loop, Option.some.injEq] at h
    subst h
    refine ⟨fun k h1 h2 => by omega, fun _ => rfl, fun h0 => Or.inl ⟨h0, fun k h1 h2 => by omega⟩⟩
  | succ n ih =>
    simp only [handleProc_loop] at h
    split at h
    · exact absurd h (by simp)
    · rename_i hne
      obtain ⟨h1, h2, h3⟩ := ih (i + 1) _ h
      refine ⟨?_, ?_, ?_⟩
      · intro k hk1 hk2
        by_cases hk : k = i
        · subst hk; exact hne
        · exact h1 k (by omega) (by omega)
      · intro hinit
        have : ¬ (init = -1 ∧ (tbl i).pid = 0) := fun hh => hinit hh.1
        rw [if_neg this] at h2
        exact h2 hinit
      · intro hinit
        by_cases hfree : (tbl i).pid = 0
        · have hc : init = -1 ∧ (tbl i).pid = 0 := ⟨hinit, hfree⟩
          rw [if_pos hc] at h2
          have hv := h2 (by omega)
          exact Or.inr ⟨i, hv, le_refl i, by omega, hfree⟩
        · have hc : ¬ (init = -1 ∧ (tbl i).pid = 0) := fun hh => hfree hh.2
          rw [if_neg hc] at h3
          rcases h3 hinit with ⟨hv, hall⟩ | ⟨k, hv, hk1, hk2, hk3⟩
          · refine Or.inl ⟨hv, ?_⟩
            intro k hk1 hk2
            by_cases hk : k = i
            · subst hk; exact hfree
            · exact hall k (by omega) (by omega)
          · exact Or.inr ⟨k, hv, by omega, by omega, hk3⟩

theorem handleProc_loop_none (tbl : Nat → mbox_proc) (pid : Int) (n i : Nat) (init : Int)
    (h : handleProc_loop tbl pid n i init = none) :
    ∃ k, i ≤ k ∧ k < i + n ∧ (tbl k).pid = pid := by
  induction n generalizing i init with
  | zero => simp [handleProc_loop] at h
  | succ n ih =>
    simp only [handleProc_loop] at h
    split at h
    · rename_i heq
      exact ⟨i, le_refl i, by omega, heq⟩
    · obtain ⟨k, h1, h2, h3⟩ := ih (i + 1) _ h
      exact ⟨k, by omega, by omega, h3⟩

theorem handleProc_ret (c : Config) (s s1 : Kernel) (u : Unit)
    (h : handleProc c s = Outcome.ret u s1) :
    SameMail s s1 ∧ inKernelMode s1.psr = true ∧
    (∀ k, (s.MBoxProcTable k).pid ≠ 0 → s1.MBoxProcTable k = s.MBoxProcTable k) ∧
    (∀ k, (s1.MBoxProcTable k).next = (s.MBoxProcTable k).next) ∧
    ∃ cur, s.proc.Current = some cur ∧
      ∃ k, k < c.MAXPROC ∧ (s1.MBoxProcTable k).pid = (s.proc.ProcTable cur).pid := by
  unfold handleProc at h
  simp only [bind_run, K.bind, disableInterrupts] at h
  by_cases hmode : inKernelMode s.psr = true
  · simp only [hmode, if_true, liftProc, get_pid, bind_run, K.bind, getK_run] at h
    cases hcur : s.proc.Current with
    | none => simp [hcur] at h
    | some cur =>
      simp only [hcur, deref_some_run, pure_run] at h
      cases hloop : handleProc_loop s.MBoxProcTable (s.proc.ProcTable cur).pid c.MAXPROC 0 (-1) with
      | none =>
        simp only [hloop, pure_run, Outcome.ret.injEq, true_and] at h
        subst h
        obtain ⟨k, _, hk2, hk3⟩ := handleProc_loop_none _ _ _ _ _ hloop
        exact ⟨⟨rfl, rfl, rfl, rfl, rfl, rfl, rfl⟩, inKernelMode_clear _ hmode,
          fun _ _ => rfl, fun _ => rfl, cur, rfl, k, by omega, hk3⟩
      | some v =>
        obtain ⟨_, _, h3⟩ := handleProc_loop_some _ _ _ _ _ _ hloop
        simp only [hloop, bind_run, K.bind] at h
        rcases h3 rfl with ⟨hv, _⟩ | ⟨k, hv, _, hk2, hk3⟩
        · subst hv
          simp [tableIndex] at h
        · subst hv
          have hk2' : k < c.MAXPROC := by omega
          simp only [tableIndex, Nat.cast_nonneg, Nat.cast_lt, hk2', and_self, if_true,
            pure_run, Int.toNat_ofNat, modifyK_run, enableInterrupts,
            inKernelMode_clear _ hmode, Outcome.ret.injEq, true_and] at h
          subst h
          refine ⟨⟨rfl, rfl, rfl, rfl, rfl, rfl, rfl⟩, inKernelMode_set _ (inKernelMode_clear _ hmode),
            ?_, ?_, cur, rfl, k, hk2', ?_⟩
          · intro j hj
            have : j ≠ k := fun hh => hj (hh ▸ hk3)
            simp [setAt, this]
          · intro j
            simp only [setAt]
            split_ifs <;> simp_all
          · simp [setAt]
  · simp [hmode] at h

theorem handleProc_runs (c : Config) (s : Kernel) (cur : Nat)
    (hmode : inKernelMode s.psr = true) (hcur : s.proc.Current = some cur)
    (hreg : ∃ k, k < c.MAXPROC ∧ ((s.MBoxProcTable k).pid = (s.proc.ProcTable cur).pid ∨
      (s.MBoxProcTable k).pid = 0)) :
    ∃ s1, handleProc c s = Outcome.ret () s1 := by
  unfold handleProc
  simp only [bind_run, K.bind, disableInterrupts, hmode, if_true, liftProc, get_pid, getK_run,
    hcur, deref_some_run, pure_run]
  cases hloop : handleProc_loop s.MBoxProcTable (s.proc.ProcTable cur).pid c.MAXPROC 0 (-1) with
  | none => exact ⟨_, rfl⟩
  | some v =>
    obtain ⟨h1, _, h3⟩ := handleProc_loop_some _ _ _ _ _ _ hloop
    obtain ⟨k0, hk0, hk0'⟩ := hreg
    rcases h3 rfl with ⟨hv, hall⟩ | ⟨k, hv, _, hk2, hk3⟩
    · rcases hk0' with hp | hz
      · exact absurd hp (h1 k0 (by omega) (by omega))
      · exact absurd hz (hall k0 (by omega) (by omega))
    · subst hv
      have hk2' : k < c.MAXPROC := by omega
      simp only [bind_run, K.bind, tableIndex, Nat.cast_nonneg, Nat.cast_lt, hk2', and_self,
        if_true, pure_run, Int.toNat_ofNat, modifyK_run, enableInterrupts,
        inKernelMode_clear _ hmode]
      exact ⟨_, rfl⟩

theorem IsChain_congr (f g : Nat → Option Nat) (L : List Nat) (p : Option Nat)
    (h : ∀ k ∈ L, f k = g k) (hc : IsChain f p L) : IsChain g p L := by
  induction L generalizing p with
  | nil => exact hc
  | cons a L ih =>
    obtain ⟨h1, h2⟩ := hc
    refine ⟨h1, ?_⟩
    rw [← h a (List.mem_cons_self a L)]
    exact ih _ (fun k hk => h k (List.mem_cons_of_mem a hk)) h2

theorem IsChain_unique (f : Nat → Option Nat) (L1 L2 : List Nat) (p : Option Nat)
    (h1 : IsChain f p L1) (h2 : IsChain f p L2) : L1 = L2 := by
  induction L1 generalizing p L2 with
  | nil =>
    cases L2 with
    | nil => rfl
    | cons a L =>
      have : p = none := h1
      have h3 : p = some a := h2.1
      rw [this] at h3
      exact absurd h3 (by simp)
  | cons a L ih =>
    cases L2 with
    | nil =>
      have : p = none := h2
      have h3 : p = some a := h1.1
      rw [this] at h3
      exact absurd h3 (by simp)
    | cons a2 L2 =>
      have e1 : p = some a := h1.1
      have e2 : p = some a2 := h2.1
      have : a = a2 := by
        rw [e1] at e2
        exact Option.some.inj e2
      subst this
      rw [ih L2 _ h1.2 h2.2]

theorem IsChain_snoc (f g : Nat → Option Nat) (a : Nat) (L : List Nat) (j : Nat)
    (hc : IsChain f (some a) (a :: L))
    (hj : j ∉ a :: L) (hnd : (a :: L).Nodup)
    (hg1 : g ((a :: L).getLast (List.cons_ne_nil a L)) = some j)
    (hg2 : g j = none)
    (hg3 : ∀ k, k ≠ (a :: L).getLast (List.cons_ne_nil a L) → k ≠ j → g k = f k) :
    IsChain g (some a) (a :: L ++ [j]) := by
  induction L generalizing a with
  | nil =>
    simp only [List.getLast_singleton] at hg1 hg3
    exact ⟨rfl, by rw [hg1]; exact ⟨rfl, hg2⟩⟩
  | cons a2 L ih =>
    obtain ⟨_, h2⟩ := hc
    have hfa : f a = some a2 := h2.1
    have hnd2 : (a2 :: L).Nodup := (List.nodup_cons.1 hnd).2
    have ha : a ∉ a2 :: L := (List.nodup_cons.1 hnd).1
    have hlast : (a :: a2 :: L).getLast (List.cons_ne_nil a _) =
        (a2 :: L).getLast (List.cons_ne_nil a2 L) := List.getLast_cons (List.cons_ne_nil a2 L)
    rw [hlast] at hg1 hg3
    have hne1 : a ≠ (a2 :: L).getLast (List.cons_ne_nil a2 L) := by
      intro hh
      exact ha (hh ▸ List.getLast_mem _)
    have hne2 : a ≠ j := fun hh => hj (hh ▸ List.mem_cons_self a _)
    have hga : g a = some a2 := by rw [hg3 a hne1 hne2, hfa]
    refine ⟨rfl, ?_⟩
    rw [hga]
    have h2' : IsChain f (some a2) (a2 :: L) := by
      rw [← hfa]; exact h2
    exact ih a2 h2' (fun hh => hj (List.mem_cons_of_mem a hh)) hnd2 hg1 hg3

theorem lastSlot_of_chain (tbl : Nat → mail_slot) (fuel a cur : Nat) (L : List Nat)
    (hc : IsChain (fun k => (tbl k).next_in_box) (some a) (a :: L))
    (h : lastSlot tbl fuel a = some cur) :
    cur = (a :: L).getLast (List.cons_ne_nil a L) := by
  induction fuel generalizing a L with
  | zero => simp [lastSlot] at h
  | succ n ih =>
    simp only [lastSlot] at h
    cases L with
    | nil =>
      have : (tbl a).next_in_box = none := hc.2
      simp only [this, Option.some.injEq] at h
      simp [h]
    | cons a2 L =>
      have hn : (tbl a).next_in_box = some a2 := hc.2.1
      simp only [hn] at h
      have h2 : IsChain (fun k => (tbl k).next_in_box) (some a2) (a2 :: L) := by
        have := hc.2
        rw [← hn]
        exact this
      rw [ih a2 L h2 h]
      exact (List.getLast_cons (List.cons_ne_nil a2 L)).symm

theorem nextOpenMailSlot_loop_spec (tbl : Nat → mail_slot) (n i : Nat) :
    (nextOpenMailSlot_loop tbl n i = -1 ∧ ∀ k, i ≤ k → k < i + n → (tbl k).isOccupied ≠ 0) ∨
    ∃ k : Nat, nextOpenMailSlot_loop tbl n i = (k : Int) ∧ i ≤ k ∧ k < i + n ∧
      (tbl k).isOccupied = 0 ∧ ∀ k2, i ≤ k2 → k2 < k → (tbl k2).isOccupied ≠ 0 := by
  induction n generalizing i with
  | zero => exact Or.inl ⟨rfl, fun k h1 h2 => by omega⟩
  | succ n ih =>
    simp only [nextOpenMailSlot_loop]
    by_cases h0 : (tbl i).isOccupied = 0
    · rw [if_pos h0]
      exact Or.inr ⟨i, rfl, le_refl i, by omega, h0, fun k2 h1 h2 => by omega⟩
    · rw [if_neg h0]
      rcases ih (i + 1) with ⟨h1, h2⟩ | ⟨k, h1, h2, h3, h4, h5⟩
      · refine Or.inl ⟨h1, ?_⟩
        intro k hk1 hk2
        by_cases hk : k = i
        · subst hk; exact h0
        · exact h2 k (by omega) (by omega)
      · refine Or.inr ⟨k, h1, by omega, by omega, h4, ?_⟩
        intro k2 hk1 hk2
        by_cases hk : k2 = i
        · subst hk; exact h0
        · exact h5 k2 (by omega) hk2

section Inversion

variable {σ α β : Type}

theorem bind_ret_iff (m : K σ α) (f : α → K σ β) (s s1 : σ) (b : β) :
    K.bind m f s = Outcome.ret b s1 ↔
      ∃ a s0, m s = Outcome.ret a s0 ∧ f a s0 = Outcome.ret b s1 := by
  unfold K.bind
  cases h : m s with
  | ret a s0 =>
    constructor
    · intro hh; exact ⟨a, s0, rfl, hh⟩
    · rintro ⟨a1, s2, h1, h2⟩
      simp only [Outcome.ret.injEq] at h1
      obtain ⟨e1, e2⟩ := h1
      subst e1 e2
      exact h2
  | halt code s0 => simp
  | fault => simp

theorem tableIndex_ret_iff (i : Int) (n k : Nat) (s s1 : σ) :
    (tableIndex i n : K σ Nat) s = Outcome.ret k s1 ↔
      0 ≤ i ∧ i < n ∧ k = i.toNat ∧ s1 = s := by
  unfold tableIndex
  by_cases h : 0 ≤ i ∧ i < (n : Int)
  · simp only [h, and_self, if_true, pure_run, Outcome.ret.injEq, true_and]
    constructor
    · rintro ⟨h1, h2⟩; exact ⟨h1.symm, h2.symm⟩
    · rintro ⟨h1, h2⟩; exact ⟨h1.symm, h2.symm⟩
  · simp only [h, if_false, fault_run]
    constructor
    · intro hh; exact absurd hh (by simp)
    · rintro ⟨h1, h2, _⟩; exact absurd ⟨h1, h2⟩ h

theorem deref_ret_iff (p : Option Nat) (k : Nat) (s s1 : σ) :
    (deref p : K σ Nat) s = Outcome.ret k s1 ↔ p = some k ∧ s1 = s := by
  cases p with
  | none => simp
  | some a =>
    simp only [deref_some_run, Outcome.ret.injEq, Option.some.injEq]
    constructor
    · rintro ⟨h1, h2⟩; exact ⟨h1, h2.symm⟩
    · rintro ⟨h1, h2⟩; exact ⟨h1, h2.symm⟩

end Inversion

theorem disableInterrupts_ret_iff (s s1 : Kernel) (u : Unit) :
    disableInterrupts s = Outcome.ret u s1 ↔
      inKernelMode s.psr = true ∧ s1 = { s with psr := psrClearInt s.psr } := by
  unfold disableInterrupts
  by_cases h : inKernelMode s.psr = true
  · simp only [h, if_true, Outcome.ret.injEq, true_and]
    exact eq_comm
  · simp [h]

theorem enableInterrupts_ret_iff (s s1 : Kernel) (u : Unit) :
    enableInterrupts s = Outcome.ret u s1 ↔
      inKernelMode s.psr = true ∧ s1 = { s with psr := psrSetInt s.psr } := by
  unfold enableInterrupts
  by_cases h : inKernelMode s.psr = true
  · simp only [h, if_true, Outcome.ret.injEq, true_and]
    exact eq_comm
  · simp [h]

theorem check_kernel_mode_ret_iff (s s1 : Kernel) (u : Unit) :
    check_kernel_mode s = Outcome.ret u s1 ↔ inKernelMode s.psr = true ∧ s1 = s := by
  unfold check_kernel_mode
  by_cases h : inKernelMode s.psr = true
  · simp only [h, if_true, Outcome.ret.injEq, true_and]
    exact eq_comm
  · simp [h]

theorem liftProc_ret_iff {α : Type} (m : K ProcState α) (s s1 : Kernel) (a : α) :
    liftProc m s = Outcome.ret a s1 ↔
      ∃ p, m s.proc = Outcome.ret a p ∧ s1 = { s with proc := p } := by
  unfold liftProc
  cases h : m s.proc with
  | ret a0 p =>
    simp only [Outcome.ret.injEq]
    constructor
    · rintro ⟨h1, h2⟩; exact ⟨p, ⟨h1, rfl⟩, h2.symm⟩
    · rintro ⟨p1, ⟨h1, h2⟩, h3⟩; subst h2; exact ⟨h1, h3.symm⟩
  | halt code p => simp
  | fault => simp

theorem liftProc_ret_frame {α : Type} (m : K ProcState α) (s s1 : Kernel) (a : α)
    (h : liftProc m s = Outcome.ret a s1) :
    s1.psr = s.psr ∧ s1.MailBoxTable = s.MailBoxTable ∧ s1.MailSlotTable = s.MailSlotTable ∧
    s1.MBoxProcTable = s.MBoxProcTable := by
  obtain ⟨p, _, h2⟩ := (liftProc_ret_iff m s s1 a).1 h
  subst h2
  exact ⟨rfl, rfl, rfl, rfl⟩

theorem MsgList_congr (c : Config) (s s1 : Kernel) (b : Nat) (L : List Nat)
    (h1 : s1.MailSlotTable = s.MailSlotTable)
    (h2 : (s1.MailBoxTable b).first_slot = (s.MailBoxTable b).first_slot)
    (h : MsgList c s b L) : MsgList c s1 b L := by
  unfold MsgList slotNext at *
  rw [h1, h2]
  exact h

theorem payload_congr (s s1 : Kernel) (j : Nat) (h1 : s1.MailSlotTable = s.MailSlotTable) :
    payload s1 j = payload s j := by
  unfold payload
  rw [h1]

theorem fillSlot_ret (c : Config) (b j : Nat) (idx : Int) (msg : Nat → Int) (n : Int)
    (s s1 : Kernel) (u : Unit) (h : fillSlot c b j idx msg n s = Outcome.ret u s1) :
    0 ≤ n ∧ s1.MailBoxTable = s.MailBoxTable ∧
    (∀ k, k ≠ j → s1.MailSlotTable k = s.MailSlotTable k) ∧
    (s1.MailSlotTable j).isOccupied = 1 ∧ (s1.MailSlotTable j).index = idx ∧
    (s1.MailSlotTable j).messageSize = n ∧ (s1.MailSlotTable j).next_in_box = none ∧
    (s1.MailSlotTable j).message = memcpy (s.MailSlotTable j).message msg n.toNat ∧
    s1.psr = s.psr := by
  unfold fillSlot at h
  simp only [bind_run, K.bind, modifyK_run] at h
  by_cases hn : n < 0 ∨ n > (c.MAX_MESSAGE : Int)
  · simp [hn] at h
  · simp only [hn, if_false, modifyK_run, Outcome.ret.injEq, true_and] at h
    subst h
    refine ⟨by omega, rfl, ?_, ?_, ?_, ?_, ?_, ?_, rfl⟩
    · intro k hk
      simp [setAt, hk]
    all_goals simp [setAt]

theorem bytes_memcpy (dst src : Nat → Int) (n : Int) (m : Nat) (h : n.toNat ≤ m) :
    bytes (memcpy dst src m) n = bytes src n := by
  unfold bytes memcpy
  apply List.map_congr_left
  intro i hi
  have : i < n.toNat := List.mem_range.1 hi
  have h2 : i < m := by omega
  simp [h2]

theorem linkSlot_ret (c : Config) (b j : Nat) (s s1 : Kernel) (u : Unit) (L : List Nat)
    (hwf : MsgList c s b L) (hj : j ∉ L) (hjn : (s.MailSlotTable j).next_in_box = none)
    (hj1 : j < c.MAXSLOTS) (hj2 : (s.MailSlotTable j).isOccupied ≠ 0)
    (hj3 : (s.MailSlotTable j).index = (j : Int))
    (h : linkSlot c b j s = Outcome.ret u s1) :
    MsgList c s1 b (L ++ [j]) ∧ (∀ k, payload s1 k = payload s k) ∧ s1.psr = s.psr ∧
    (∀ k, k ∉ L → s1.MailSlotTable k = s.MailSlotTable k) ∧
    (∀ b2, b2 ≠ b → s1.MailBoxTable b2 = s.MailBoxTable b2) := by
  unfold linkSlot at h
  simp only [bind_run, K.bind, getK_run] at h
  obtain ⟨hch, hnd, hall⟩ := hwf
  cases L with
  | nil =>
    have hfs : (s.MailBoxTable b).first_slot = none := hch
    simp only [hfs, modifyK_run, Outcome.ret.injEq, true_and] at h
    subst h
    refine ⟨⟨?_, by simp, ?_⟩, fun k => rfl, rfl, fun k _ => rfl, ?_⟩
    · simp only [List.nil_append, IsChain, setAt_same, slotNext, true_and]
      exact hjn
    · intro k hk
      simp only [List.nil_append, List.mem_singleton] at hk
      subst hk
      exact ⟨hj1, hj2, hj3⟩
    · intro b2 hb2
      simp [setAt, hb2]
  | cons a L =>
    have hfs : (s.MailBoxTable b).first_slot = some a := hch.1
    simp only [hfs] at h
    cases hl : lastSlot s.MailSlotTable c.MAXSLOTS a with
    | none => simp [hl, K.bind] at h
    | some cur =>
      have hch' : IsChain (slotNext s) (some a) (a :: L) := by
        rw [← hfs]; exact hch
      have hcur := lastSlot_of_chain s.MailSlotTable c.MAXSLOTS a cur L hch' hl
      simp only [hl, bind_run, K.bind, deref_some_run, modifyK_run, Outcome.ret.injEq,
        true_and] at h
      subst h
      have hcurmem : cur ∈ a :: L := hcur ▸ List.getLast_mem _
      have hcj : cur ≠ j := fun hh => hj (hh ▸ hcurmem)
      refine ⟨⟨?_, ?_, ?_⟩, ?_, rfl, ?_, fun b2 _ => rfl⟩
      · show IsChain _ _ _
        simp only [hfs]
        apply IsChain_snoc (slotNext s) _ a L j hch' hj hnd
        · rw [← hcur]; simp [slotNext]
        · simp only [slotNext, setAt, if_neg hcj.symm]
          exact hjn
        · intro k hk1 hk2
          rw [← hcur] at hk1
          simp [slotNext, setAt, hk1]
      · rw [List.nodup_append]
        refine ⟨hnd, by simp, ?_⟩
        intro x hx hy
        simp only [List.mem_singleton] at hy
        subst hy
        exact hj hx
      · intro k hk
        simp only [List.mem_append, List.mem_singleton] at hk
        by_cases hkc : k = cur
        · subst hkc
          simp only [setAt_same]
          exact hall k hcurmem
        · simp only [setAt, if_neg hkc]
          rcases hk with hk | hk
          · exact hall k hk
          · subst hk; exact ⟨hj1, hj2, hj3⟩
      · intro k
        unfold payload
        by_cases hkc : k = cur
        · subst hkc; simp [setAt]
        · simp [setAt, hkc]
      · intro k hk
        have hkc : k ≠ cur := fun hh => hk (hh ▸ hcurmem)
        simp [setAt, hkc]

theorem wakeWaiting_ret (c : Config) (b : Nat) (s s1 : Kernel) (u : Unit)
    (h : wakeWaiting c b s = Outcome.ret u s1) :
    s1.MailSlotTable = s.MailSlotTable ∧
    (∀ b2, (s1.MailBoxTable b2).first_slot = (s.MailBoxTable b2).first_slot) ∧
    s1.psr = s.psr := by
  unfold wakeWaiting at h
  simp only [bind_run, bind_ret_iff, getK_run, Outcome.ret.injEq] at h
  obtain ⟨s0, s0', ⟨e1, e2⟩, h⟩ := h
  subst e1 e2
  by_cases hw : (s.MailBoxTable b).numWaiting > 0
  · simp only [hw, if_true, bind_run, bind_ret_iff, deref_ret_iff, modifyK_run,
      Outcome.ret.injEq, pure_run] at h
    obtain ⟨old, sa, ⟨_, e1⟩, _, sb, ⟨_, e2⟩, _, sc, ⟨_, e3⟩, _, sd, ⟨_, e4⟩, r, se, h5, _, e6⟩ := h
    obtain ⟨h6, h7, h8, _⟩ := liftProc_ret_frame _ _ _ _ h5
    subst e6
    rw [h6, h7, h8]
    subst e4 e3 e2 e1
    refine ⟨rfl, ?_, rfl⟩
    intro b2
    by_cases hb2 : b2 = b
    · subst hb2; simp [setAt]
    · simp [setAt, hb2]
  · simp only [hw, if_false, pure_run, Outcome.ret.injEq, true_and] at h
    subst h
    exact ⟨rfl, fun _ => rfl, rfl⟩

theorem wakeBlocked_ret (c : Config) (b : Nat) (s s1 : Kernel) (u : Unit)
    (h : wakeBlocked c b s = Outcome.ret u s1) :
    s1.MailSlotTable = s.MailSlotTable ∧
    ∀ b2, (s1.MailBoxTable b2).first_slot = (s.MailBoxTable b2).first_slot := by
  unfold wakeBlocked at h
  simp only [bind_run, bind_ret_iff, getK_run, Outcome.ret.injEq] at h
  obtain ⟨s0, s0', ⟨e1, e2⟩, h⟩ := h
  subst e1 e2
  by_cases hw : (s.MailBoxTable b).numBlocked > 0 ∧ (s.MailBoxTable b).unused_slots > 0
  · simp only [hw, and_self, if_true, bind_run, bind_ret_iff, deref_ret_iff, modifyK_run,
      Outcome.ret.injEq, pure_run, enableInterrupts_ret_iff] at h
    obtain ⟨old, sa, ⟨_, e1⟩, _, sb, ⟨_, e2⟩, _, sc, ⟨_, e3⟩, _, sd, ⟨_, e4⟩, _, sf,
      ⟨_, e5⟩, r, se, h5, _, e6⟩ := h
    obtain ⟨_, h7, h8, _⟩ := liftProc_ret_frame _ _ _ _ h5
    subst e6
    rw [h7, h8]
    subst e5 e4 e3 e2 e1
    refine ⟨rfl, ?_⟩
    intro b2
    by_cases hb2 : b2 = b
    · subst hb2; simp [setAt]
    · simp [setAt, hb2]
  · simp only [hw, if_false, pure_run, Outcome.ret.injEq, true_and] at h
    subst h
    exact ⟨rfl, fun _ => rfl⟩

theorem removeMSG_ret (c : Config) (slot : Int) (s s1 : Kernel) (u : Unit) (j0 : Nat)
    (L : List Nat) (hwf : MsgList c s slot.toNat (j0 :: L))
    (h : removeMSG c slot s = Outcome.ret u s1) :
    MsgList c s1 slot.toNat L ∧ (∀ i ∈ L, payload s1 i = payload s i) ∧ s1.psr = s.psr ∧
    (∀ k, k ≠ j0 → s1.MailSlotTable k = s.MailSlotTable k) ∧
    (∀ b2, b2 ≠ slot.toNat → s1.MailBoxTable b2 = s.MailBoxTable b2) := by
  unfold removeMSG at h
  obtain ⟨hch, hnd, hall⟩ := hwf
  have hfs : (s.MailBoxTable slot.toNat).first_slot = some j0 := hch.1
  obtain ⟨hj1, hj2, hj3⟩ := hall j0 (List.mem_cons_self _ _)
  have hj0 : j0 ∉ L := (List.nodup_cons.1 hnd).1
  simp only [bind_run, bind_ret_iff, tableIndex_ret_iff, getK_run, Outcome.ret.injEq] at h
  obtain ⟨b, sa, ⟨_, _, e1, e2⟩, sb, sc, ⟨e3, e4⟩, h⟩ := h
  have e3' : sb = s := e3.symm.trans e2
  have e4' : sc = s := e4.symm.trans e2
  rw [e3', e4', e1, hfs] at h
  simp only [bind_run, bind_ret_iff, modifyK_run, Outcome.ret.injEq, tableIndex_ret_iff,
    hj3] at h
  obtain ⟨_, sd, ⟨_, e5⟩, jj, se, ⟨_, _, e6, e7⟩, _, sf, ⟨_, e8⟩, _, sg, ⟨_, e9⟩, _, e10⟩ := h
  simp only [Int.toNat_ofNat] at e6
  rw [← e10, ← e9, ← e8, e7, ← e5, e6]
  refine ⟨⟨?_, (List.nodup_cons.1 hnd).2, ?_⟩, ?_, rfl, ?_, ?_⟩
  · show IsChain _ _ _
    simp only [setAt_same]
    apply IsChain_congr (slotNext s)
    · intro k hk
      have : k ≠ j0 := fun hh => hj0 (hh ▸ hk)
      simp [slotNext, setAt, this]
    · exact hch.2
  · intro k hk
    have : k ≠ j0 := fun hh => hj0 (hh ▸ hk)
    simp only [setAt, if_neg this]
    exact hall k (List.mem_cons_of_mem _ hk)
  · intro k hk
    have : k ≠ j0 := fun hh => hj0 (hh ▸ hk)
    unfold payload
    simp [setAt, this]
  · intro k hk
    simp [setAt, hk]
  · intro b2 hb2
    simp [setAt, hb2]

theorem MsgList_of_agree (c : Config) (s s1 : Kernel) (b : Nat) (L : List Nat)
    (h1 : ∀ k ∈ L, s1.MailSlotTable k = s.MailSlotTable k)
    (h2 : (s1.MailBoxTable b).first_slot = (s.MailBoxTable b).first_slot)
    (h : MsgList c s b L) : MsgList c s1 b L := by
  obtain ⟨hch, hnd, hall⟩ := h
  refine ⟨?_, hnd, ?_⟩
  · rw [h2]
    apply IsChain_congr (slotNext s) _ _ _ _ hch
    intro k hk
    simp [slotNext, h1 k hk]
  · intro k hk
    rw [h1 k hk]
    exact hall k hk

theorem storeAndWake_ret (c : Config) (s s1 : Kernel) (slot : Int) (msg : Nat → Int)
    (n r : Int) (L : List Nat)
    (hwf : MsgList c s slot.toNat L)
    (h : storeAndWake c slot msg n s = Outcome.ret r s1) :
    r = 0 ∧ 0 ≤ n ∧ ∃ j, (s.MailSlotTable j).isOccupied = 0 ∧
      MsgList c s1 slot.toNat (L ++ [j]) ∧
      payload s1 j = bytes msg n ∧ (∀ i ∈ L, payload s1 i = payload s i) ∧
      (∀ k, k ∉ L → k ≠ j → s1.MailSlotTable k = s.MailSlotTable k) ∧
      ∀ b2, b2 ≠ slot.toNat →
        (s1.MailBoxTable b2).first_slot = (s.MailBoxTable b2).first_slot := by
  unfold storeAndWake at h
  simp only [bind_run, bind_ret_iff, tableIndex_ret_iff, disableInterrupts_ret_iff,
    nextOpenMailSlot, getK_run, pure_run, Outcome.ret.injEq, modifyK_run,
    enableInterrupts_ret_iff] at h
  obtain ⟨b, sa, ⟨_, _, eb, esa⟩, _, sb, ⟨_, esb⟩, idx, sc, ⟨sd, se, ⟨esd, ese⟩, eidx, esc⟩,
    j, sf, ⟨hidx0, hidx1, ej, esf⟩, _, sg, hfill, _, sh, hlink, _, si, ⟨_, esi⟩, _, sj, hwake,
    _, sk, ⟨_, esk⟩, er, es1⟩ := h
  have hsd : sd = sb := esd.symm
  have hsc : sc = sb := by rw [← esc, ← ese, esd]
  rw [hsd] at eidx
  rw [esf, hsc] at hfill
  rcases nextOpenMailSlot_loop_spec sb.MailSlotTable c.MAXSLOTS 0 with
    ⟨h1, _⟩ | ⟨j', h1, _, hj2, hj3, _⟩
  · rw [h1] at eidx
    rw [← eidx] at hidx0
    omega
  · rw [h1] at eidx
    have ejj : j = j' := by rw [ej, ← eidx]; simp
    rw [← ejj] at hj2 hj3
    have hsbs : sb.MailSlotTable = s.MailSlotTable ∧ sb.MailBoxTable = s.MailBoxTable := by
      rw [esb, esa]; exact ⟨rfl, rfl⟩
    have hjL : j ∉ L := by
      intro hh
      have := (hwf.2.2 j hh).2.1
      rw [← hsbs.1] at this
      exact this hj3
    obtain ⟨hn, f1, f2, f3, f4, f5, f6, f7, _⟩ := fillSlot_ret _ _ _ _ _ _ _ _ _ hfill
    have hwfb : MsgList c sb slot.toNat L := MsgList_congr c s sb _ L hsbs.1 (by rw [hsbs.2]) hwf
    have hwfg : MsgList c sg slot.toNat L := by
      apply MsgList_of_agree c sb sg _ L _ (by rw [f1]) hwfb
      intro k hk
      exact f2 k (fun hh => hjL (hh ▸ hk))
    have hidxj : idx = (j : Int) := by rw [← eidx, ejj]
    rw [eb] at hlink hwake esi
    obtain ⟨l1, l2, _, l4, l5⟩ := linkSlot_ret c _ j sg sh _ L hwfg hjL f6 (by omega)
      (by rw [f3]; decide) (by rw [f4, hidxj]) hlink
    obtain ⟨w1, w2, _⟩ := wakeWaiting_ret _ _ _ _ _ hwake
    have hsi : si.MailSlotTable = sh.MailSlotTable ∧
        ∀ b2, (si.MailBoxTable b2).first_slot = (sh.MailBoxTable b2).first_slot := by
      rw [← esi]
      refine ⟨rfl, ?_⟩
      intro b2
      by_cases hb2 : b2 = slot.toNat
      · subst hb2; simp [setAt]
      · simp [setAt, hb2]
    have hfinal1 : s1.MailSlotTable = sh.MailSlotTable := by
      rw [← es1, esk, ← hsi.1, ← w1]
    have hfinal2 : ∀ b2, (s1.MailBoxTable b2).first_slot =
        (sh.MailBoxTable b2).first_slot := by
      intro b2
      rw [← es1, esk, ← hsi.2 b2, ← w2 b2]
    have hj3s : (s.MailSlotTable j).isOccupied = 0 := by rw [← hsbs.1]; exact hj3
    refine ⟨er.symm, hn, j, hj3s, MsgList_congr c sh s1 _ _ hfinal1 (hfinal2 _) l1,
      ?_, ?_, ?_, ?_⟩
    · rw [payload_congr sh s1 j hfinal1, l2 j]
      unfold payload
      rw [f5, f7]
      exact bytes_memcpy _ _ _ _ (le_refl _)
    · intro i hi
      rw [payload_congr sh s1 i hfinal1, l2 i]
      unfold payload
      rw [f2 i (fun hh => hjL (hh ▸ hi)), hsbs.1]
    · intro k hk1 hk2
      rw [hfinal1, l4 k hk1, f2 k hk2, hsbs.1]
    · intro b2 hb2
      rw [hfinal2 b2, l5 b2 hb2, f1, hsbs.2]

theorem is_zapped_ret (s s1 : Kernel) (z : Int) (h : liftProc is_zapped s = Outcome.ret z s1) :
    s1 = s := by
  obtain ⟨p, h1, h2⟩ := (liftProc_ret_iff _ _ _ _).1 h
  unfold is_zapped at h1
  simp only [bind_run, bind_ret_iff, getK_run, deref_ret_iff, Outcome.ret.injEq] at h1
  obtain ⟨_, sa, ⟨_, e1⟩, cur, sb, ⟨_, e2⟩, h3⟩ := h1
  have hp : p = s.proc := by
    split at h3
    · simp only [pure_run, Outcome.ret.injEq] at h3
      rw [← h3.2, e2, ← e1]
    · simp only [pure_run, Outcome.ret.injEq] at h3
      rw [← h3.2, e2, ← e1]
  rw [h2, hp]

theorem getSlot_ret (c : Config) (id v : Int) (s s1 : Kernel)
    (h : getSlot c id s = Outcome.ret v s1) :
    s1 = s ∧ (v = -1 ∨ (v = Int.tmod id c.MAXMBOX ∧ 0 ≤ v ∧ v < c.MAXMBOX)) := by
  unfold getSlot at h
  simp only [bind_run, bind_ret_iff, tableIndex_ret_iff, getK_run, Outcome.ret.injEq] at h
  obtain ⟨i, sa, ⟨h0, h1, _, e1⟩, sb, sc, ⟨e2, e3⟩, h4⟩ := h
  have hsc : sc = s := by rw [← e3, e1]
  split at h4
  · simp only [pure_run, Outcome.ret.injEq] at h4
    exact ⟨by rw [← h4.2, hsc], Or.inl h4.1.symm⟩
  · simp only [pure_run, Outcome.ret.injEq] at h4
    exact ⟨by rw [← h4.2, hsc], Or.inr ⟨h4.1.symm, by rw [← h4.1]; exact h0,
      by rw [← h4.1]; exact h1⟩⟩

theorem MboxSend_afterBlock_ret (c : Config) (s s1 : Kernel) (slot : Int) (msg : Nat → Int)
    (n : Int) (L : List Nat)
    (hwf : MsgList c s slot.toNat L)
    (h : MboxSend_afterBlock c slot msg n s = Outcome.ret 0 s1) :
    0 ≤ n ∧ ∃ j, (s.MailSlotTable j).isOccupied = 0 ∧
      MsgList c s1 slot.toNat (L ++ [j]) ∧
      payload s1 j = bytes msg n ∧ (∀ i ∈ L, payload s1 i = payload s i) ∧
      (∀ k, k ∉ L → k ≠ j → s1.MailSlotTable k = s.MailSlotTable k) ∧
      ∀ b2, b2 ≠ slot.toNat →
        (s1.MailBoxTable b2).first_slot = (s.MailBoxTable b2).first_slot := by
  unfold MboxSend_afterBlock at h
  simp only [bind_run, bind_ret_iff, tableIndex_ret_iff, getK_run, Outcome.ret.injEq] at h
  obtain ⟨b, sa, ⟨_, _, _, e1⟩, z, sb, hz, sc, sd, ⟨e2, e3⟩, h4⟩ := h
  have hsb : sb = s := by rw [is_zapped_ret _ _ _ hz, e1]
  have hsd : sd = s := by rw [← e3, hsb]
  rw [hsd] at h4
  split at h4
  · simp at h4
  · exact (storeAndWake_ret c s s1 slot msg n 0 L hwf h4).2

theorem block_me_11 (c : Config) (s : Kernel) : block_me c 11 s = Outcome.halt 1 s := rfl

theorem MboxSend_ret (c : Config) (s s1 : Kernel) (id : Int) (msg : Nat → Int)
    (n : Int) (L : List Nat)
    (hwf : MsgList c s (Int.tmod id c.MAXMBOX).toNat L)
    (h : MboxSend c id msg n s = Outcome.ret 0 s1) :
    0 ≤ n ∧ ∃ j, (s.MailSlotTable j).isOccupied = 0 ∧
      MsgList c s1 (Int.tmod id c.MAXMBOX).toNat (L ++ [j]) ∧
      payload s1 j = bytes msg n ∧ (∀ i ∈ L, payload s1 i = payload s i) ∧
      (∀ k, k ∉ L → k ≠ j → s1.MailSlotTable k = s.MailSlotTable k) ∧
      ∀ b2, b2 ≠ (Int.tmod id c.MAXMBOX).toNat →
        (s1.MailBoxTable b2).first_slot = (s.MailBoxTable b2).first_slot := by
  unfold MboxSend at h
  simp only [bind_run, bind_ret_iff, check_kernel_mode_ret_iff, getK_run,
    Outcome.ret.injEq] at h
  obtain ⟨_, sa, ⟨_, e1⟩, _, sb, hhp, sc, sd, ⟨e2, e3⟩, h4⟩ := h
  rw [e1] at hhp
  obtain ⟨⟨_, _, m1, m2, _⟩, _⟩ := handleProc_ret c s sb _ hhp
  have hsd : sd = sb := e3.symm
  rw [hsd] at h4
  split at h4
  · simp at h4
  · simp only [bind_run, bind_ret_iff] at h4
    obtain ⟨v, se, hgs, h5⟩ := h4
    obtain ⟨ese, hv⟩ := getSlot_ret _ _ _ _ _ hgs
    split at h5
    · simp at h5
    · rename_i hv1
      rcases hv with hv | ⟨hv, _, _⟩
      · exact absurd hv hv1
      · simp only [bind_run, bind_ret_iff, tableIndex_ret_iff, getK_run,
          Outcome.ret.injEq] at h5
        obtain ⟨b, sf, ⟨_, _, _, e4⟩, sg, sh, ⟨e5, e6⟩, h7⟩ := h5
        have hsh : sh = sb := by rw [← e6, e4, ese]
        rw [hsh] at h7
        have hwfb : MsgList c sb (Int.tmod id c.MAXMBOX).toNat L :=
          MsgList_congr c s sb _ L m2 (by rw [m1]) hwf
        have hpay : ∀ i, payload sb i = payload s i := fun i => payload_congr s sb i m2
        split at h7
        · simp at h7
        · split at h7
          · simp only [bind_run, bind_ret_iff, block_me_11] at h7
            obtain ⟨_, _, _, _, _, hbad, _⟩ := h7
            exact absurd hbad (by simp)
          · rw [hv] at h7
            obtain ⟨r1, j, r0, r2, r3, r4, r5, r6⟩ :=
              MboxSend_afterBlock_ret c sb s1 _ msg n L hwfb h7
            exact ⟨r1, j, by rw [← m2]; exact r0, r2, r3,
              fun i hi => by rw [r4 i hi, hpay i],
              fun k hk1 hk2 => by rw [r5 k hk1 hk2, m2],
              fun b2 hb2 => by rw [r6 b2 hb2, m1]⟩

theorem MboxCondSend_ret (c : Config) (s s1 : Kernel) (id : Int) (msg : Nat → Int)
    (n : Int) (L : List Nat)
    (hwf : MsgList c s (Int.tmod id c.MAXMBOX).toNat L)
    (h : MboxCondSend c id msg n s = Outcome.ret 0 s1) :
    0 ≤ n ∧ ∃ j, (s.MailSlotTable j).isOccupied = 0 ∧
      MsgList c s1 (Int.tmod id c.MAXMBOX).toNat (L ++ [j]) ∧
      payload s1 j = bytes msg n ∧ (∀ i ∈ L, payload s1 i = payload s i) ∧
      (∀ k, k ∉ L → k ≠ j → s1.MailSlotTable k = s.MailSlotTable k) ∧
      ∀ b2, b2 ≠ (Int.tmod id c.MAXMBOX).toNat →
        (s1.MailBoxTable b2).first_slot = (s.MailBoxTable b2).first_slot := by
  unfold MboxCondSend at h
  simp only [bind_run, bind_ret_iff, check_kernel_mode_ret_iff, getK_run,
    Outcome.ret.injEq] at h
  obtain ⟨_, sa, ⟨_, e1⟩, _, sb, hhp, sc, sd, ⟨e2, e3⟩, h4⟩ := h
  rw [e1] at hhp
  obtain ⟨⟨_, _, m1, m2, _⟩, _⟩ := handleProc_ret c s sb _ hhp
  have hsd : sd = sb := e3.symm
  rw [hsd] at h4
  split at h4
  · simp at h4
  · simp only [bind_run, bind_ret_iff] at h4
    obtain ⟨v, se, hgs, h5⟩ := h4
    obtain ⟨ese, hv⟩ := getSlot_ret _ _ _ _ _ hgs
    split at h5
    · simp at h5
    · rename_i hv1
      rcases hv with hv | ⟨hv, _, _⟩
      · exact absurd hv hv1
      · simp only [bind_run, bind_ret_iff, tableIndex_ret_iff, getK_run,
          Outcome.ret.injEq] at h5
        obtain ⟨b, sf, ⟨_, _, _, e4⟩, sg, sh, ⟨e5, e6⟩, h7⟩ := h5
        have hsh : sh = sb := by rw [← e6, e4, ese]
        rw [hsh] at h7
        have hwfb : MsgList c sb (Int.tmod id c.MAXMBOX).toNat L :=
          MsgList_congr c s sb _ L m2 (by rw [m1]) hwf
        have hpay : ∀ i, payload sb i = payload s i := fun i => payload_congr s sb i m2
        split at h7
        · simp at h7
        · split at h7
          · simp at h7
          · rw [hv] at h7
            obtain ⟨r1, j, r0, r2, r3, r4, r5, r6⟩ :=
              MboxSend_afterBlock_ret c sb s1 _ msg n L hwfb h7
            exact ⟨r1, j, by rw [← m2]; exact r0, r2, r3,
              fun i hi => by rw [r4 i hi, hpay i],
              fun k hk1 hk2 => by rw [r5 k hk1 hk2, m2],
              fun b2 hb2 => by rw [r6 b2 hb2, m1]⟩

theorem MboxReceive_afterBlock_ret (c : Config) (s s1 : Kernel) (slot : Int)
    (buf buf1 : Nat → Int) (cap r : Int) (L : List Nat)
    (hwf : MsgList c s slot.toNat L)
    (h : MboxReceive_afterBlock c slot buf cap s = Outcome.ret (r, buf1) s1) (hr : 0 ≤ r) :
    ∃ j0 L1, L = j0 :: L1 ∧ MsgList c s1 slot.toNat L1 ∧ bytes buf1 r = payload s j0 ∧
      (∀ i ∈ L1, payload s1 i = payload s i) ∧
      (∀ k, k ≠ j0 → s1.MailSlotTable k = s.MailSlotTable k) ∧
      ∀ b2, b2 ≠ slot.toNat →
        (s1.MailBoxTable b2).first_slot = (s.MailBoxTable b2).first_slot := by
  unfold MboxReceive_afterBlock at h
  simp only [bind_run, bind_ret_iff, tableIndex_ret_iff, getK_run, Outcome.ret.injEq] at h
  obtain ⟨b, sa, ⟨_, _, eb, e1⟩, z, sb, hz, sc, sd, ⟨e2, e3⟩, h4⟩ := h
  have hsb : sb = s := by rw [is_zapped_ret _ _ _ hz, e1]
  have hsd : sd = s := by rw [← e3, hsb]
  have hsc : sc = s := by rw [← e2, hsb]
  rw [hsd, hsc, eb] at h4
  split at h4
  · simp only [pure_run, Outcome.ret.injEq, Prod.mk.injEq] at h4
    omega
  · simp only [bind_run, bind_ret_iff, deref_ret_iff] at h4
    obtain ⟨first, se, ⟨hfirst, ese⟩, h5⟩ := h4
    cases L with
    | nil =>
      have : (s.MailBoxTable slot.toNat).first_slot = none := hwf.1
      rw [this] at hfirst
      exact absurd hfirst (by simp)
    | cons j0 L1 =>
      have hf0 : (s.MailBoxTable slot.toNat).first_slot = some j0 := hwf.1.1
      have hfj : first = j0 := by
        rw [hf0] at hfirst
        exact (Option.some.inj hfirst).symm
      rw [hfj, ese] at h5
      split at h5
      · simp only [pure_run, Outcome.ret.injEq, Prod.mk.injEq] at h5
        omega
      · rename_i hsize
        simp only [bind_run, bind_ret_iff, disableInterrupts_ret_iff] at h5
        obtain ⟨_, sf, ⟨_, esf⟩, h6⟩ := h5
        split at h6
        · simp at h6
        · simp only [bind_run, bind_ret_iff, pure_run, Outcome.ret.injEq,
            Prod.mk.injEq] at h6
          obtain ⟨_, sg, hrem, _, sh, hwake, ⟨er, ebuf⟩, es1⟩ := h6
          have hwff : MsgList c sf slot.toNat (j0 :: L1) := by
            apply MsgList_congr c s sf _ _ _ _ hwf
            · rw [esf]
            · rw [esf]
          obtain ⟨q1, q2, _, q4, q5⟩ := removeMSG_ret c slot sf sg _ j0 L1 hwff hrem
          obtain ⟨w1, w2⟩ := wakeBlocked_ret _ _ _ _ _ hwake
          have hpf : ∀ i, payload sf i = payload s i := fun i =>
            payload_congr s sf i (by rw [esf])
          refine ⟨j0, L1, rfl, ?_, ?_, ?_, ?_, ?_⟩
          · rw [← es1]
            exact MsgList_congr c sg sh _ _ w1 (w2 _) q1
          · rw [← er, ← ebuf]
            unfold payload
            apply bytes_memcpy
            have : (s.MailSlotTable j0).messageSize ≤ cap := by omega
            exact Int.toNat_le_toNat this
          · intro i hi
            rw [← es1, payload_congr sg sh i w1, q2 i hi, hpf i]
          · intro k hk
            rw [← es1, w1, q4 k hk, esf]
          · intro b2 hb2
            rw [← es1, w2 b2, q5 b2 hb2, esf]

theorem MboxReceive_ret (c : Config) (s s1 : Kernel) (id : Int)
    (buf buf1 : Nat → Int) (cap r : Int) (L : List Nat)
    (hwf : MsgList c s (Int.tmod id c.MAXMBOX).toNat L)
    (h : MboxReceive c id buf cap s = Outcome.ret (r, buf1) s1) (hr : 0 ≤ r) :
    ∃ j0 L1, L = j0 :: L1 ∧ MsgList c s1 (Int.tmod id c.MAXMBOX).toNat L1 ∧
      bytes buf1 r = payload s j0 ∧ (∀ i ∈ L1, payload s1 i = payload s i) ∧
      (∀ k, k ≠ j0 → s1.MailSlotTable k = s.MailSlotTable k) ∧
      ∀ b2, b2 ≠ (Int.tmod id c.MAXMBOX).toNat →
        (s1.MailBoxTable b2).first_slot = (s.MailBoxTable b2).first_slot := by
  unfold MboxReceive at h
  simp only [bind_run, bind_ret_iff, check_kernel_mode_ret_iff] at h
  obtain ⟨_, sa, ⟨_, e1⟩, _, sb, hhp, v, se, hgs, h5⟩ := h
  rw [e1] at hhp
  obtain ⟨⟨_, _, m1, m2, _⟩, _⟩ := handleProc_ret c s sb _ hhp
  obtain ⟨ese, hv⟩ := getSlot_ret _ _ _ _ _ hgs
  have hwfb : MsgList c sb (Int.tmod id c.MAXMBOX).toNat L :=
    MsgList_congr c s sb _ L m2 (by rw [m1]) hwf
  have hpay : ∀ i, payload sb i = payload s i := fun i => payload_congr s sb i m2
  split at h5
  · simp only [pure_run, Outcome.ret.injEq, Prod.mk.injEq] at h5
    omega
  · rename_i hv1
    rcases hv with hv | ⟨hv, _, _⟩
    · exact absurd hv hv1
    · simp only [bind_run, bind_ret_iff, tableIndex_ret_iff, getK_run,
        Outcome.ret.injEq] at h5
      obtain ⟨b, sf, ⟨_, _, _, e4⟩, sg, sh, ⟨e5, e6⟩, h7⟩ := h5
      have hsh : sh = sb := by rw [← e6, e4, ese]
      rw [hsh] at h7
      split at h7
      · simp only [bind_run, bind_ret_iff, block_me_11] at h7
        obtain ⟨_, _, _, _, _, hbad, _⟩ := h7
        exact absurd hbad (by simp)
      · rw [hv] at h7
        obtain ⟨j0, L1, r1, r2, r3, r4, r5, r6⟩ :=
          MboxReceive_afterBlock_ret c sb s1 _ buf buf1 cap r L hwfb h7 hr
        exact ⟨j0, L1, r1, r2, by rw [r3, hpay], fun i hi => by rw [r4 i hi, hpay i],
          fun k hk => by rw [r5 k hk, m2], fun b2 hb2 => by rw [r6 b2 hb2, m1]⟩

theorem MboxCondReceive_ret (c : Config) (s s1 : Kernel) (id : Int)
    (buf buf1 : Nat → Int) (cap r : Int) (L : List Nat)
    (hwf : MsgList c s (Int.tmod id c.MAXMBOX).toNat L)
    (h : MboxCondReceive c id buf cap s = Outcome.ret (r, buf1) s1) (hr : 0 ≤ r) :
    ∃ j0 L1, L = j0 :: L1 ∧ MsgList c s1 (Int.tmod id c.MAXMBOX).toNat L1 ∧
      bytes buf1 r = payload s j0 ∧ (∀ i ∈ L1, payload s1 i = payload s i) ∧
      (∀ k, k ≠ j0 → s1.MailSlotTable k = s.MailSlotTable k) ∧
      ∀ b2, b2 ≠ (Int.tmod id c.MAXMBOX).toNat →
        (s1.MailBoxTable b2).first_slot = (s.MailBoxTable b2).first_slot := by
  unfold MboxCondReceive at h
  simp only [bind_run, bind_ret_iff, check_kernel_mode_ret_iff] at h
  obtain ⟨_, sa, ⟨_, e1⟩, _, sb, hhp, v, se, hgs, h5⟩ := h
  rw [e1] at hhp
  obtain ⟨⟨_, _, m1, m2, _⟩, _⟩ := handleProc_ret c s sb _ hhp
  obtain ⟨ese, hv⟩ := getSlot_ret _ _ _ _ _ hgs
  have hwfb : MsgList c sb (Int.tmod id c.MAXMBOX).toNat L :=
    MsgList_congr c s sb _ L m2 (by rw [m1]) hwf
  have hpay : ∀ i, payload sb i = payload s i := fun i => payload_congr s sb i m2
  split at h5
  · simp only [pure_run, Outcome.ret.injEq, Prod.mk.injEq] at h5
    omega
  · rename_i hv1
    rcases hv with hv | ⟨hv, _, _⟩
    · exact absurd hv hv1
    · simp only [bind_run, bind_ret_iff, tableIndex_ret_iff, getK_run,
        Outcome.ret.injEq] at h5
      obtain ⟨b, sf, ⟨_, _, _, e4⟩, sg, sh, ⟨e5, e6⟩, h7⟩ := h5
      have hsh : sh = sb := by rw [← e6, e4, ese]
      rw [hsh] at h7
      split at h7
      · simp only [pure_run, Outcome.ret.injEq, Prod.mk.injEq] at h7
        omega
      · rw [hv] at h7
        obtain ⟨j0, L1, r1, r2, r3, r4, r5, r6⟩ :=
          MboxReceive_afterBlock_ret c sb s1 _ buf buf1 cap r L hwfb h7 hr
        exact ⟨j0, L1, r1, r2, by rw [r3, hpay], fun i hi => by rw [r4 i hi, hpay i],
          fun k hk => by rw [r5 k hk, m2], fun b2 hb2 => by rw [r6 b2 hb2, m1]⟩

theorem is_zapped_no (p : ProcState) (cur : Nat) (hcur : p.Current = some cur)
    (hz : (p.ProcTable cur).status ≠ 3) : is_zapped p = Outcome.ret 0 p := by
  unfold is_zapped
  simp [K.bind, hcur, hz]

theorem getSlot_live (c : Config) (id : Int) (s : Kernel) (h0 : 0 ≤ id) (hM : 0 < c.MAXMBOX)
    (hlive : (s.MailBoxTable (Int.tmod id c.MAXMBOX).toNat).mbox_id ≠ 0) :
    getSlot c id s = Outcome.ret (Int.tmod id c.MAXMBOX) s := by
  have h1 : 0 ≤ Int.tmod id c.MAXMBOX := Int.tmod_nonneg _ h0
  have h2 : Int.tmod id c.MAXMBOX < c.MAXMBOX := Int.tmod_lt_of_pos _ (by exact_mod_cast hM)
  unfold getSlot
  simp [K.bind, tableIndex, h1, h2, hlive]

theorem tmod_bounds (c : Config) (id : Int) (h0 : 0 ≤ id) (hM : 0 < c.MAXMBOX) :
    0 ≤ Int.tmod id c.MAXMBOX ∧ Int.tmod id c.MAXMBOX < c.MAXMBOX :=
  ⟨Int.tmod_nonneg _ h0, Int.tmod_lt_of_pos _ (by exact_mod_cast hM)⟩

theorem disableInterrupts_run (s : Kernel) (h : inKernelMode s.psr = true) :
    disableInterrupts s = Outcome.ret () (intsOff s) := by
  simp [disableInterrupts, h, intsOff]

theorem MboxCondSend_faults_when_pool_full (c : Config) (s : Kernel) (id : Int)
    (m : Nat → Int) (n : Int) (cur : Nat)
    (hmode : inKernelMode s.psr = true) (hcur : s.proc.Current = some cur)
    (hzap : (s.proc.ProcTable cur).status ≠ 3)
    (hreg : ∃ k, k < c.MAXPROC ∧ ((s.MBoxProcTable k).pid = (s.proc.ProcTable cur).pid ∨
      (s.MBoxProcTable k).pid = 0))
    (hcount : s.mail_slots_used < c.MAXSLOTS)
    (hfull : ∀ k, k < c.MAXSLOTS → (s.MailSlotTable k).isOccupied ≠ 0)
    (hid : 0 ≤ id) (hM : 0 < c.MAXMBOX)
    (hlive : (s.MailBoxTable (Int.tmod id c.MAXMBOX).toNat).mbox_id ≠ 0)
    (hrel : (s.MailBoxTable (Int.tmod id c.MAXMBOX).toNat).isReleased = 0)
    (hunused : (s.MailBoxTable (Int.tmod id c.MAXMBOX).toNat).unused_slots ≠ 0)
    (hn1 : n ≤ (s.MailBoxTable (Int.tmod id c.MAXMBOX).toNat).slot_size) :
    nextOpenMailSlot c s = Outcome.ret (-1) s ∧
    MboxCondSend c id m n s = Outcome.fault := by
  have hloop : ∀ t : Kernel, t.MailSlotTable = s.MailSlotTable →
      nextOpenMailSlot_loop t.MailSlotTable c.MAXSLOTS 0 = -1 := by
    intro t ht
    rcases nextOpenMailSlot_loop_spec t.MailSlotTable c.MAXSLOTS 0 with
      ⟨h1, _⟩ | ⟨k, _, _, h3, h4, _⟩
    · exact h1
    · rw [ht] at h4
      exact absurd h4 (hfull k (by omega))
  refine ⟨by simp [nextOpenMailSlot, K.bind, hloop s rfl], ?_⟩
  obtain ⟨sa, hsa⟩ := handleProc_runs c s cur hmode hcur hreg
  obtain ⟨⟨m0, _, m1, m2, m3, _, _⟩, hmodea, _, _, _⟩ := handleProc_ret c s sa _ hsa
  obtain ⟨hb0, hb1⟩ := tmod_bounds c id hid hM
  have hpool2 : ¬ sa.mail_slots_used ≥ (c.MAXSLOTS : Int) := by rw [m3]; omega
  have hgs := getSlot_live c id sa hid hM (by rw [m1]; exact hlive)
  have hne1 : ¬ Int.tmod id c.MAXMBOX = -1 := by omega
  have hsize : ¬ n > (sa.MailBoxTable (Int.tmod id c.MAXMBOX).toNat).slot_size := by
    rw [m1]; omega
  have hun : ¬ (sa.MailBoxTable (Int.tmod id c.MAXMBOX).toNat).unused_slots = 0 := by
    rw [m1]; exact hunused
  have hza : is_zapped sa.proc = Outcome.ret 0 sa.proc := by
    rw [m0]; exact is_zapped_no _ cur hcur hzap
  have hrela : (sa.MailBoxTable (Int.tmod id c.MAXMBOX).toNat).isReleased = 0 := by
    rw [m1]; exact hrel
  have hl := hloop (intsOff sa) m2
  unfold MboxCondSend
  simp only [bind_run, K.bind, check_kernel_mode, hmode, if_true, hsa, getK_run, hpool2,
    if_false, hgs, hne1, tableIndex, hb0, hb1, and_self, pure_run, hsize, hun,
    MboxSend_afterBlock, liftProc, hza, hrela, ne_eq, not_true_eq_false, or_self,
    storeAndWake, disableInterrupts_run sa hmodea, nextOpenMailSlot, hl]
  simp

theorem map_payload_congr (s s1 : Kernel) (L : List Nat)
    (h : ∀ i ∈ L, payload s1 i = payload s i) : L.map (payload s1) = L.map (payload s) :=
  List.map_congr_left h

theorem record_same (h : Nat → List (List Int)) (b : Nat) (x : List Int) :
    record h b x b = h b ++ [x] := by
  simp [record]

theorem record_other (h : Nat → List (List Int)) (b b2 : Nat) (x : List Int) (hb : b2 ≠ b) :
    record h b x b2 = h b2 := by
  simp [record, hb]

theorem Boxes_send (c : Config) (s s1 : Kernel) (Ls : Nat → List Nat) (b j : Nat)
    (hwf : Boxes c s Ls) (hfree : (s.MailSlotTable j).isOccupied = 0)
    (hnew : MsgList c s1 b (Ls b ++ [j]))
    (hslots : ∀ k, k ∉ Ls b → k ≠ j → s1.MailSlotTable k = s.MailSlotTable k)
    (hfirst : ∀ b2, b2 ≠ b →
      (s1.MailBoxTable b2).first_slot = (s.MailBoxTable b2).first_slot) :
    Boxes c s1 (fun k => if k = b then Ls b ++ [j] else Ls k) ∧
    ∀ b2, b2 ≠ b → ∀ i ∈ Ls b2, payload s1 i = payload s i := by
  obtain ⟨hall, hdisj⟩ := hwf
  have hjfree : ∀ b2, j ∉ Ls b2 := fun b2 hh => (hall b2).2.2 j hh |>.2.1 hfree
  have hagree : ∀ b2, b2 ≠ b → ∀ k ∈ Ls b2, s1.MailSlotTable k = s.MailSlotTable k := by
    intro b2 hb2 k hk
    exact hslots k (hdisj b2 b hb2 k hk) (fun hh => hjfree b2 (hh ▸ hk))
  refine ⟨⟨?_, ?_⟩, ?_⟩
  · intro b2
    by_cases hb2 : b2 = b
    · subst hb2
      simp only [if_true]
      exact hnew
    · simp only [if_neg hb2]
      exact MsgList_of_agree c s s1 b2 _ (hagree b2 hb2) (hfirst b2 hb2) (hall b2)
  · intro b1 b2 hne k hk
    by_cases h1 : b1 = b
    · have h2 : b2 ≠ b := fun hh => hne (h1.trans hh.symm)
      simp only [if_pos h1, List.mem_append, List.mem_singleton] at hk
      simp only [if_neg h2]
      rcases hk with hk | hk
      · exact hdisj b b2 (fun hh => h2 hh.symm) k hk
      · rw [hk]; exact hjfree b2
    · simp only [if_neg h1] at hk
      by_cases h2 : b2 = b
      · simp only [if_pos h2, List.mem_append, List.mem_singleton, not_or]
        exact ⟨hdisj b1 b h1 k hk, fun hh => hjfree b1 (hh ▸ hk)⟩
      · simp only [if_neg h2]
        exact hdisj b1 b2 hne k hk
  · intro b2 hb2 i hi
    unfold payload
    rw [hagree b2 hb2 i hi]

theorem Boxes_receive (c : Config) (s s1 : Kernel) (Ls : Nat → List Nat) (b j0 : Nat)
    (L1 : List Nat)
    (hwf : Boxes c s Ls) (hL : Ls b = j0 :: L1)
    (hnew : MsgList c s1 b L1)
    (hslots : ∀ k, k ≠ j0 → s1.MailSlotTable k = s.MailSlotTable k)
    (hfirst : ∀ b2, b2 ≠ b →
      (s1.MailBoxTable b2).first_slot = (s.MailBoxTable b2).first_slot) :
    Boxes c s1 (fun k => if k = b then L1 else Ls k) ∧
    ∀ b2, b2 ≠ b → ∀ i ∈ Ls b2, payload s1 i = payload s i := by
  obtain ⟨hall, hdisj⟩ := hwf
  have hj0 : j0 ∈ Ls b := by rw [hL]; exact List.mem_cons_self _ _
  have hsub : ∀ k ∈ L1, k ∈ Ls b := fun k hk => by rw [hL]; exact List.mem_cons_of_mem _ hk
  have hagree : ∀ b2, b2 ≠ b → ∀ k ∈ Ls b2, s1.MailSlotTable k = s.MailSlotTable k := by
    intro b2 hb2 k hk
    exact hslots k (fun hh => hdisj b2 b hb2 k hk (hh ▸ hj0))
  refine ⟨⟨?_, ?_⟩, ?_⟩
  · intro b2
    by_cases hb2 : b2 = b
    · subst hb2
      simp only [if_true]
      exact hnew
    · simp only [if_neg hb2]
      exact MsgList_of_agree c s s1 b2 _ (hagree b2 hb2) (hfirst b2 hb2) (hall b2)
  · intro b1 b2 hne k hk
    by_cases h1 : b1 = b
    · have h2 : b2 ≠ b := fun hh => hne (h1.trans hh.symm)
      simp only [if_pos h1] at hk
      simp only [if_neg h2]
      exact hdisj b b2 (fun hh => h2 hh.symm) k (hsub k hk)
    · simp only [if_neg h1] at hk
      by_cases h2 : b2 = b
      · simp only [if_pos h2]
        exact fun hh => hdisj b1 b h1 k hk (hsub k hh)
      · simp only [if_neg h2]
        exact hdisj b1 b2 hne k hk
  · intro b2 hb2 i hi
    unfold payload
    rw [hagree b2 hb2 i hi]

theorem Boxes_other (c : Config) (s s1 : Kernel) (Ls : Nat → List Nat)
    (hwf : Boxes c s Ls) (h1 : s1.MailSlotTable = s.MailSlotTable)
    (h2 : ∀ b, (s1.MailBoxTable b).first_slot = (s.MailBoxTable b).first_slot) :
    Boxes c s1 Ls :=
  ⟨fun b => MsgList_congr c s s1 b _ h1 (h2 b) (hwf.1 b), hwf.2⟩

theorem queues_after_send (c : Config) (s0 s s1 : Kernel)
    (sent received : Nat → List (List Int)) (Ls0 Ls : Nat → List Nat) (b : Nat)
    (x : List Int)
    (hwf : Boxes c s Ls)
    (hinv : ∀ b2, received b2 ++ (Ls b2).map (payload s) =
      (Ls0 b2).map (payload s0) ++ sent b2)
    (h : ∃ j, (s.MailSlotTable j).isOccupied = 0 ∧
      MsgList c s1 b (Ls b ++ [j]) ∧
      payload s1 j = x ∧ (∀ i ∈ Ls b, payload s1 i = payload s i) ∧
      (∀ k, k ∉ Ls b → k ≠ j → s1.MailSlotTable k = s.MailSlotTable k) ∧
      ∀ b2, b2 ≠ b → (s1.MailBoxTable b2).first_slot = (s.MailBoxTable b2).first_slot) :
    ∃ Ls1, Boxes c s1 Ls1 ∧
      ∀ b2, received b2 ++ (Ls1 b2).map (payload s1) =
        (Ls0 b2).map (payload s0) ++ record sent b x b2 := by
  obtain ⟨j, hfree, hnew, hpj, hpL, hslots, hfirst⟩ := h
  obtain ⟨hB, hpay⟩ := Boxes_send c s s1 Ls b j hwf hfree hnew hslots hfirst
  refine ⟨_, hB, ?_⟩
  intro b2
  by_cases hb2 : b2 = b
  · subst hb2
    simp only [if_true, record_same, List.map_append, List.map_cons, List.map_nil, hpj]
    rw [map_payload_congr s s1 _ hpL, ← List.append_assoc, hinv b2, List.append_assoc]
  · simp only [if_neg hb2, record_other _ _ _ _ hb2]
    rw [map_payload_congr s s1 _ (hpay b2 hb2), hinv b2]

theorem queues_after_receive (c : Config) (s0 s s1 : Kernel)
    (sent received : Nat → List (List Int)) (Ls0 Ls : Nat → List Nat) (b : Nat)
    (x : List Int)
    (hwf : Boxes c s Ls)
    (hinv : ∀ b2, received b2 ++ (Ls b2).map (payload s) =
      (Ls0 b2).map (payload s0) ++ sent b2)
    (h : ∃ j0 L1, Ls b = j0 :: L1 ∧ MsgList c s1 b L1 ∧
      x = payload s j0 ∧ (∀ i ∈ L1, payload s1 i = payload s i) ∧
      (∀ k, k ≠ j0 → s1.MailSlotTable k = s.MailSlotTable k) ∧
      ∀ b2, b2 ≠ b → (s1.MailBoxTable b2).first_slot = (s.MailBoxTable b2).first_slot) :
    ∃ Ls1, Boxes c s1 Ls1 ∧
      ∀ b2, record received b x b2 ++ (Ls1 b2).map (payload s1) =
        (Ls0 b2).map (payload s0) ++ sent b2 := by
  obtain ⟨j0, L1, hL, hnew, hx, hpL, hslots, hfirst⟩ := h
  obtain ⟨hB, hpay⟩ := Boxes_receive c s s1 Ls b j0 L1 hwf hL hnew hslots hfirst
  refine ⟨_, hB, ?_⟩
  intro b2
  by_cases hb2 : b2 = b
  · subst hb2
    have h0 := hinv b2
    rw [hL] at h0
    simp only [List.map_cons] at h0
    simp only [if_true, record_same]
    rw [map_payload_congr s s1 _ hpL, hx, List.append_assoc]
    exact h0
  · simp only [if_neg hb2, record_other _ _ _ _ hb2]
    rw [map_payload_congr s s1 _ (hpay b2 hb2), hinv b2]

/-- Along a run the message lists stay well formed and apart, and for every mailbox what
was received followed by what is queued is what was queued at the start followed by what
was sent. -/
theorem MboxRun_queues (c : Config) (s0 s : Kernel)
    (sent received : Nat → List (List Int)) (Ls0 : Nat → List Nat)
    (hwf : Boxes c s0 Ls0) (hrun : MboxRun c s0 sent received s) :
    ∃ Ls, Boxes c s Ls ∧
      ∀ b, received b ++ (Ls b).map (payload s) = (Ls0 b).map (payload s0) ++ sent b := by
  induction hrun with
  | start => exact ⟨Ls0, hwf, fun b => by simp⟩
  | send id msg n _ h ih =>
    obtain ⟨Ls, hB, hinv⟩ := ih
    exact queues_after_send c _ _ _ _ _ Ls0 Ls _ _ hB hinv
      (MboxSend_ret c _ _ id msg n _ (hB.1 _) h).2
  | condSend id msg n _ h ih =>
    obtain ⟨Ls, hB, hinv⟩ := ih
    exact queues_after_send c _ _ _ _ _ Ls0 Ls _ _ hB hinv
      (MboxCondSend_ret c _ _ id msg n _ (hB.1 _) h).2
  | receive id buf buf1 cap r _ h hr ih =>
    obtain ⟨Ls, hB, hinv⟩ := ih
    exact queues_after_receive c _ _ _ _ _ Ls0 Ls _ _ hB hinv
      (MboxReceive_ret c _ _ id buf buf1 cap r _ (hB.1 _) h hr)
  | condReceive id buf buf1 cap r _ h hr ih =>
    obtain ⟨Ls, hB, hinv⟩ := ih
    exact queues_after_receive c _ _ _ _ _ Ls0 Ls _ _ hB hinv
      (MboxCondReceive_ret c _ _ id buf buf1 cap r _ (hB.1 _) h hr)
  | other _ h1 h2 ih =>
    obtain ⟨Ls, hB, hinv⟩ := ih
    refine ⟨Ls, Boxes_other c _ _ Ls hB h1 h2, ?_⟩
    intro b
    rw [map_payload_congr _ _ (Ls b) (fun i _ => payload_congr _ _ i h1)]
    exact hinv b

theorem Boxes_of_empty (c : Config) (s : Kernel)
    (h : ∀ b, (s.MailBoxTable b).first_slot = none) : Boxes c s (fun _ => []) :=
  ⟨fun b => ⟨h b, List.nodup_nil, fun j hj => absurd hj (List.not_mem_nil j)⟩,
    fun _ _ _ k hk => absurd hk (List.not_mem_nil k)⟩

theorem twoBoxState_empty (b : Nat) : (twoBoxState.MailBoxTable b).first_slot = none := by
  simp only [twoBoxState, setAt]
  split_ifs <;> rfl

/-- C2: FIFO delivery, for every mailbox.  Start in a state whose message lists are well
formed and share no mail slot, and let any sequence of successful sends, conditional sends,
receives and conditional receives run, on any mailboxes and in any interleaving.  Then for
every mailbox whose message list was empty at the start, the payloads its receives
returned, in order, are an initial segment of the payloads its sends stored, in order. -/
theorem mailbox_delivers_in_send_order (c : Config) (s0 s : Kernel)
    (sent received : Nat → List (List Int)) (Ls0 : Nat → List Nat) (b : Nat)
    (hwf : Boxes c s0 Ls0)
    (hempty : (s0.MailBoxTable b).first_slot = none)
    (hrun : MboxRun c s0 sent received s) :
    received b <+: sent b := by
  have hL0 : Ls0 b = [] := by
    have hch := (hwf.1 b).1
    cases hL : Ls0 b with
    | nil => rfl
    | cons a L =>
      rw [hL] at hch
      have h1 : (s0.MailBoxTable b).first_slot = some a := hch.1
      rw [hempty] at h1
      exact absurd h1 (by simp)
  obtain ⟨Ls, _, h2⟩ := MboxRun_queues c s0 s sent received Ls0 hwf hrun
  have h3 := h2 b
  rw [hL0] at h3
  exact ⟨(Ls b).map (payload s), by simpa using h3⟩

theorem retWhen_spec {σ α : Type} (o : Outcome σ α) (P : α → σ → Bool)
    (h : o.retWhen P = true) : ∃ a s, o = Outcome.ret a s ∧ P a s = true := by
  cases o with
  | ret a s => exact ⟨a, s, rfl, h⟩
  | halt code s => simp [Outcome.retWhen] at h
  | fault => simp [Outcome.retWhen] at h

/-- An instance: on the empty mailboxes 7 and 8 the run send(7, "A"); send(8, "B");
receive(8); receive(7) interleaves the two mailboxes, and what mailbox 7 delivered is an
initial segment of what was sent to it. -/
theorem mailbox_delivers_in_send_order_witness :
    ∃ s b7 b8,
      Boxes usloss twoBoxState (fun _ => []) ∧
      (twoBoxState.MailBoxTable 7).first_slot = none ∧
      MboxRun usloss twoBoxState
        (record (record (fun _ => []) 7 (bytes msgA 1)) 8 (bytes msgB 1))
        (record (record (fun _ => []) 8 (bytes b8 1)) 7 (bytes b7 1)) s ∧
      (record (record (fun _ => []) 8 (bytes b8 1)) 7 (bytes b7 1)) 7 <+:
        (record (record (fun _ => []) 7 (bytes msgA 1)) 8 (bytes msgB 1)) 7 := by
  obtain ⟨s1, h1, hp1⟩ := retSat_spec (MboxSend usloss 7 msgA 1 twoBoxState) 0
    (fun s1 => (MboxSend usloss 8 msgB 1 s1).retSat 0
      (fun s2 => (MboxReceive usloss 8 zeroBuf 4 s2).retWhen
        (fun a s3 => decide (a.1 = 1) &&
          (MboxReceive usloss 7 zeroBuf 4 s3).retWhen (fun a2 _ => decide (a2.1 = 1)))))
    (by decide!)
  obtain ⟨s2, h2, hp2⟩ := retSat_spec _ _ _ hp1
  obtain ⟨a, s3, h3, hp3⟩ := retWhen_spec _ _ hp2
  simp only [Bool.and_eq_true, decide_eq_true_eq] at hp3
  obtain ⟨ha1, hp4⟩ := hp3
  obtain ⟨a2, s4, h4, hp5⟩ := retWhen_spec _ _ hp4
  have ha : a = (1, a.2) := Prod.ext ha1 rfl
  have ha2 : a2 = (1, a2.2) := Prod.ext (of_decide_eq_true hp5) rfl
  rw [ha] at h3
  rw [ha2] at h4
  have hrun : MboxRun usloss twoBoxState
      (record (record (fun _ => []) 7 (bytes msgA 1)) 8 (bytes msgB 1))
      (record (record (fun _ => []) 8 (bytes a.2 1)) 7 (bytes a2.2 1)) s4 :=
    MboxRun.receive 7 zeroBuf a2.2 4 1
      (MboxRun.receive 8 zeroBuf a.2 4 1
        (MboxRun.send 8 msgB 1 (MboxRun.send 7 msgA 1 (MboxRun.start twoBoxState) h1) h2)
        h3 (by decide))
      h4 (by decide)
  exact ⟨s4, a2.2, a.2, Boxes_of_empty usloss twoBoxState twoBoxState_empty, rfl, hrun,
    mailbox_delivers_in_send_order usloss twoBoxState s4 _ _ (fun _ => []) 7
      (Boxes_of_empty usloss twoBoxState twoBoxState_empty) rfl hrun⟩

/-- C9: no send ever increments `mail_slots_used`, so the test `mail_slots_used >= MAXSLOTS`
does not see a full pool.  With all 2500 mail slots occupied by the messages of mailbox 8
(the counter still 0) and mailbox 7 live with one unused slot, `nextOpenMailSlot` returns
-1 and `MboxCondSend(7, "A", 1)` indexes `MailSlotTable` with it: it does not return -2. -/
theorem MboxCondSend_full_pool_indexes_minus_one :
    (∀ k, k < usloss.MAXSLOTS → (fullPoolState.MailSlotTable k).isOccupied = 1) ∧
    fullPoolState.mail_slots_used = 0 ∧
    nextOpenMailSlot usloss fullPoolState = Outcome.ret (-1) fullPoolState ∧
    MboxCondSend usloss 7 msgA 1 fullPoolState = Outcome.fault := by
  refine ⟨fun k _ => rfl, rfl, ?_⟩
  exact MboxCondSend_faults_when_pool_full usloss fullPoolState 7 msgA 1 2 (by decide) rfl
    (by decide) ⟨0, by decide, Or.inr (by decide)⟩ (by decide)
    (fun k _ => by
      show (1 : Int) ≠ 0
      decide)
    (by decide) (by decide) (by decide) (by decide) (by decide) (by decide)

/-! ## Process creation, termination and the queues of a mailbox -/

theorem isFault_spec {σ α : Type} (o : Outcome σ α) (h : o.isFault = true) :
    o = Outcome.fault := by
  cases o with
  | ret a s => simp [Outcome.isFault] at h
  | halt code s => simp [Outcome.isFault] at h
  | fault => rfl

theorem haltSat_spec {σ α : Type} (o : Outcome σ α) (v : Int) (P : σ → Bool)
    (h : o.haltSat v P = true) : ∃ s, o = Outcome.halt v s ∧ P s = true := by
  cases o with
  | ret a s => simp [Outcome.haltSat] at h
  | halt code s =>
    simp only [Outcome.haltSat, Bool.and_eq_true, decide_eq_true_eq] at h
    exact ⟨s, by rw [h.1], h.2⟩
  | fault => simp [Outcome.haltSat] at h

/-- C11: on the zero-slot mailbox 7 whose blocked-senders queue is [pid 3] and whose
`unused_slots` is -1 after a hand-over to a waiting receiver, `MboxReceive` succeeds: it
returns the length 1 and frees mail slot 0.  `unused_slots` becomes 0, the test
`numBlocked > 0 && unused_slots > 0` fails, and pid 3 is not unblocked: `numBlocked` is
still 1, the queue still starts with the entry of pid 3, and pid 3 still has status 11 and
is on the blocked list. -/
theorem MboxReceive_leaves_sender_blocked :
    (strandedSenderState.MailBoxTable 7).numBlocked = 1 ∧
    (strandedSenderState.MailBoxTable 7).blockedProc = some 1 ∧
    (strandedSenderState.MBoxProcTable 1).pid = 3 ∧
    ∃ buf s1, MboxReceive usloss 7 zeroBuf 4 strandedSenderState = Outcome.ret (1, buf) s1 ∧
      (s1.MailSlotTable 0).isOccupied = 0 ∧ (s1.MailBoxTable 7).unused_slots = 0 ∧
      (s1.MailBoxTable 7).numBlocked = 1 ∧ (s1.MailBoxTable 7).blockedProc = some 1 ∧
      (s1.proc.ProcTable 3).status = 11 ∧ blockedQueue usloss s1.proc = [3] := by
  refine ⟨by decide, by decide, by decide, ?_⟩
  obtain ⟨a, s1, h1, hp⟩ := retWhen_spec (MboxReceive usloss 7 zeroBuf 4 strandedSenderState)
    (fun a s1 => decide (a.1 = 1 ∧
      (s1.MailSlotTable 0).isOccupied = 0 ∧ (s1.MailBoxTable 7).unused_slots = 0 ∧
      (s1.MailBoxTable 7).numBlocked = 1 ∧ (s1.MailBoxTable 7).blockedProc = some 1 ∧
      (s1.proc.ProcTable 3).status = 11 ∧ blockedQueue usloss s1.proc = [3])) (by decide!)
  have hq := of_decide_eq_true hp
  have ha : a = (1, a.2) := Prod.ext hq.1 rfl
  rw [ha] at h1
  exact ⟨a.2, s1, h1, hq.2⟩

/-- C12: no function increments `mail_slots_used`.  From the state with no mailbox,
`MboxCreate(1, 4)` returns the id 1 and `MboxSend(1, "A", 1)` returns 0; afterwards one mail
slot is occupied and the mailbox has `num_slots - unused_slots = 1`, but `mail_slots_used`
is 0.  The `MboxReceive` that follows empties the pool and leaves `mail_slots_used` at -1. -/
theorem mail_slots_used_not_counted :
    ∃ s1, MboxCreate usloss 1 4 twoProcState = Outcome.ret 1 s1 ∧
      ∃ s2, MboxSend usloss 1 msgA 1 s1 = Outcome.ret 0 s2 ∧
        s2.mail_slots_used = 0 ∧ occupiedSlots usloss s2 = 1 ∧ slotsInUse usloss s2 = 1 ∧
        ∃ buf s3, MboxReceive usloss 1 zeroBuf 4 s2 = Outcome.ret (1, buf) s3 ∧
          s3.mail_slots_used = -1 ∧ occupiedSlots usloss s3 = 0 ∧ slotsInUse usloss s3 = 0 := by
  obtain ⟨s1, h1, hp⟩ := retSat_spec (MboxCreate usloss 1 4 twoProcState) 1
    (fun s1 => (MboxSend usloss 1 msgA 1 s1).retSat 0 (fun s2 =>
      decide (s2.mail_slots_used = 0 ∧ occupiedSlots usloss s2 = 1 ∧ slotsInUse usloss s2 = 1) &&
      (MboxReceive usloss 1 zeroBuf 4 s2).retWhen (fun a s3 =>
        decide (a.1 = 1 ∧ s3.mail_slots_used = -1 ∧ occupiedSlots usloss s3 = 0 ∧
          slotsInUse usloss s3 = 0))))
    (by decide!)
  obtain ⟨s2, h2, hq⟩ := retSat_spec _ _ _ hp
  simp only [Bool.and_eq_true, decide_eq_true_eq] at hq
  obtain ⟨a, s3, h3, hr⟩ := retWhen_spec _ _ hq.2
  have hr2 := of_decide_eq_true hr
  have ha : a = (1, a.2) := Prod.ext hr2.1 rfl
  rw [ha] at h3
  exact ⟨s1, h1, s2, h2, hq.1.1, hq.1.2.1, hq.1.2.2, a.2, s3, h3, hr2.2⟩

/-- C13: on the zero-slot mailbox 7 with pid 3 waiting in a receive, `MboxSend` returns 0
and leaves the live mailbox with `num_slots = 0` and `unused_slots = -1`.  The test
`unused_slots == 0` of `MboxCondSend` then no longer sees the mailbox as full: the
`MboxCondSend` that follows returns 0 as well and leaves `unused_slots = -2`. -/
theorem unused_slots_goes_negative :
    ∃ s1, MboxSend usloss 7 msgA 1 rendezvousState = Outcome.ret 0 s1 ∧
      (s1.MailBoxTable 7).mbox_id = 7 ∧ (s1.MailBoxTable 7).num_slots = 0 ∧
      (s1.MailBoxTable 7).unused_slots = -1 ∧
      ∃ s2, MboxCondSend usloss 7 msgA 1 s1 = Outcome.ret 0 s2 ∧
        (s2.MailBoxTable 7).mbox_id = 7 ∧ (s2.MailBoxTable 7).num_slots = 0 ∧
        (s2.MailBoxTable 7).unused_slots = -2 := by
  obtain ⟨s1, h1, hp⟩ := retSat_spec (MboxSend usloss 7 msgA 1 rendezvousState) 0
    (fun s1 => decide ((s1.MailBoxTable 7).mbox_id = 7 ∧ (s1.MailBoxTable 7).num_slots = 0 ∧
      (s1.MailBoxTable 7).unused_slots = -1) &&
      (MboxCondSend usloss 7 msgA 1 s1).retSat 0 (fun s2 =>
        decide ((s2.MailBoxTable 7).mbox_id = 7 ∧ (s2.MailBoxTable 7).num_slots = 0 ∧
          (s2.MailBoxTable 7).unused_slots = -2)))
    (by decide!)
  simp only [Bool.and_eq_true, decide_eq_true_eq] at hp
  obtain ⟨s2, h2, hq⟩ := retSat_spec _ _ _ hp.2
  simp only [decide_eq_true_eq] at hq
  exact ⟨s1, h1, hp.1.1, hp.1.2.1, hp.1.2.2, s2, h2, hq⟩

/-- C14: on the zero-slot mailbox 7 with pid 3 blocked in a send, `MboxReceive` called by
pid 2 finds the message list empty and enters pid 2 in the waiting queue without looking at
the blocked senders.  The run ends in the `halt(1)` of `block_me(11)`, in a state in which
`numWaiting` and `numBlocked` are both 1: the waiting queue starts with the entry of pid 2
and the blocked-senders queue with the entry of pid 3. -/
theorem MboxReceive_waits_beside_blocked_sender :
    (blockedSenderState.MailBoxTable 7).num_slots = 0 ∧
    (blockedSenderState.MailBoxTable 7).numBlocked = 1 ∧
    (blockedSenderState.MailBoxTable 7).numWaiting = 0 ∧
    ∃ s1, MboxReceive usloss 7 zeroBuf 4 blockedSenderState = Outcome.halt 1 s1 ∧
      (s1.MailBoxTable 7).numWaiting = 1 ∧ (s1.MailBoxTable 7).numBlocked = 1 ∧
      (s1.MailBoxTable 7).waitingProc = some 1 ∧ (s1.MBoxProcTable 1).pid = 2 ∧
      (s1.MailBoxTable 7).blockedProc = some 0 ∧ (s1.MBoxProcTable 0).pid = 3 := by
  refine ⟨by decide, by decide, by decide, ?_⟩
  obtain ⟨s1, h1, hp⟩ := haltSat_spec (MboxReceive usloss 7 zeroBuf 4 blockedSenderState) 1
    (fun s1 => decide ((s1.MailBoxTable 7).numWaiting = 1 ∧ (s1.MailBoxTable 7).numBlocked = 1 ∧
      (s1.MailBoxTable 7).waitingProc = some 1 ∧ (s1.MBoxProcTable 1).pid = 2 ∧
      (s1.MailBoxTable 7).blockedProc = some 0 ∧ (s1.MBoxProcTable 0).pid = 3))
    (by decide!)
  exact ⟨s1, h1, of_decide_eq_true hp⟩

/-- C16: `assignMailBoxID` leaves `nextMailBoxID` at the id it has just assigned.  From the
state with no mailbox, `MboxCreate(1, 4)` returns the id 1, `MboxRelease(1)` returns 0, and
the next `MboxCreate(1, 4)` returns the id 1 again. -/
theorem MboxCreate_reuses_released_id :
    ∃ s1, MboxCreate usloss 1 4 twoProcState = Outcome.ret 1 s1 ∧ s1.nextMailBoxID = 1 ∧
      ∃ s2, MboxRelease noZap usloss 1 s1 = Outcome.ret 0 s2 ∧
        ∃ s3, MboxCreate usloss 1 4 s2 = Outcome.ret 1 s3 ∧
          (s3.MailBoxTable 1).mbox_id = 1 := by
  obtain ⟨s1, h1, hp⟩ := retSat_spec (MboxCreate usloss 1 4 twoProcState) 1
    (fun s1 => decide (s1.nextMailBoxID = 1) &&
      (MboxRelease noZap usloss 1 s1).retSat 0 (fun s2 =>
        (MboxCreate usloss 1 4 s2).retSat 1 (fun s3 => decide ((s3.MailBoxTable 1).mbox_id = 1))))
    (by decide!)
  simp only [Bool.and_eq_true, decide_eq_true_eq] at hp
  obtain ⟨s2, h2, hq⟩ := retSat_spec _ _ _ hp.2
  obtain ⟨s3, h3, hr⟩ := retSat_spec _ _ _ hq
  exact ⟨s1, h1, hp.1, s2, h2, s3, h3, of_decide_eq_true hr⟩

/-- C18: the priority test of `fork1` is `priority < 1 || priority > 6` for every caller.
Called by pid 2 (not the sentinel's creation: the sentinel exists as pid 1) with a 5-letter
name, a non-null function, no argument, the minimal stack size and priority 6, `fork1`
returns the new pid 3: the descriptor in table slot 3 is allocated with priority 6 and
parent 2, `numProcs` goes from 2 to 3 and the ready queue of priority 6 becomes [1, 3]. -/
theorem fork1_accepts_priority_six :
    twoProcState.proc.Current = some 2 ∧ (twoProcState.proc.ProcTable 2).pid = 2 ∧
    (twoProcState.proc.ProcTable 1).pid = 1 ∧ twoProcState.proc.numProcs = 2 ∧
    readyQueue usloss twoProcState.proc 6 = [1] ∧
    ∃ s1, fork1 usloss forkLimits 5 (some 1) none 81920 6 twoProcState = Outcome.ret 3 s1 ∧
      (s1.proc.ProcTable 3).pid = 3 ∧ (s1.proc.ProcTable 3).priority = 6 ∧
      (s1.proc.ProcTable 3).parent_pid = 2 ∧ (s1.proc.ProcTable 3).status = 1 ∧
      s1.proc.numProcs = 3 ∧ readyQueue usloss s1.proc 6 = [1, 3] := by
  refine ⟨rfl, by decide, by decide, by decide, by decide, ?_⟩
  obtain ⟨s1, h1, hp⟩ := retSat_spec
    (fork1 usloss forkLimits 5 (some 1) none 81920 6 twoProcState) 3
    (fun s1 => decide ((s1.proc.ProcTable 3).pid = 3 ∧ (s1.proc.ProcTable 3).priority = 6 ∧
      (s1.proc.ProcTable 3).parent_pid = 2 ∧ (s1.proc.ProcTable 3).status = 1 ∧
      s1.proc.numProcs = 3 ∧ readyQueue usloss s1.proc 6 = [1, 3]))
    (by decide!)
  exact ⟨s1, h1, of_decide_eq_true hp⟩

/-- C19: the loop of `removeFromChildList` assigns to `next_in_list` where the sibling link
is meant.  Pid 2 has the children [3, 4] and pid 4 has quit with code 5.  When pid 2 runs
the rest of `join`, it returns pid 4 and the code 5, zeroes the descriptor in slot 4 and
decrements `num_children` and `numProcs`, but the child list of pid 2 is still [3, 4]: pid 3
still points to the zeroed descriptor as its next sibling. -/
theorem join_keeps_quit_child_on_list :
    childList usloss joinState 2 = [3, 4] ∧ (joinState.ProcTable 4).status = 4 ∧
    ∃ p1, join_afterBlock usloss (some 3) joinState = Outcome.ret (4, 5) p1 ∧
      p1.ProcTable 4 = proc_struct.zero ∧ (p1.ProcTable 2).num_children = 1 ∧
      p1.numProcs = 3 ∧ (p1.ProcTable 3).next_sibling_ptr = some 4 ∧
      childList usloss p1 2 = [3, 4] := by
  refine ⟨by decide, by decide, ?_⟩
  obtain ⟨p1, h1, hp⟩ := retSat_spec (join_afterBlock usloss (some 3) joinState) (4, 5)
    (fun p1 => decide (p1.ProcTable 4 = proc_struct.zero ∧ (p1.ProcTable 2).num_children = 1 ∧
      p1.numProcs = 3 ∧ (p1.ProcTable 3).next_sibling_ptr = some 4 ∧
      childList usloss p1 2 = [3, 4]))
    (by decide!)
  exact ⟨p1, h1, of_decide_eq_true hp⟩

/-- C20: pid 4 has no children and its parent pid 2 is blocked in a `join`.  With the
blocked list [2, 3] (the parent first), `quit(0)` does what is claimed: pid 4 gets status 4
and leaves its ready queue, pid 2 gets status 1 and is the ready queue of priority 1, and the
blocked list is [3].  With the blocked list [3, 2] (the parent last), the loop of
`removeFromBlockedList` unlinks pid 2, advances to `NULL` and dereferences it: `quit(0)`
faults. -/
theorem quit_faults_when_parent_last_blocked :
    (blockedQueue usloss (quitState 2 3).proc = [2, 3] ∧
      ∃ s1, quit usloss 0 (quitState 2 3) = Outcome.ret () s1 ∧
        (s1.proc.ProcTable 4).status = 4 ∧ (s1.proc.ProcTable 4).status_to_parent = 0 ∧
        readyQueue usloss s1.proc 2 = [] ∧ (s1.proc.ProcTable 2).status = 1 ∧
        readyQueue usloss s1.proc 1 = [2] ∧ blockedQueue usloss s1.proc = [3]) ∧
    (blockedQueue usloss (quitState 3 2).proc = [3, 2] ∧
      (((quitState 3 2).proc.ProcTable 2).status = 9 ∧
        ((quitState 3 2).proc.ProcTable 4).parent_pid = 2 ∧
        ((quitState 3 2).proc.ProcTable 4).num_children = 0) ∧
      quit usloss 0 (quitState 3 2) = Outcome.fault) := by
  refine ⟨⟨by decide, ?_⟩, by decide, by decide, isFault_spec _ (by decide!)⟩
  obtain ⟨s1, h1, hp⟩ := retSat_spec (quit usloss 0 (quitState 2 3)) ()
    (fun s1 => decide ((s1.proc.ProcTable 4).status = 4 ∧
      (s1.proc.ProcTable 4).status_to_parent = 0 ∧
      readyQueue usloss s1.proc 2 = [] ∧ (s1.proc.ProcTable 2).status = 1 ∧
      readyQueue usloss s1.proc 1 = [2] ∧ blockedQueue usloss s1.proc = [3]))
    (by decide!)
  exact ⟨s1, h1, of_decide_eq_true hp⟩

/-! ## Creating and releasing mailboxes -/

theorem MboxRelease_ret_zero (zap : Int → K Kernel Int) (c : Config) (id : Int) (s s1 : Kernel)
    (h : MboxRelease zap c id s = Outcome.ret 0 s1) :
    inKernelMode s1.psr = true ∧ 0 ≤ Int.tmod id c.MAXMBOX ∧ Int.tmod id c.MAXMBOX < c.MAXMBOX ∧
    s1.MailBoxTable (Int.tmod id c.MAXMBOX).toNat = mail_box.zero := by
  unfold MboxRelease at h
  simp only [bind_run, bind_ret_iff, check_kernel_mode_ret_iff] at h
  obtain ⟨_, sa, ⟨_, e1⟩, _, sb, hhp, v, sc, hgs, h4⟩ := h
  obtain ⟨ese, hv⟩ := getSlot_ret _ _ _ _ _ hgs
  split at h4
  · simp at h4
  · rename_i hv1
    rcases hv with hv | ⟨hv, hv0, hvM⟩
    · exact absurd hv hv1
    · simp only [bind_run, bind_ret_iff] at h4
      obtain ⟨z, sd, hz, h5⟩ := h4
      split at h5
      · simp at h5
      · simp only [bind_run, bind_ret_iff, tableIndex_ret_iff, modifyK_run,
          enableInterrupts_ret_iff, pure_run, Outcome.ret.injEq] at h5
        obtain ⟨b, se, ⟨_, _, eb, _⟩, _, sf, _, _, sg, _, _, sh, _, _, si, _, _, sj, _, _, sk,
          ⟨_, e7⟩, _, sl, ⟨_, e8⟩, _, sm, ⟨hk, e9⟩, _, e10⟩ := h5
        subst e10 e9
        rw [← hv]
        refine ⟨inKernelMode_set _ hk, hv0, hvM, ?_⟩
        rw [← e8, ← e7, ← eb]
        simp

/-- C17: when `MboxRelease(id)` has returned 0 and the caller, still the current process, can
be found or entered in the mailbox process table, an immediately following `MboxRelease(id)`
returns -1 and leaves the mailbox table, the mail slots, the counters of the mailbox manager
and the process manager's variables as they were. -/
theorem MboxRelease_twice (zap : Int → K Kernel Int) (c : Config) (id : Int) (s s1 : Kernel)
    (cur : Nat)
    (h1 : MboxRelease zap c id s = Outcome.ret 0 s1)
    (hcur : s1.proc.Current = some cur)
    (hreg : ∃ k, k < c.MAXPROC ∧ ((s1.MBoxProcTable k).pid = (s1.proc.ProcTable cur).pid ∨
      (s1.MBoxProcTable k).pid = 0)) :
    ∃ s2, MboxRelease zap c id s1 = Outcome.ret (-1) s2 ∧ SameMail s1 s2 := by
  obtain ⟨hmode, hb0, hb1, hzero⟩ := MboxRelease_ret_zero zap c id s s1 h1
  obtain ⟨sa, hsa⟩ := handleProc_runs c s1 cur hmode hcur hreg
  obtain ⟨hsame, _⟩ := handleProc_ret c s1 sa _ hsa
  have hz : (sa.MailBoxTable (Int.tmod id c.MAXMBOX).toNat).mbox_id = 0 := by
    rw [hsame.2.2.1, hzero]
    rfl
  refine ⟨sa, ?_, hsame⟩
  unfold MboxRelease
  simp only [bind_run, K.bind, check_kernel_mode, hmode, if_true, hsa, getSlot, tableIndex,
    hb0, hb1, and_self, pure_run, getK_run, hz]

theorem MboxRelease_twice_witness :
    ∃ s1 s2, MboxRelease noZap usloss 7 oneBoxState = Outcome.ret 0 s1 ∧
      MboxRelease noZap usloss 7 s1 = Outcome.ret (-1) s2 ∧ SameMail s1 s2 := by
  obtain ⟨s1, h1, hp⟩ := retSat_spec (MboxRelease noZap usloss 7 oneBoxState) 0
    (fun s1 => decide (s1.proc.Current = some 2 ∧ (s1.MBoxProcTable 0).pid = (s1.proc.ProcTable 2).pid))
    (by decide!)
  have hp2 := of_decide_eq_true hp
  obtain ⟨s2, h2, h3⟩ := MboxRelease_twice noZap usloss 7 oneBoxState s1 2 h1 hp2.1
    ⟨0, by decide, Or.inl hp2.2⟩
  exact ⟨s1, s2, h1, h2, h3⟩

theorem IsChain_next_of_mid (f : Nat → Option Nat) (A B : List Nat) (i : Nat) (p : Option Nat)
    (hc : IsChain f p (A ++ i :: B)) : IsChain f (f i) B := by
  induction A generalizing p with
  | nil => exact hc.2
  | cons a A ih => exact ih _ hc.2

theorem IsChain_remove_mid (f g : Nat → Option Nat) (A B : List Nat) (a i b : Nat)
    (hc : IsChain f (some a) (a :: (A ++ i :: b :: B)))
    (hnd : (a :: (A ++ i :: b :: B)).Nodup)
    (hg : ∀ k, k ≠ (a :: A).getLast (List.cons_ne_nil _ _) → k ≠ i → g k = f k)
    (hgp : IsChain f (g ((a :: A).getLast (List.cons_ne_nil _ _))) (b :: B)) :
    IsChain g (some a) (a :: (A ++ b :: B)) := by
  induction A generalizing a with
  | nil =>
    simp only [List.nil_append, List.getLast_singleton] at hc hnd hg hgp ⊢
    refine ⟨rfl, ?_⟩
    apply IsChain_congr f g (b :: B) _ _ hgp
    intro k hk
    have hk1 : k ≠ a := by
      intro hh
      apply (List.nodup_cons.1 hnd).1
      rw [← hh]
      exact List.mem_cons_of_mem _ hk
    have hk2 : k ≠ i := by
      intro hh
      apply (List.nodup_cons.1 (List.nodup_cons.1 hnd).2).1
      rw [← hh]
      exact hk
    exact (hg k hk1 hk2).symm
  | cons a2 A ih =>
    simp only [List.cons_append] at hc hnd ⊢
    have hlast : (a :: a2 :: A).getLast (List.cons_ne_nil _ _) =
        (a2 :: A).getLast (List.cons_ne_nil _ _) := List.getLast_cons (List.cons_ne_nil a2 A)
    rw [hlast] at hg hgp
    have hnd2 : (a2 :: (A ++ i :: b :: B)).Nodup := (List.nodup_cons.1 hnd).2
    have hmem : (a2 :: A).getLast (List.cons_ne_nil _ _) ∈ a2 :: (A ++ i :: b :: B) := by
      have := List.getLast_mem (List.cons_ne_nil a2 A)
      rcases List.mem_cons.1 this with h | h
      · rw [h]; exact List.mem_cons_self _ _
      · exact List.mem_cons_of_mem _ (List.mem_append_left _ h)
    have ha1 : a ≠ (a2 :: A).getLast (List.cons_ne_nil _ _) := by
      intro hh
      apply (List.nodup_cons.1 hnd).1
      rw [hh]
      exact hmem
    have ha2 : a ≠ i := by
      intro hh
      apply (List.nodup_cons.1 hnd).1
      rw [hh]
      simp
    refine ⟨rfl, ?_⟩
    rw [hg a ha1 ha2]
    have hfa : f a = some a2 := hc.2.1
    rw [hfa]
    exact ih a2 (by rw [← hfa]; exact hc.2) hnd2 hg hgp

theorem unlinkedTable_self (tbl : Nat → proc_struct) (pred i : Nat) :
    (unlinkedTable tbl pred i i).status = 1 ∧ (unlinkedTable tbl pred i i).next_in_list = none := by
  by_cases h : pred = i
  · subst h
    simp [unlinkedTable]
  · have h2 : i ≠ pred := fun hh => h hh.symm
    simp [unlinkedTable, setAt, h2]

theorem unlinkedTable_pred (tbl : Nat → proc_struct) (pred i : Nat) (h : pred ≠ i) :
    (unlinkedTable tbl pred i pred).next_in_list = (tbl i).next_in_list := by
  simp [unlinkedTable, setAt, h]

theorem unlinkedTable_other (tbl : Nat → proc_struct) (pred i k : Nat) (h1 : k ≠ i)
    (h2 : k ≠ pred) : unlinkedTable tbl pred i k = tbl k := by
  simp [unlinkedTable, setAt, h1, h2]

theorem unlinkedTable_keeps (tbl : Nat → proc_struct) (pred i k : Nat) :
    (unlinkedTable tbl pred i k).pid = (tbl k).pid ∧
    (unlinkedTable tbl pred i k).priority = (tbl k).priority ∧
    (k ≠ i → (unlinkedTable tbl pred i k).status = (tbl k).status) := by
  by_cases h1 : k = i
  · subst h1
    by_cases h2 : k = pred
    · subst h2
      simp [unlinkedTable]
    · simp [unlinkedTable, setAt, h2]
  · by_cases h2 : k = pred
    · subst h2
      simp [unlinkedTable, setAt, h1]
    · rw [unlinkedTable_other tbl pred i k h1 h2]
      simp

theorem removeFromBlockedList_loop_walk (pid : Int) (s : ProcState) (T : List Nat) :
    ∀ (fuel cu : Nat), T.length < fuel → IsChain (procNext s) (some cu) (cu :: T) →
      (∀ k ∈ T, (s.ProcTable k).pid ≠ pid) →
      removeFromBlockedList_loop pid fuel (some cu) s = Outcome.ret () s := by
  induction T with
  | nil =>
    intro fuel cu hf hc _
    obtain ⟨n, rfl⟩ := Nat.exists_eq_succ_of_ne_zero (by omega : fuel ≠ 0)
    have hn : (s.ProcTable cu).next_in_list = none := hc.2
    simp only [removeFromBlockedList_loop, bind_run, K.bind, deref_some_run, getK_run, hn,
      pure_run]
  | cons nx T ih =>
    intro fuel cu hf hc hp
    obtain ⟨n, rfl⟩ := Nat.exists_eq_succ_of_ne_zero (by omega : fuel ≠ 0)
    have hn : (s.ProcTable cu).next_in_list = some nx := hc.2.1
    have hne : (s.ProcTable nx).pid ≠ pid := hp nx (List.mem_cons_self _ _)
    simp only [removeFromBlockedList_loop, bind_run, K.bind, deref_some_run, getK_run, hn, hne,
      if_false]
    exact ih n nx (by simp at hf; omega) ⟨rfl, hc.2.2⟩
      (fun k hk => hp k (List.mem_cons_of_mem _ hk))

theorem removeFromBlockedList_loop_unlinks (pid : Int) (s : ProcState) (i b : Nat)
    (B : List Nat) :
    ∀ (A : List Nat) (cu fuel : Nat), (A ++ b :: B).length < fuel →
      IsChain (procNext s) (some cu) (cu :: A ++ i :: b :: B) →
      (cu :: A ++ i :: b :: B).Nodup →
      (s.ProcTable i).pid = pid →
      (∀ k ∈ A, (s.ProcTable k).pid ≠ pid) → (∀ k ∈ B, (s.ProcTable k).pid ≠ pid) →
      removeFromBlockedList_loop pid fuel (some cu) s = Outcome.ret ()
        { s with ProcTable :=
            unlinkedTable s.ProcTable ((cu :: A).getLast (List.cons_ne_nil _ _)) i } := by
  intro A
  induction A with
  | nil =>
    intro cu fuel hf hc hnd hpid _ hB
    obtain ⟨n, rfl⟩ := Nat.exists_eq_succ_of_ne_zero (by omega : fuel ≠ 0)
    simp only [List.cons_append, List.nil_append] at hf hc hnd
    have hn : (s.ProcTable cu).next_in_list = some i := hc.2.1
    have hni : (s.ProcTable i).next_in_list = some b := hc.2.2.1
    have hcui : cu ≠ i := by
      intro hh
      have := (List.nodup_cons.1 hnd).1
      apply this
      rw [hh]
      simp
    have hnext : ((unlinkedTable s.ProcTable cu i) cu).next_in_list = some b := by
      simp [unlinkedTable, setAt, hcui, hni]
    simp only [removeFromBlockedList_loop, bind_run, K.bind, deref_some_run, getK_run, hn,
      if_pos hpid, modifyK_run, List.getLast_singleton]
    show removeFromBlockedList_loop pid n ((unlinkedTable s.ProcTable cu i) cu).next_in_list
      { s with ProcTable := unlinkedTable s.ProcTable cu i } = _
    rw [hnext]
    have hnd2 : (i :: b :: B).Nodup := (List.nodup_cons.1 hnd).2
    have hnd3 : (b :: B).Nodup := (List.nodup_cons.1 hnd2).2
    have hsame : ∀ k ∈ b :: B, (unlinkedTable s.ProcTable cu i) k = s.ProcTable k := by
      intro k hk
      have hk1 : k ≠ i := fun hh => (List.nodup_cons.1 hnd2).1 (hh ▸ hk)
      have hk2 : k ≠ cu := by
        intro hh
        have := (List.nodup_cons.1 hnd).1
        apply this
        rw [← hh]
        exact List.mem_cons_of_mem _ hk
      simp [unlinkedTable, setAt, hk1, hk2]
    apply removeFromBlockedList_loop_walk pid _ B n b (by simp at hf ⊢; omega)
    · have hcb : IsChain (procNext s) (some b) (b :: B) := ⟨rfl, hc.2.2.2⟩
      apply IsChain_congr (procNext s) _ (b :: B) _ _ hcb
      intro k hk
      simp only [procNext]
      rw [hsame k hk]
    · intro k hk
      show ((unlinkedTable s.ProcTable cu i) k).pid ≠ pid
      rw [hsame k (List.mem_cons_of_mem _ hk)]
      exact hB k hk
  | cons a A ih =>
    intro cu fuel hf hc hnd hpid hA hB
    obtain ⟨n, rfl⟩ := Nat.exists_eq_succ_of_ne_zero (by omega : fuel ≠ 0)
    simp only [List.cons_append] at hf hc hnd
    have hn : (s.ProcTable cu).next_in_list = some a := hc.2.1
    have hne : (s.ProcTable a).pid ≠ pid := hA a (List.mem_cons_self _ _)
    simp only [removeFromBlockedList_loop, bind_run, K.bind, deref_some_run, getK_run, hn, hne,
      if_false]
    have := ih a n (by simp at hf ⊢; omega) ⟨rfl, hc.2.2⟩ (List.nodup_cons.1 hnd).2 hpid
      (fun k hk => hA k (List.mem_cons_of_mem _ hk)) hB
    rw [this]
    rw [List.getLast_cons (List.cons_ne_nil a A)]

theorem removeFromBlockedList_removes (c : Config) (s : ProcState) (pid : Int)
    (A B : List Nat) (i : Nat)
    (hc : IsChain (procNext s) s.BlockedProcs.head (A ++ i :: B))
    (hnd : (A ++ i :: B).Nodup) (hin : ∀ k ∈ A ++ i :: B, k < c.MAXPROC)
    (hpid : (s.ProcTable i).pid = pid)
    (hother : ∀ k ∈ A ++ B, (s.ProcTable k).pid ≠ pid)
    (hpos : A = [] ∨ B ≠ []) :
    ∃ s1, removeFromBlockedList c pid s = Outcome.ret 0 s1 ∧
      IsChain (procNext s1) s1.BlockedProcs.head (A ++ B) ∧
      (s1.ProcTable i).status = 1 ∧ (s1.ProcTable i).next_in_list = none ∧
      (∀ k, (s1.ProcTable k).pid = (s.ProcTable k).pid ∧
        (s1.ProcTable k).priority = (s.ProcTable k).priority) ∧
      (∀ k, k ≠ i → (s1.ProcTable k).status = (s.ProcTable k).status) ∧
      (∀ k, k ∉ A → k ≠ i → s1.ProcTable k = s.ProcTable k) ∧
      s1.ReadyProcs = s.ReadyProcs ∧ s1.Current = s.Current := by
  cases A with
  | nil =>
    simp only [List.nil_append] at hc hnd hin hother ⊢
    have hhead : s.BlockedProcs.head = some i := hc.1
    cases B with
    | nil =>
      have hn : (s.ProcTable i).next_in_list = none := hc.2
      refine ⟨{ s with
          ProcTable := setAt s.ProcTable i { s.ProcTable i with status := 1 },
          BlockedProcs := { hasProc := 0, head := none, tail := none } }, ?_, rfl, ?_, ?_, ?_, ?_,
        ?_, rfl, rfl⟩
      · unfold removeFromBlockedList
        have hboth : (s.ProcTable i).pid = pid ∧ (s.ProcTable i).next_in_list = none :=
          ⟨hpid, hn⟩
        simp only [bind_run, K.bind, getK_run, hhead, if_pos hboth, modifyK_run, pure_run]
      · simp
      · simp [hn]
      · intro k
        by_cases hk : k = i
        · subst hk
          simp
        · simp [setAt, hk]
      · intro k hk
        simp [setAt, hk]
      · intro k _ hk
        simp [setAt, hk]
    | cons b B =>
      have hn : (s.ProcTable i).next_in_list = some b := hc.2.1
      have hnn : ¬ ((s.ProcTable i).pid = pid ∧ (s.ProcTable i).next_in_list = none) := by
        rw [hn]
        simp
      refine ⟨{ s with
          ProcTable := setAt (setAt s.ProcTable i { s.ProcTable i with status := 1 }) i
            { s.ProcTable i with status := 1, next_in_list := none },
          BlockedProcs := { s.BlockedProcs with head := some b } }, ?_, ?_, ?_, ?_, ?_, ?_,
        ?_, rfl, rfl⟩
      · unfold removeFromBlockedList
        simp only [bind_run, K.bind, getK_run, hhead, if_neg hnn, if_pos hpid, modifyK_run,
          pure_run, setAt_same]
        rw [hn]
      · have hcb : IsChain (procNext s) (some b) (b :: B) := ⟨rfl, hc.2.2⟩
        apply IsChain_congr (procNext s) _ (b :: B) _ _ hcb
        intro k hk
        have hk1 : k ≠ i := fun hh => (List.nodup_cons.1 hnd).1 (hh ▸ hk)
        simp [procNext, setAt, hk1]
      · simp
      · simp
      · intro k
        by_cases hk : k = i
        · subst hk
          simp
        · simp [setAt, hk]
      · intro k hk
        simp [setAt, hk]
      · intro k _ hk
        simp [setAt, hk]
  | cons a A =>
    rcases hpos with hpos | hpos
    · exact absurd hpos (by simp)
    · cases B with
      | nil => exact absurd rfl hpos
      | cons b B =>
        simp only [List.cons_append] at hc hnd hin hother ⊢
        have hhead : s.BlockedProcs.head = some a := hc.1
        have hane : (s.ProcTable a).pid ≠ pid := hother a (List.mem_cons_self _ _)
        have hnn : ¬ ((s.ProcTable a).pid = pid ∧ (s.ProcTable a).next_in_list = none) :=
          fun hh => hane hh.1
        have hlen : (a :: (A ++ i :: b :: B)).length ≤ c.MAXPROC := by
          have hsub : a :: (A ++ i :: b :: B) ⊆ List.range c.MAXPROC :=
            fun k hk => List.mem_range.2 (hin k hk)
          have := (List.subperm_of_subset hnd hsub).length_le
          simpa using this
        have hrun := removeFromBlockedList_loop_unlinks pid s i b B A a c.MAXPROC
          (by simp at hlen ⊢; omega) (by rw [← hhead]; exact hc) hnd hpid
          (fun k hk => hother k (List.mem_cons_of_mem _ (List.mem_append_left _ hk)))
          (fun k hk => hother k (List.mem_cons_of_mem _
            (List.mem_append_right _ (List.mem_cons_of_mem _ hk))))
        have hai : a ≠ i := by
          intro hh
          apply (List.nodup_cons.1 hnd).1
          rw [hh]
          simp
        have hnd2 : (A ++ i :: b :: B).Nodup := (List.nodup_cons.1 hnd).2
        have hlast : (a :: A).getLast (List.cons_ne_nil _ _) ∈ a :: A := List.getLast_mem _
        have hpi : (a :: A).getLast (List.cons_ne_nil _ _) ≠ i := by
          intro hh
          rw [hh] at hlast
          rcases List.mem_cons.1 hlast with h1 | h1
          · exact hai h1.symm
          · exact (List.nodup_append.1 hnd2).2.2 h1 (List.mem_cons_self _ _) 
        refine ⟨{ s with ProcTable :=
            unlinkedTable s.ProcTable ((a :: A).getLast (List.cons_ne_nil _ _)) i },
          ?_, ?_, ?_, ?_, ?_, ?_, ?_, rfl, rfl⟩
        · unfold removeFromBlockedList
          simp only [bind_run, K.bind, getK_run, hhead, if_neg hnn, if_neg hane, hrun, pure_run]
        · have hcs : IsChain (procNext s) (some a) (a :: (A ++ i :: b :: B)) := by
            rw [← hhead]; exact hc
          show IsChain (fun k => (unlinkedTable s.ProcTable
              ((a :: A).getLast (List.cons_ne_nil _ _)) i k).next_in_list) s.BlockedProcs.head _
          rw [hhead]
          exact IsChain_remove_mid (procNext s)
            (fun k => (unlinkedTable s.ProcTable
              ((a :: A).getLast (List.cons_ne_nil _ _)) i k).next_in_list) A B a i b hcs hnd
            (fun k hk1 hk2 => by
              simp only [procNext]
              rw [unlinkedTable_other _ _ _ k hk2 hk1])
            (by
              simp only []
              rw [unlinkedTable_pred _ _ _ hpi]
              exact IsChain_next_of_mid (procNext s) (a :: A) (b :: B) i (some a) hcs)
        · exact (unlinkedTable_self _ _ _).1
        · exact (unlinkedTable_self _ _ _).2
        · intro k
          exact ⟨(unlinkedTable_keeps _ _ _ k).1, (unlinkedTable_keeps _ _ _ k).2.1⟩
        · intro k hk
          exact (unlinkedTable_keeps _ _ _ k).2.2 hk
        · intro k hk1 hk2
          have hk3 : k ≠ (a :: A).getLast (List.cons_ne_nil _ _) := fun hh => hk1 (hh ▸ hlast)
          exact unlinkedTable_other _ _ _ k hk2 hk3

theorem addToReadyList_appends (c : Config) (s : ProcState) (slot : Int) (p : Nat)
    (R : List Nat) (h0 : 0 ≤ slot) (h1 : slot < c.MAXPROC)
    (hp : (s.ProcTable slot.toNat).priority = (p : Int)) (hp1 : p ≤ SENTINELPRIORITY c)
    (hc : IsChain (procNext s) (s.ReadyProcs p).head R) (hnd : R.Nodup)
    (hflag : (s.ReadyProcs p).hasProc = 0 ↔ R = [])
    (htail : ∀ hne : R ≠ [], (s.ReadyProcs p).tail = some (R.getLast hne))
    (hnew : slot.toNat ∉ R) (hnext : (s.ProcTable slot.toNat).next_in_list = none) :
    ∃ s1, addToReadyList c slot s = Outcome.ret () s1 ∧
      IsChain (procNext s1) (s1.ReadyProcs p).head (R ++ [slot.toNat]) ∧
      (s1.ReadyProcs p).tail = some slot.toNat ∧
      (∀ q, q ≠ p → s1.ReadyProcs q = s.ReadyProcs q) ∧
      s1.BlockedProcs = s.BlockedProcs ∧ s1.Current = s.Current ∧
      (∀ k, k ∉ R → s1.ProcTable k = s.ProcTable k) ∧
      (∀ k, (s1.ProcTable k).status = (s.ProcTable k).status) := by
  have hp0 : (0 : Int) ≤ (p : Int) := Int.ofNat_nonneg p
  have hp2 : (p : Int) < ((SENTINELPRIORITY c + 1 : Nat) : Int) := by
    exact_mod_cast Nat.lt_succ_of_le hp1
  by_cases he : (s.ReadyProcs p).hasProc = 0
  · have hR : R = [] := hflag.1 he
    subst hR
    refine ⟨{ s with
        ReadyProcs := setAt s.ReadyProcs p
          { hasProc := 1, head := some slot.toNat, tail := some slot.toNat } }, ?_, ?_, ?_, ?_,
      rfl, rfl, fun _ _ => rfl, fun _ => rfl⟩
    · unfold addToReadyList
      simp only [bind_run, K.bind, tableIndex, h0, h1, and_self, if_true, pure_run, getK_run, hp,
        hp0, hp2, Int.toNat_ofNat, he, ne_eq, not_true_eq_false, if_false, modifyK_run]
    · simp only [List.nil_append, setAt_same]
      exact ⟨rfl, hnext⟩
    · simp
    · intro q hq
      simp [setAt, hq]
  · cases R with
    | nil => exact absurd (hflag.2 rfl) he
    | cons a L =>
      have ht := htail (List.cons_ne_nil a L)
      have hhead : (s.ReadyProcs p).head = some a := hc.1
      have hmem : (a :: L).getLast (List.cons_ne_nil a L) ∈ a :: L := List.getLast_mem _
      have hsnoc := fun g => IsChain_snoc (procNext s) g a L slot.toNat
        (by rw [← hhead]; exact hc) hnew hnd
      generalize (a :: L).getLast (List.cons_ne_nil a L) = t at ht hmem hsnoc
      have htne : t ≠ slot.toNat := fun hh => hnew (hh ▸ hmem)
      refine ⟨{ s with
          ProcTable := setAt s.ProcTable t { s.ProcTable t with next_in_list := some slot.toNat },
          ReadyProcs := setAt s.ReadyProcs p { s.ReadyProcs p with tail := some slot.toNat } },
        ?_, ?_, ?_, ?_, rfl, rfl, ?_, ?_⟩
      · unfold addToReadyList
        simp only [bind_run, K.bind, tableIndex, h0, h1, and_self, if_true, pure_run, getK_run,
          hp, hp0, hp2, Int.toNat_ofNat, ne_eq, he, not_false_eq_true, ht, deref_some_run,
          modifyK_run, setAt_same]
      · simp only [setAt_same]
        rw [hhead]
        apply hsnoc
        · simp [procNext]
        · simp only [procNext]
          rw [setAt_other _ _ _ _ htne.symm]
          exact hnext
        · intro k hk1 _
          simp only [procNext]
          rw [setAt_other _ _ _ _ hk1]
      · simp
      · intro q hq
        simp [setAt, hq]
      · intro k hk
        have hk1 : k ≠ t := fun hh => hk (hh ▸ hmem)
        simp [setAt, hk1]
      · intro k
        simp only [setAt]
        split
        · rename_i hk
          rw [hk]
        · rfl

/-- C21 (amended): let `pid` be the pid of the process in table slot `i = pid % MAXPROC`,
other than `Current`, with a status above 10, and let the blocked list be `A ++ i :: B`
where `i` is the first entry or has a successor (`A = [] ∨ B ≠ []`), the list holding
distinct table entries of which only `i` has this pid; let the ready queue of the
priority `p` of the process be `R`, well linked and apart from the blocked list.  Then
`unblock_proc(pid)` returns 0, the status of `i` is READY (1), the blocked list is `A ++ B`,
the ready queue of priority `p` is `R ++ [i]` with `i` as its tail, the other ready queues
keep their headers, no other status changes and the descriptors that are on neither list
are unchanged. -/
theorem unblock_proc_moves_to_ready (c : Config) (s : ProcState) (pid : Int) (i cur p : Nat)
    (A B R : List Nat)
    (hi : Int.tmod pid c.MAXPROC = (i : Int))
    (hpid : (s.ProcTable i).pid = pid) (hlive : pid ≠ 0)
    (hst : 10 < (s.ProcTable i).status)
    (hcur : s.Current = some cur) (hself : (s.ProcTable cur).pid ≠ pid)
    (hb : IsChain (procNext s) s.BlockedProcs.head (A ++ i :: B))
    (hnd : (A ++ i :: B).Nodup) (hin : ∀ k ∈ A ++ i :: B, k < c.MAXPROC)
    (hother : ∀ k ∈ A ++ B, (s.ProcTable k).pid ≠ pid)
    (hpos : A = [] ∨ B ≠ [])
    (hp : (s.ProcTable i).priority = (p : Int)) (hp1 : p ≤ SENTINELPRIORITY c)
    (hr : IsChain (procNext s) (s.ReadyProcs p).head R) (hrnd : R.Nodup)
    (hflag : (s.ReadyProcs p).hasProc = 0 ↔ R = [])
    (htail : ∀ hne : R ≠ [], (s.ReadyProcs p).tail = some (R.getLast hne))
    (hdisj : ∀ k ∈ R, k ∉ A ++ i :: B) :
    ∃ s1, unblock_proc c pid s = Outcome.ret 0 s1 ∧
      (s1.ProcTable i).status = 1 ∧
      IsChain (procNext s1) s1.BlockedProcs.head (A ++ B) ∧
      IsChain (procNext s1) (s1.ReadyProcs p).head (R ++ [i]) ∧
      (s1.ReadyProcs p).tail = some i ∧
      (∀ q, q ≠ p → s1.ReadyProcs q = s.ReadyProcs q) ∧
      (∀ k, k ≠ i → (s1.ProcTable k).status = (s.ProcTable k).status) ∧
      (∀ k, k ∉ A ++ i :: B → k ∉ R → s1.ProcTable k = s.ProcTable k) := by
  have hiM : i < c.MAXPROC := hin i (by simp)
  have hs0 : (0 : Int) ≤ Int.tmod pid c.MAXPROC := by rw [hi]; exact Int.ofNat_nonneg i
  have hs1 : Int.tmod pid c.MAXPROC < (c.MAXPROC : Int) := by rw [hi]; exact_mod_cast hiM
  have hsn : (Int.tmod pid c.MAXPROC).toNat = i := by rw [hi]; exact Int.toNat_ofNat i
  have hiR : i ∉ R := fun hh => hdisj i hh (by simp)
  obtain ⟨s1, hrun1, hb1, hst1, hnx1, hkeep1, hstat1, hframe1, hready1, hcur1⟩ :=
    removeFromBlockedList_removes c s pid A B i hb hnd hin hpid hother hpos
  have hsame1 : ∀ k ∈ R, s1.ProcTable k = s.ProcTable k := by
    intro k hk
    have hk1 := hdisj k hk
    exact hframe1 k (fun hh => hk1 (List.mem_append_left _ hh))
      (fun hh => hk1 (by rw [hh]; simp))
  have hr1 : IsChain (procNext s1) (s1.ReadyProcs p).head R := by
    rw [hready1]
    apply IsChain_congr (procNext s) _ R _ _ hr
    intro k hk
    simp only [procNext]
    rw [hsame1 k hk]
  obtain ⟨s2, hrun2, hr2, htail2, hq2, hb2, _, hframe2, hstat2⟩ :=
    addToReadyList_appends c s1 (Int.tmod pid c.MAXPROC) p R hs0 hs1
      (by rw [hsn, (hkeep1 i).2, hp]) hp1 hr1 hrnd (by rw [hready1]; exact hflag)
      (by rw [hready1]; exact htail) (by rw [hsn]; exact hiR) (by rw [hsn]; exact hnx1)
  rw [hsn] at hr2 htail2
  refine ⟨s2, ?_, ?_, ?_, hr2, htail2, ?_, ?_, ?_⟩
  · have h1 : ¬ (Int.tmod pid c.MAXPROC > (c.MAXPROC : Int) - 1) := by omega
    have h2 : ¬ (s.ProcTable i).pid = 0 := by rw [hpid]; exact hlive
    have h3 : ¬ (s.ProcTable i).status ≤ 10 := by omega
    have h4 : ¬ (s.ProcTable i).pid = (s.ProcTable cur).pid := by
      rw [hpid]
      exact fun hh => hself hh.symm
    have h5 : ¬ (s.ProcTable i).status = 3 := by omega
    unfold unblock_proc
    simp only [bind_run, K.bind, if_neg h1, tableIndex, hs0, hs1, and_self, if_true, pure_run,
      getK_run, hsn, if_neg h2, if_neg h3, hcur, deref_some_run, if_neg h4, if_neg h5, hrun1,
      hrun2]
  · rw [hstat2 i]
    exact hst1
  · rw [hb2]
    apply IsChain_congr (procNext s1) _ (A ++ B) _ _ hb1
    intro k hk
    have hkR : k ∉ R := by
      intro hh
      apply hdisj k hh
      rcases List.mem_append.1 hk with h | h
      · exact List.mem_append_left _ h
      · exact List.mem_append_right _ (List.mem_cons_of_mem _ h)
    simp only [procNext]
    rw [hframe2 k hkR]
  · intro q hq
    rw [hq2 q hq, hready1]
  · intro k hk
    rw [hstat2 k]
    exact hstat1 k hk
  · intro k hk1 hk2
    rw [hframe2 k hk2]
    exact hframe1 k (fun hh => hk1 (List.mem_append_left _ hh)) (fun hh => hk1 (by rw [hh]; simp))

/-- An instance: pid 4 is the middle entry of the blocked list [3, 4, 5], with status 11,
and pid 2 is running at the same priority: `unblock_proc(4)` leaves the blocked list
[3, 5] and the ready queue [2, 4]. -/
theorem unblock_proc_moves_to_ready_witness :
    ∃ s1, unblock_proc usloss 4 blockedMidProcs = Outcome.ret 0 s1 ∧
      (s1.ProcTable 4).status = 1 ∧
      IsChain (procNext s1) s1.BlockedProcs.head ([3] ++ [5]) ∧
      IsChain (procNext s1) (s1.ReadyProcs 1).head ([2] ++ [4]) ∧
      (s1.ReadyProcs 1).tail = some 4 ∧
      (∀ q, q ≠ 1 → s1.ReadyProcs q = blockedMidProcs.ReadyProcs q) ∧
      (∀ k, k ≠ 4 → (s1.ProcTable k).status = (blockedMidProcs.ProcTable k).status) ∧
      (∀ k, k ∉ [3] ++ 4 :: [5] → k ∉ [2] → s1.ProcTable k = blockedMidProcs.ProcTable k) :=
  unblock_proc_moves_to_ready usloss blockedMidProcs 4 4 2 1 [3] [5] [2] (by decide) rfl
    (by decide) (by decide) rfl (by decide) ⟨rfl, rfl, rfl, rfl⟩ (by decide) (by decide)
    (by decide) (Or.inr (by decide)) rfl (by decide) ⟨rfl, rfl⟩ (by decide) (by decide)
    (fun _ => rfl) (by decide)

/-- C21 (as stated, refuted): pid 3 is on the blocked list with the user-blocked status 10 and
pid 2 is running.  `unblock_proc(3)` returns -2: pid 3 keeps status 10 and stays on the
blocked list, and the ready queue of its priority still holds pid 2 alone. -/
theorem unblock_proc_rejects_status_ten :
    (statusTenProcs.ProcTable 3).status = 10 ∧ blockedQueue usloss statusTenProcs = [3] ∧
    statusTenProcs.Current = some 2 ∧
    ∃ p1, unblock_proc usloss 3 statusTenProcs = Outcome.ret (-2) p1 ∧
      (p1.ProcTable 3).status = 10 ∧ blockedQueue usloss p1 = [3] ∧
      readyQueue usloss p1 1 = [2] := by
  obtain ⟨p1, h1, hp⟩ := retSat_spec (unblock_proc usloss 3 statusTenProcs) (-2)
    (fun p1 => decide ((p1.ProcTable 3).status = 10 ∧ blockedQueue usloss p1 = [3] ∧
      readyQueue usloss p1 1 = [2])) (by decide!)
  exact ⟨by decide, by decide, rfl, p1, h1, of_decide_eq_true hp⟩

/-- C22: pid 3 is live in table slot 3, blocked with status 11, and pid 2 is running; no
process has pid 53, which shares slot 3 (53 mod 50).  `unblock_proc(53)` returns 0, not a
negative code: it tests only the slot, removes nothing from the blocked list (no entry
has pid 53) and appends slot 3 to the ready queue, so that pid 3 is on the ready queue and
on the blocked list, still with status 11. -/
theorem unblock_proc_accepts_alias_pid :
    (blocked3Procs.ProcTable 3).pid = 3 ∧ readyQueue usloss blocked3Procs 1 = [2] ∧
    ∃ p1, unblock_proc usloss 53 blocked3Procs = Outcome.ret 0 p1 ∧
      readyQueue usloss p1 1 = [2, 3] ∧ blockedQueue usloss p1 = [3] ∧
      (p1.ProcTable 3).status = 11 := by
  obtain ⟨p1, h1, hp⟩ := retSat_spec (unblock_proc usloss 53 blocked3Procs) 0
    (fun p1 => decide (readyQueue usloss p1 1 = [2, 3] ∧ blockedQueue usloss p1 = [3] ∧
    (p1.ProcTable 3).status = 11)) (by decide!)
  exact ⟨rfl, by decide, p1, h1, of_decide_eq_true hp⟩

/-! ## Termination of a child and the sentinel -/

/-- C23: pid 2 (priority 2, running) forks a child of priority 1; `fork1` returns pid 3 to
the dispatcher, which runs the child, and the child calls `quit(0)` while its parent is
READY on the queue of priority 2.  `quit` appends the parent to that queue once more:
afterwards pid 2 is its own successor, so the queue holds it more than once. -/
theorem quit_queues_ready_parent_twice :
    ∃ s1, fork1 usloss forkLimits 5 (some 1) none 81920 1 forkParentState =
        Outcome.ret 3 s1 ∧ s1.proc.Current = some 3 ∧ readyQueue usloss s1.proc 2 = [2] ∧
      ∃ s2, quit usloss 0 s1 = Outcome.ret () s2 ∧ (s2.proc.ProcTable 2).status = 1 ∧
        (s2.proc.ReadyProcs 2).head = some 2 ∧ (s2.proc.ProcTable 2).next_in_list = some 2 ∧
        (readyQueue usloss s2.proc 2).take 3 = [2, 2, 2] := by
  obtain ⟨s1, h1, hp⟩ := retSat_spec
    (fork1 usloss forkLimits 5 (some 1) none 81920 1 forkParentState) 3
    (fun s1 => decide (s1.proc.Current = some 3 ∧ readyQueue usloss s1.proc 2 = [2]) &&
      (quit usloss 0 s1).retSat () (fun s2 => decide ((s2.proc.ProcTable 2).status = 1 ∧
      (s2.proc.ReadyProcs 2).head = some 2 ∧ (s2.proc.ProcTable 2).next_in_list = some 2 ∧
      (readyQueue usloss s2.proc 2).take 3 = [2, 2, 2]))) (by decide!)
  simp only [Bool.and_eq_true, decide_eq_true_eq] at hp
  obtain ⟨s2, h2, hq⟩ := retSat_spec _ _ _ hp.2
  exact ⟨s1, h1, hp.1.1, hp.1.2, s2, h2, of_decide_eq_true hq⟩

/-- C24 (as stated, refuted): the sentinel is running and has one child, pid 2, which quits
with code 0 while the sentinel is blocked in `join`.  The `join` returns the pid 2 of the
child that quit, and `check_deadlock` halts with code 0 all the same. -/
theorem check_deadlock_halts_after_child_quit :
    (∃ s1, join usloss (quit usloss 0) 7 sentinelJoinState = Outcome.ret (2, 0) s1) ∧
    ∃ s2, check_deadlock usloss (quit usloss 0) 7 sentinelJoinState = Outcome.halt 0 s2 := by
  obtain ⟨s1, h1, _⟩ := retSat_spec (join usloss (quit usloss 0) 7 sentinelJoinState) (2, 0)
    (fun _ => true) (by decide!)
  obtain ⟨s2, h2, _⟩ := haltSat_spec (check_deadlock usloss (quit usloss 0) 7 sentinelJoinState) 0
    (fun _ => true) (by decide!)
  exact ⟨⟨s1, h1⟩, s2, h2⟩

/-- C24 (amended): whenever the `join` of `check_deadlock` returns, whatever it returns
(the report that the sentinel has no children as well as the pid of a child that quit),
`check_deadlock` halts the system with code 0, in the state `join` left. -/
theorem check_deadlock_halts_after_join (c : Config) (wb : K Kernel Unit) (status : Int) (s s1 : Kernel)
    (r code : Int) (h : join c wb status s = Outcome.ret (r, code) s1) :
    check_deadlock c wb status s = Outcome.halt 0 s1 := by
  unfold check_deadlock
  simp only [bind_run, K.bind, h, halt_run]

/-- An instance: the sentinel with the one child pid 2 that quits during the `join`. -/
theorem check_deadlock_halts_after_join_witness :
    ∃ s1, join usloss (quit usloss 0) 7 sentinelJoinState = Outcome.ret (2, 0) s1 ∧
      check_deadlock usloss (quit usloss 0) 7 sentinelJoinState = Outcome.halt 0 s1 := by
  obtain ⟨s1, h1, _⟩ := retSat_spec (join usloss (quit usloss 0) 7 sentinelJoinState) (2, 0)
    (fun _ => true) (by decide!)
  exact ⟨s1, h1, check_deadlock_halts_after_join usloss (quit usloss 0) 7 sentinelJoinState s1
    2 0 h1⟩

/-! ## Semaphores -/

/-- C25: semaphore 0 is in use with value 2 and the mutex mailbox 107 is empty.
`syscall_semP` returns without blocking (arg4 = 0, value 1) and has not received from the
mutex mailbox: the message it sent is still in it (`first_slot` set, no unused slot), and
the next `syscall_semV` does not return: its send on the mutex mailbox blocks (the call
ends in the `halt(1)` of `block_me(11)`). -/
theorem syscall_semP_keeps_mutex_message :
    (semState.kernel.MailBoxTable 107).first_slot = none ∧
    ∃ s1, syscall_semP usloss 200 (semArgs 0) semState =
        Outcome.ret { semArgs 0 with arg4 := 0 } s1 ∧
      (s1.semTable 0).value = 1 ∧ (s1.kernel.MailBoxTable 107).first_slot = some 0 ∧
      (s1.kernel.MailBoxTable 107).unused_slots = 0 ∧
      ∃ s2, syscall_semV usloss 200 (semArgs 0) s1 = Outcome.halt 1 s2 := by
  obtain ⟨s1, h1, hp⟩ := retSat_spec (syscall_semP usloss 200 (semArgs 0) semState)
    { semArgs 0 with arg4 := 0 }
    (fun s1 => decide ((s1.semTable 0).value = 1 ∧
      (s1.kernel.MailBoxTable 107).first_slot = some 0 ∧
      (s1.kernel.MailBoxTable 107).unused_slots = 0) &&
      (syscall_semV usloss 200 (semArgs 0) s1).haltSat 1 (fun _ => true)) (by decide!)
  simp only [Bool.and_eq_true, decide_eq_true_eq] at hp
  obtain ⟨s2, h2, _⟩ := haltSat_spec _ _ _ hp.2
  exact ⟨rfl, s1, h1, hp.1.1, hp.1.2.1, hp.1.2.2, s2, h2⟩

/-- C26: semaphore 0 is in use with value 2.  A first `syscall_semP` sets the value to 1
and returns with arg4 = 0.  A second `syscall_semP`, on value 1 > 0, does not return and
leaves the value at 1: it blocks in its send on the mutex mailbox, which still holds the
message of the first call. -/
theorem syscall_semP_second_call_blocks :
    (semState.semTable 0).value = 2 ∧
    ∃ s1, syscall_semP usloss 200 (semArgs 0) semState =
        Outcome.ret { semArgs 0 with arg4 := 0 } s1 ∧
      (s1.semTable 0).status = 1 ∧ (s1.semTable 0).value = 1 ∧
      ∃ s3, syscall_semP usloss 200 (semArgs 0) s1 = Outcome.halt 1 s3 ∧
        (s3.semTable 0).value = 1 := by
  obtain ⟨s1, h1, hp⟩ := retSat_spec (syscall_semP usloss 200 (semArgs 0) semState)
    { semArgs 0 with arg4 := 0 }
    (fun s1 => decide ((s1.semTable 0).status = 1 ∧ (s1.semTable 0).value = 1) &&
      (syscall_semP usloss 200 (semArgs 0) s1).haltSat 1 (fun s3 =>
        decide ((s3.semTable 0).value = 1))) (by decide!)
  simp only [Bool.and_eq_true, decide_eq_true_eq] at hp
  obtain ⟨s3, h3, hq⟩ := haltSat_spec _ _ _ hp.2
  exact ⟨rfl, s1, h1, hp.1.1, hp.1.2, s3, h3, of_decide_eq_true hq⟩

/-- C27: semaphore 0 has the waiter list [pid 3], and pid 3 is blocked in the receive on
its zero-slot semaphore mailbox 14.  `syscall_semV` returns with arg4 = 0 and the waiter
list empty, and pid 3 is still blocked (status 11, on the blocked list, on the waiting
queue of mailbox 14): the `MboxCondSend` to mailbox 14 returns -2, not 0. -/
theorem syscall_semV_leaves_waiter_blocked :
    ∃ s1, syscall_semV usloss 200 (semArgs 0) semWaiterState =
        Outcome.ret { semArgs 0 with arg4 := 0 } s1 ∧
      waiterList usloss semWaiterState 0 = [3] ∧ waiterList usloss s1 0 = [] ∧
      (s1.semTable 0).value = 1 ∧
      (s1.kernel.proc.ProcTable 3).status = 11 ∧ (s1.kernel.MailBoxTable 14).numWaiting = 1 ∧
      blockedQueue usloss s1.kernel.proc = [3] ∧
      ∃ k, MboxCondSend usloss 14 nullMsg 0 semWaiterState.kernel = Outcome.ret (-2) k := by
  obtain ⟨s1, h1, hp⟩ := retSat_spec (syscall_semV usloss 200 (semArgs 0) semWaiterState)
    { semArgs 0 with arg4 := 0 }
    (fun s1 => decide (waiterList usloss semWaiterState 0 = [3] ∧ waiterList usloss s1 0 = [] ∧
    (s1.semTable 0).value = 1 ∧
    (s1.kernel.proc.ProcTable 3).status = 11 ∧ (s1.kernel.MailBoxTable 14).numWaiting = 1 ∧
    blockedQueue usloss s1.kernel.proc = [3])) (by decide!)
  obtain ⟨k, hk, _⟩ := retSat_spec (MboxCondSend usloss 14 nullMsg 0 semWaiterState.kernel) (-2)
    (fun _ => true) (by decide!)
  have := of_decide_eq_true hp
  exact ⟨s1, h1, this.1, this.2.1, this.2.2.1, this.2.2.2.1, this.2.2.2.2.1, this.2.2.2.2.2, k, hk⟩

/-- C28: semaphore 0 has the waiter list [pid 3, pid 4]; pid 3 has the sibling pid 5
(`nextChild`), which waits on nothing.  `syscall_semFree` returns arg4 = 1 having zapped
pid 3 and pid 5 and not pid 4: its loop follows `nextChild`, not `nextWaiting`. -/
theorem syscall_semFree_follows_nextChild :
    ∃ s1, syscall_semFree (zapMark usloss) usloss 200 (semArgs 0) semFreeState =
        Outcome.ret { semArgs 0 with arg4 := 1 } s1 ∧
      waiterList usloss semFreeState 0 = [3, 4] ∧
      (s1.kernel.proc.ProcTable 3).status = 3 ∧ (s1.kernel.proc.ProcTable 4).status = 11 ∧
      (s1.kernel.proc.ProcTable 5).status = 3 ∧
      (semFreeState.kernel.proc.ProcTable 5).status = 1 := by
  obtain ⟨s1, h1, hp⟩ := retSat_spec
    (syscall_semFree (zapMark usloss) usloss 200 (semArgs 0) semFreeState)
    { semArgs 0 with arg4 := 1 }
    (fun s1 => decide (waiterList usloss semFreeState 0 = [3, 4] ∧
    (s1.kernel.proc.ProcTable 3).status = 3 ∧ (s1.kernel.proc.ProcTable 4).status = 11 ∧
    (s1.kernel.proc.ProcTable 5).status = 3 ∧ (semFreeState.kernel.proc.ProcTable 5).status = 1))
    (by decide!)
  exact ⟨s1, h1, of_decide_eq_true hp⟩

/-! ## The sleep queue -/

theorem IsChain_insert_after (f g : Nat → Option Nat) (A B : List Nat) (cur slot : Nat)
    (p : Option Nat)
    (hc : IsChain f p (A ++ cur :: B)) (hnd : (A ++ cur :: B).Nodup)
    (hs : slot ∉ A ++ cur :: B)
    (hg : ∀ k, k ≠ cur → k ≠ slot → g k = f k) (hgc : g cur = some slot)
    (hgs : g slot = f cur) :
    IsChain g p (A ++ cur :: slot :: B) := by
  induction A generalizing p with
  | nil =>
    simp only [List.nil_append] at hc hnd hs ⊢
    obtain ⟨h1, h2⟩ := hc
    refine ⟨h1, ?_⟩
    rw [hgc]
    refine ⟨rfl, ?_⟩
    rw [hgs]
    apply IsChain_congr f g B _ _ h2
    intro k hk
    have hk1 : k ≠ cur := fun hh => (List.nodup_cons.1 hnd).1 (hh ▸ hk)
    have hk2 : k ≠ slot := fun hh => hs (hh ▸ List.mem_cons_of_mem _ hk)
    exact (hg k hk1 hk2).symm
  | cons a A ih =>
    simp only [List.cons_append] at hc hnd hs ⊢
    obtain ⟨h1, h2⟩ := hc
    refine ⟨h1, ?_⟩
    have ha1 : a ≠ cur := by
      intro hh
      have := (List.nodup_cons.1 hnd).1
      apply this
      rw [hh]
      simp
    have ha2 : a ≠ slot := fun hh => hs (hh ▸ List.mem_cons_self _ _)
    rw [hg a ha1 ha2]
    exact ih _ h2 (List.nodup_cons.1 hnd).2 (fun hh => hs (List.mem_cons_of_mem _ hh))

theorem addToSleepQueue_loop_spec (tbl : Nat → driver_proc) (w : Int) :
    ∀ (B0 : List Nat) (cur fuel : Nat), B0.length < fuel →
      IsChain (fun k => (tbl k).nextAsleep) (some cur) (cur :: B0) →
      (tbl cur).wake_time ≤ w →
      ∃ A c1 B, cur :: B0 = A ++ c1 :: B ∧ addToSleepQueue_loop tbl w fuel cur = some c1 ∧
        (∀ a ∈ A, (tbl a).wake_time < w) ∧ (tbl c1).wake_time ≤ w ∧
        (w ≤ (tbl c1).wake_time ∨ B = [] ∨ ∃ b B1, B = b :: B1 ∧ w < (tbl b).wake_time) := by
  intro B0
  induction B0 with
  | nil =>
    intro cur fuel hf hc hle
    obtain ⟨n, rfl⟩ := Nat.exists_eq_succ_of_ne_zero (by omega : fuel ≠ 0)
    have hnx : (tbl cur).nextAsleep = none := hc.2
    refine ⟨[], cur, [], rfl, ?_, by simp, hle, Or.inr (Or.inl rfl)⟩
    simp only [addToSleepQueue_loop, hnx]
    split <;> rfl
  | cons b B1 ih =>
    intro cur fuel hf hc hle
    obtain ⟨n, rfl⟩ := Nat.exists_eq_succ_of_ne_zero (by omega : fuel ≠ 0)
    have hnx : (tbl cur).nextAsleep = some b := hc.2.1
    by_cases h1 : w > (tbl cur).wake_time
    · by_cases h2 : w < (tbl b).wake_time
      · refine ⟨[], cur, b :: B1, rfl, ?_, by simp, hle, Or.inr (Or.inr ⟨b, B1, rfl, h2⟩)⟩
        simp only [addToSleepQueue_loop, h1, if_true, hnx, h2]
      · have hcb : IsChain (fun k => (tbl k).nextAsleep) (some b) (b :: B1) := ⟨rfl, hc.2.2⟩
        obtain ⟨A, c1, B, e1, e2, e3, e4, e5⟩ := ih b n (by simp at hf; omega) hcb (by omega)
        refine ⟨cur :: A, c1, B, by rw [List.cons_append, ← e1], ?_, ?_, e4, e5⟩
        · simp only [addToSleepQueue_loop, h1, if_true, hnx, h2, if_false]
          exact e2
        · intro a ha
          rcases List.mem_cons.1 ha with rfl | ha
          · exact h1
          · exact e3 a ha
    · refine ⟨[], cur, b :: B1, rfl, ?_, by simp, hle, Or.inl (by omega)⟩
      simp only [addToSleepQueue_loop, h1, if_false]

theorem sleepFront_wake (s : DriverState) (i h k : Nat) :
    ((sleepFront s i h).Driver_Table k).wake_time = (s.Driver_Table k).wake_time := by
  simp only [sleepFront, setAt]
  split
  · rename_i hk
    rw [hk]
  · rfl

theorem sleepAfter_wake (s : DriverState) (i c1 k : Nat) :
    ((sleepAfter s i c1).Driver_Table k).wake_time = (s.Driver_Table k).wake_time := by
  simp only [sleepAfter, setAt]
  split
  · rename_i hk
    rw [hk]
  · split
    · rename_i hk
      rw [hk]
    · rfl

theorem addToSleepQueue_core (c : Config) (s : DriverState) (slot : Int) (L : List Nat)
    (hq : SleepQueue s L) (hlen : L.length ≤ c.MAXPROC)
    (h0 : 0 ≤ slot) (h1 : slot < c.MAXPROC)
    (hnew : slot.toNat ∉ L) (hnext : (s.Driver_Table slot.toNat).nextAsleep = none) :
    ∃ s1 A B, L = A ++ B ∧ addToSleepQueue c slot s = Outcome.ret () s1 ∧
      SleepQueue s1 (A ++ slot.toNat :: B) ∧
      (∀ k, (s1.Driver_Table k).wake_time = (s.Driver_Table k).wake_time) ∧
      ((A = [] ∧ (B = [] ∨ ∃ h T, B = h :: T ∧
          (s.Driver_Table slot.toNat).wake_time < (s.Driver_Table h).wake_time)) ∨
        ∃ A1 c1, A = A1 ++ [c1] ∧
          (∀ a ∈ A1, (s.Driver_Table a).wake_time < (s.Driver_Table slot.toNat).wake_time) ∧
          (s.Driver_Table c1).wake_time ≤ (s.Driver_Table slot.toNat).wake_time ∧
          ((s.Driver_Table slot.toNat).wake_time ≤ (s.Driver_Table c1).wake_time ∨ B = [] ∨
            ∃ b B1, B = b :: B1 ∧
              (s.Driver_Table slot.toNat).wake_time < (s.Driver_Table b).wake_time)) := by
  obtain ⟨hchain, hnd, hflag⟩ := hq
  by_cases hp : s.sleepingProcs.hasProc = 0
  · have hL : L = [] := hflag.1 hp
    subst hL
    refine ⟨{ s with sleepingProcs := { hasProc := 1, head := some slot.toNat } }, [], [], rfl,
      ?_, ⟨⟨rfl, hnext⟩, by simp, by simp⟩, fun _ => rfl, Or.inl ⟨rfl, Or.inl rfl⟩⟩
    unfold addToSleepQueue
    simp only [bind_run, K.bind, tableIndex, h0, h1, and_self, if_true, pure_run, getK_run, hp,
      modifyK_run]
  · cases L with
    | nil => exact absurd (hflag.2 rfl) hp
    | cons h T =>
      have hhead : s.sleepingProcs.head = some h := hchain.1
      have hi : slot.toNat ≠ h := fun hh => hnew (hh ▸ List.mem_cons_self _ _)
      by_cases hfront : (s.Driver_Table slot.toNat).wake_time < (s.Driver_Table h).wake_time
      · refine ⟨sleepFront s slot.toNat h, [], h :: T, rfl,
          ?_, ⟨?_, ?_, ?_⟩, sleepFront_wake s _ _, Or.inl ⟨rfl, Or.inr ⟨h, T, rfl, hfront⟩⟩⟩
        · unfold addToSleepQueue
          simp only [bind_run, K.bind, tableIndex, h0, h1, and_self, if_true, pure_run, getK_run,
            hp, if_false, hhead, deref_some_run, hfront, modifyK_run]
          rfl
        · refine ⟨rfl, ?_⟩
          have e : sleepNext (sleepFront s slot.toNat h) slot.toNat = some h := by
            simp [sleepNext, sleepFront]
          rw [e]
          rw [hhead] at hchain
          apply IsChain_congr (sleepNext s) _ (h :: T) _ _ hchain
          intro k hk
          have hk1 : k ≠ slot.toNat := fun hh => hnew (hh ▸ hk)
          simp [sleepNext, sleepFront, setAt, hk1]
        · exact List.nodup_cons.2 ⟨hnew, hnd⟩
        · simp [sleepFront, hp]
      · obtain ⟨A1, c1, B, e1, e2, e3, e4, e5⟩ := addToSleepQueue_loop_spec s.Driver_Table
          (s.Driver_Table slot.toNat).wake_time T h c.MAXPROC
          (by simp at hlen; omega) ⟨rfl, hchain.2⟩ (by omega)
        have hc1 : c1 ∈ h :: T := by rw [e1]; simp
        have hic : slot.toNat ≠ c1 := fun hh => hnew (hh ▸ hc1)
        have hchain2 : IsChain (sleepNext s) s.sleepingProcs.head (A1 ++ c1 :: B) := by
          rw [← e1]; exact hchain
        have hnd2 : (A1 ++ c1 :: B).Nodup := by rw [← e1]; exact hnd
        have hnew2 : slot.toNat ∉ A1 ++ c1 :: B := by rw [← e1]; exact hnew
        refine ⟨sleepAfter s slot.toNat c1, A1 ++ [c1], B, by rw [e1]; simp, ?_, ⟨?_, ?_, ?_⟩,
          sleepAfter_wake s _ _, Or.inr ⟨A1, c1, rfl, e3, e4, e5⟩⟩
        · unfold addToSleepQueue
          simp only [bind_run, K.bind, tableIndex, h0, h1, and_self, if_true, pure_run, getK_run,
            hp, if_false, hhead, deref_some_run, hfront, e2, modifyK_run, setAt_same]
          simp [setAt, hic, sleepAfter]
        · have := IsChain_insert_after (sleepNext s) (sleepNext (sleepAfter s slot.toNat c1))
            A1 B c1 slot.toNat s.sleepingProcs.head hchain2 hnd2 hnew2
            (by
              intro k hk1 hk2
              simp [sleepNext, sleepAfter, setAt, hk1, hk2])
            (by simp [sleepNext, sleepAfter, setAt, hic.symm])
            (by simp [sleepNext, sleepAfter, setAt])
          simpa [sleepAfter] using this
        · have hperm : (A1 ++ [c1] ++ slot.toNat :: B).Perm (slot.toNat :: (A1 ++ c1 :: B)) := by
            have : (A1 ++ [c1] ++ slot.toNat :: B).Perm (slot.toNat :: (A1 ++ [c1] ++ B)) :=
              List.perm_middle
            simpa using this
          exact hperm.nodup_iff.2 (List.nodup_cons.2 ⟨hnew2, hnd2⟩)
        · simp [sleepAfter, hp]

theorem pairwise_insert {R : Nat → Nat → Prop} (A B : List Nat) (i : Nat)
    (h : (A ++ B).Pairwise R) (hA : ∀ a ∈ A, R a i) (hB : ∀ b ∈ B, R i b) :
    (A ++ i :: B).Pairwise R := by
  rw [List.pairwise_append] at h ⊢
  obtain ⟨h1, h2, h3⟩ := h
  refine ⟨h1, List.pairwise_cons.2 ⟨hB, h2⟩, ?_⟩
  intro a ha b hb
  rcases List.mem_cons.1 hb with rfl | hb
  · exact hA a ha
  · exact h3 a ha b hb

theorem split_unique (P : Nat → Prop) (A A2 : List Nat) (x x2 : Nat) (B B2 : List Nat)
    (h : A ++ x :: B = A2 ++ x2 :: B2) (hA : ∀ a ∈ A, P a) (hA2 : ∀ a ∈ A2, P a)
    (hx : ¬ P x) (hx2 : ¬ P x2) : A = A2 ∧ x = x2 ∧ B = B2 := by
  induction A generalizing A2 with
  | nil =>
    cases A2 with
    | nil =>
      simp only [List.nil_append, List.cons.injEq] at h
      exact ⟨rfl, h.1, h.2⟩
    | cons a2 A2 =>
      simp only [List.nil_append, List.cons_append, List.cons.injEq] at h
      exact absurd (h.1 ▸ hA2 a2 (List.mem_cons_self _ _)) hx
  | cons a A ih =>
    cases A2 with
    | nil =>
      simp only [List.nil_append, List.cons_append, List.cons.injEq] at h
      exact absurd (h.1 ▸ hA a (List.mem_cons_self _ _)) hx2
    | cons a2 A2 =>
      simp only [List.cons_append, List.cons.injEq] at h
      obtain ⟨e1, e2, e3⟩ := ih A2 h.2 (fun k hk => hA k (List.mem_cons_of_mem _ hk))
        (fun k hk => hA2 k (List.mem_cons_of_mem _ hk))
      exact ⟨by rw [h.1, e1], e2, e3⟩

theorem length_le_of_bounded (L : List Nat) (n : Nat) (hnd : L.Nodup) (h : ∀ k ∈ L, k < n) :
    L.length ≤ n := by
  have hsub : L ⊆ List.range n := fun k hk => List.mem_range.2 (h k hk)
  have := (List.subperm_of_subset hnd hsub).length_le
  simpa using this

/-- C29: when the sleep queue consists of the driver table entries `L` in non-decreasing
order of `wake_time`, and `slot` is a table entry that is not queued and has no `nextAsleep`
link, `addToSleepQueue(slot)` returns and the sleep queue afterwards consists of a
rearrangement `L1` of `slot` and the entries of `L`, again in non-decreasing order of
`wake_time`; no `wake_time` has changed. -/
theorem addToSleepQueue_keeps_sorted (c : Config) (s : DriverState) (slot : Int) (L : List Nat)
    (hq : SleepQueue s L) (hsorted : (wakeTimes s L).Pairwise (· ≤ ·))
    (hin : ∀ k ∈ L, k < c.MAXPROC) (h0 : 0 ≤ slot) (h1 : slot < c.MAXPROC)
    (hnew : slot.toNat ∉ L) (hnext : (s.Driver_Table slot.toNat).nextAsleep = none) :
    ∃ s1 L1, addToSleepQueue c slot s = Outcome.ret () s1 ∧ SleepQueue s1 L1 ∧
      L1.Perm (slot.toNat :: L) ∧ (wakeTimes s1 L1).Pairwise (· ≤ ·) ∧
      ∀ k, (s1.Driver_Table k).wake_time = (s.Driver_Table k).wake_time := by
  have hlen := length_le_of_bounded L c.MAXPROC hq.2.1 hin
  obtain ⟨s1, A, B, e1, hrun, hq1, hwake, hpos⟩ :=
    addToSleepQueue_core c s slot L hq hlen h0 h1 hnew hnext
  have hs : L.Pairwise (fun a b => (s.Driver_Table a).wake_time ≤ (s.Driver_Table b).wake_time) := by
    unfold wakeTimes at hsorted
    exact List.pairwise_map.1 hsorted
  refine ⟨s1, A ++ slot.toNat :: B, hrun, hq1, ?_, ?_, hwake⟩
  · rw [e1]
    exact List.perm_middle
  · unfold wakeTimes
    rw [List.pairwise_map]
    have hgoal : (A ++ slot.toNat :: B).Pairwise
        (fun a b => (s.Driver_Table a).wake_time ≤ (s.Driver_Table b).wake_time) := by
      rw [e1] at hs
      rcases hpos with ⟨hA, hB⟩ | ⟨A1, c1, hA, e3, e4, e5⟩
      · subst hA
        rcases hB with hB | ⟨h, T, hB, hlt⟩
        · subst hB
          simp
        · subst hB
          simp only [List.nil_append] at hs ⊢
          refine List.pairwise_cons.2 ⟨?_, hs⟩
          intro b hb
          rcases List.mem_cons.1 hb with rfl | hb
          · omega
          · have := (List.pairwise_cons.1 hs).1 b hb
            omega
      · subst hA
        apply pairwise_insert _ _ _ hs
        · intro a ha
          rcases List.mem_append.1 ha with ha | ha
          · exact le_of_lt (e3 a ha)
          · simp only [List.mem_singleton] at ha
            rw [ha]
            exact e4
        · intro b hb
          have hcb : (s.Driver_Table c1).wake_time ≤ (s.Driver_Table b).wake_time := by
            have h3 := (List.pairwise_append.1 hs).2.2
            exact h3 c1 (by simp) b hb
          rcases e5 with e5 | e5 | ⟨b0, B1, e5, hlt⟩
          · omega
          · subst e5
            simp at hb
          · subst e5
            rcases List.mem_cons.1 hb with rfl | hb
            · omega
            · have h2 := (List.pairwise_append.1 hs).2.1
              have := (List.pairwise_cons.1 h2).1 b hb
              omega
    refine hgoal.imp ?_
    intro a b hab
    rw [hwake a, hwake b]
    exact hab

/-- C30 (amended): when the sorted sleep queue is `A0 ++ e :: B0`, every entry of `A0` has a
`wake_time` below that of the new entry and `e` has the same `wake_time` as the new entry,
`addToSleepQueue(slot)` returns and the queue afterwards is `A0 ++ e :: slot :: B0`: the new
entry stands directly behind the first entry with its `wake_time`. -/
theorem addToSleepQueue_after_first_tie (c : Config) (s : DriverState) (slot : Int)
    (A0 : List Nat) (e : Nat) (B0 : List Nat)
    (hq : SleepQueue s (A0 ++ e :: B0))
    (hsorted : (wakeTimes s (A0 ++ e :: B0)).Pairwise (· ≤ ·))
    (hin : ∀ k ∈ A0 ++ e :: B0, k < c.MAXPROC) (h0 : 0 ≤ slot) (h1 : slot < c.MAXPROC)
    (hnew : slot.toNat ∉ A0 ++ e :: B0)
    (hnext : (s.Driver_Table slot.toNat).nextAsleep = none)
    (hlt : ∀ a ∈ A0, (s.Driver_Table a).wake_time < (s.Driver_Table slot.toNat).wake_time)
    (heq : (s.Driver_Table e).wake_time = (s.Driver_Table slot.toNat).wake_time) :
    ∃ s1, addToSleepQueue c slot s = Outcome.ret () s1 ∧
      SleepQueue s1 (A0 ++ e :: slot.toNat :: B0) := by
  have hlen := length_le_of_bounded _ c.MAXPROC hq.2.1 hin
  obtain ⟨s1, A, B, e1, hrun, hq1, _, hpos⟩ :=
    addToSleepQueue_core c s slot _ hq hlen h0 h1 hnew hnext
  have hs : (A0 ++ e :: B0).Pairwise
      (fun a b => (s.Driver_Table a).wake_time ≤ (s.Driver_Table b).wake_time) := by
    unfold wakeTimes at hsorted
    exact List.pairwise_map.1 hsorted
  refine ⟨s1, hrun, ?_⟩
  rcases hpos with ⟨hA, hB⟩ | ⟨A1, c1, hA, e3, e4, e5⟩
  · subst hA
    simp only [List.nil_append] at e1
    rcases hB with hB | ⟨h, T, hB, hfront⟩
    · subst hB
      simp at e1
    · subst hB
      exfalso
      cases A0 with
      | nil =>
        simp only [List.nil_append, List.cons.injEq] at e1
        rw [← e1.1] at hfront
        omega
      | cons a A0 =>
        simp only [List.cons_append, List.cons.injEq] at e1
        have := hlt a (List.mem_cons_self _ _)
        rw [← e1.1] at hfront
        omega
  · subst hA
    have e1' : A0 ++ e :: B0 = A1 ++ c1 :: B := by rw [e1]; simp
    by_cases hP : (s.Driver_Table c1).wake_time < (s.Driver_Table slot.toNat).wake_time
    · exfalso
      have hmem : e ∈ A1 ++ c1 :: B := by rw [← e1']; simp
      rw [e1'] at hs
      rcases List.mem_append.1 hmem with hm | hm
      · have := e3 e hm
        omega
      · rcases List.mem_cons.1 hm with hm | hm
        · rw [hm] at heq
          omega
        · rcases e5 with e5 | e5 | ⟨b0, B1, e5, hb0⟩
          · omega
          · subst e5
            simp at hm
          · subst e5
            have h2 := (List.pairwise_append.1 hs).2.1
            have h3 := (List.pairwise_cons.1 h2).2
            rcases List.mem_cons.1 hm with hm | hm
            · rw [hm] at heq
              omega
            · have := (List.pairwise_cons.1 h3).1 e hm
              omega
    · obtain ⟨u1, u2, u3⟩ := split_unique
        (fun k => (s.Driver_Table k).wake_time < (s.Driver_Table slot.toNat).wake_time)
        A0 A1 e c1 B0 B e1' hlt e3 (by simp only []; omega) hP
      subst u1 u2 u3
      simpa using hq1

/-- An instance: the queue holds the 1 s sleeper and the 3 s sleeper, and the 2 s sleeper
is inserted. -/
theorem addToSleepQueue_keeps_sorted_witness :
    ∃ s1 L1, addToSleepQueue usloss 4 sleepTwoState = Outcome.ret () s1 ∧ SleepQueue s1 L1 ∧
      L1.Perm ((4 : Int).toNat :: [3, 2]) ∧ (wakeTimes s1 L1).Pairwise (· ≤ ·) ∧
      ∀ k, (s1.Driver_Table k).wake_time = (sleepTwoState.Driver_Table k).wake_time :=
  addToSleepQueue_keeps_sorted usloss sleepTwoState 4 [3, 2]
    ⟨⟨rfl, rfl, rfl⟩, by decide, by decide⟩ (by decide) (by decide) (by decide) (by decide)
    (by decide) rfl

/-- The example of C29 run on the code: the sleepers of 3 s, 1 s and 2 s (entries 2, 3 and
4), inserted in this order into the empty queue, are queued as 1 s, 2 s, 3 s. -/
theorem addToSleepQueue_three_one_two :
    ∃ s1, addToSleepQueue usloss 2 threeSleepers = Outcome.ret () s1 ∧
    ∃ s2, addToSleepQueue usloss 3 s1 = Outcome.ret () s2 ∧
    ∃ s3, addToSleepQueue usloss 4 s2 = Outcome.ret () s3 ∧ sleepList 50 s3 = [3, 4, 2] ∧
      wakeTimes s3 (sleepList 50 s3) = [1000000, 2000000, 3000000] := by
  obtain ⟨s1, h1, hp⟩ := retSat_spec (addToSleepQueue usloss 2 threeSleepers) ()
    (fun s1 => (addToSleepQueue usloss 3 s1).retSat () (fun s2 =>
      (addToSleepQueue usloss 4 s2).retSat () (fun s3 => decide (sleepList 50 s3 = [3, 4, 2] ∧
        wakeTimes s3 (sleepList 50 s3) = [1000000, 2000000, 3000000]))))
    (by decide!)
  obtain ⟨s2, h2, hq⟩ := retSat_spec _ _ _ hp
  obtain ⟨s3, h3, hr⟩ := retSat_spec _ _ _ hq
  exact ⟨s1, h1, s2, h2, s3, h3, of_decide_eq_true hr⟩

/-- An instance: the queue holds the entries 2 and 3 with the same wake-up time, and
entry 4 with that time is inserted: it is queued between them. -/
theorem addToSleepQueue_after_first_tie_witness :
    ∃ s1, addToSleepQueue usloss 4 tieTwoState = Outcome.ret () s1 ∧
      SleepQueue s1 ([] ++ 2 :: (4 : Int).toNat :: [3]) :=
  addToSleepQueue_after_first_tie usloss tieTwoState 4 [] 2 [3]
    ⟨⟨rfl, rfl, rfl⟩, by decide, by decide⟩ (by decide) (by decide) (by decide) (by decide)
    (by decide) rfl (by decide) rfl

/-- C30 (as stated, refuted): the entries 2, 3 and 4, all with the wake-up time 5000000, are
inserted in this order into the empty sleep queue.  After the first two the queue is
[2, 3]; after the third it is [2, 4, 3]: entry 4 stands in front of entry 3, which was
inserted before it with the same wake-up time. -/
theorem addToSleepQueue_tie_not_stable :
    ∃ s1, addToSleepQueue usloss 2 tieState = Outcome.ret () s1 ∧
    ∃ s2, addToSleepQueue usloss 3 s1 = Outcome.ret () s2 ∧ sleepList 50 s2 = [2, 3] ∧
    ∃ s3, addToSleepQueue usloss 4 s2 = Outcome.ret () s3 ∧ sleepList 50 s3 = [2, 4, 3] ∧
      wakeTimes s3 [2, 4, 3] = [5000000, 5000000, 5000000] := by
  obtain ⟨s1, h1, hp⟩ := retSat_spec (addToSleepQueue usloss 2 tieState) ()
    (fun s1 => (addToSleepQueue usloss 3 s1).retSat () (fun s2 =>
      decide (sleepList 50 s2 = [2, 3]) &&
      (addToSleepQueue usloss 4 s2).retSat () (fun s3 => decide (sleepList 50 s3 = [2, 4, 3] ∧
        wakeTimes s3 [2, 4, 3] = [5000000, 5000000, 5000000]))))
    (by decide!)
  obtain ⟨s2, h2, hq⟩ := retSat_spec _ _ _ hp
  simp only [Bool.and_eq_true, decide_eq_true_eq] at hq
  obtain ⟨s3, h3, hr⟩ := retSat_spec _ _ _ hq.2
  exact ⟨s1, h1, s2, h2, hq.1, s3, h3, of_decide_eq_true hr⟩

/-! ## The clock driver -/

theorem removeFromSleepQueue_head (s : DriverState) (a : Nat) (T : List Nat)
    (hq : SleepQueue s (a :: T)) :
    ∃ s1, removeFromSleepQueue s = Outcome.ret (s.Driver_Table a).slot s1 ∧ SleepQueue s1 T ∧
      (s1.Driver_Table a).nextAsleep = none ∧ SameSleepers s s1 ∧
      ∀ k, k ≠ a → s1.Driver_Table k = s.Driver_Table k := by
  obtain ⟨hchain, hnd, hflag⟩ := hq
  have hhead : s.sleepingProcs.head = some a := hchain.1
  cases T with
  | nil =>
    have hn : (s.Driver_Table a).nextAsleep = none := hchain.2
    refine ⟨{ s with sleepingProcs := { hasProc := 0, head := none } }, ?_, ⟨rfl, by simp, by simp⟩,
      hn, fun _ => ⟨rfl, rfl, rfl⟩, fun _ _ => rfl⟩
    unfold removeFromSleepQueue
    simp only [bind_run, K.bind, getK_run, hhead, hn, modifyK_run, pure_run]
  | cons b T =>
    have hn : (s.Driver_Table a).nextAsleep = some b := hchain.2.1
    have hp : s.sleepingProcs.hasProc ≠ 0 := fun hh => by
      have := hflag.1 hh
      simp at this
    refine ⟨{ s with
        sleepingProcs := { s.sleepingProcs with head := some b },
        Driver_Table := setAt s.Driver_Table a { s.Driver_Table a with nextAsleep := none } },
      ?_, ⟨?_, (List.nodup_cons.1 hnd).2, ?_⟩, by simp, ?_, ?_⟩
    · unfold removeFromSleepQueue
      simp only [bind_run, K.bind, getK_run, hhead, hn, modifyK_run, pure_run, setAt_same]
    · have hcb : IsChain (sleepNext s) (some b) (b :: T) := ⟨rfl, hchain.2.2⟩
      apply IsChain_congr (sleepNext s) _ (b :: T) _ _ hcb
      intro k hk
      have hk1 : k ≠ a := fun hh => (List.nodup_cons.1 hnd).1 (hh ▸ hk)
      simp [sleepNext, setAt, hk1]
    · simp [hp]
    · intro k
      simp only [setAt]
      split
      · rename_i hk
        subst hk
        exact ⟨rfl, rfl, rfl⟩
      · exact ⟨rfl, rfl, rfl⟩
    · intro k hk
      simp [setAt, hk]

theorem dueAt_congr (s s1 : DriverState) (t : Int) (L : List Nat) (h : SameSleepers s s1) :
    dueAt s1 t L = dueAt s t L ∧ aheadAt s1 t L = aheadAt s t L := by
  constructor
  · unfold dueAt
    apply List.filter_congr
    intro k _
    rw [(h k).1]
  · unfold aheadAt
    apply List.filter_congr
    intro k _
    rw [(h k).1]

theorem ClockDriver_loop_spec (c : Config) (t : Int) :
    ∀ (L : List Nat) (s : DriverSys) (fuel : Nat), L.length < fuel →
      SleepQueue s.drv L → (wakeTimes s.drv L).Pairwise (· ≤ ·) →
      (∀ k ∈ L, k < c.MAXPROC ∧ (s.drv.Driver_Table k).slot = (k : Int)) →
      ∃ s1, ClockDriver_loop c t fuel s = Outcome.ret () s1 ∧
        SleepQueue s1.drv (aheadAt s.drv t L) ∧
        s1.calls = s.calls ++ (dueAt s.drv t L).map
          (fun k => DriverCall.semv (s.drv.Driver_Table k).semHandle) ∧
        (∀ k ∈ dueAt s.drv t L, (s1.drv.Driver_Table k).nextAsleep = none) ∧
        SameSleepers s.drv s1.drv ∧
        (∀ k, k ∉ L → s1.drv.Driver_Table k = s.drv.Driver_Table k) := by
  intro L
  induction L with
  | nil =>
    intro s fuel hf hq _ _
    obtain ⟨n, rfl⟩ := Nat.exists_eq_succ_of_ne_zero (by omega : fuel ≠ 0)
    have hhead : s.drv.sleepingProcs.head = none := hq.1
    refine ⟨s, ?_, by simpa [aheadAt] using hq, by simp [dueAt], by simp [dueAt],
      fun _ => ⟨rfl, rfl, rfl⟩, fun _ _ => rfl⟩
    simp only [ClockDriver_loop, bind_run, K.bind, getK_run, hhead, pure_run]
  | cons a T ih =>
    intro s fuel hf hq hsorted hin
    obtain ⟨n, rfl⟩ := Nat.exists_eq_succ_of_ne_zero (by omega : fuel ≠ 0)
    have hhead : s.drv.sleepingProcs.head = some a := hq.1.1
    have hs : (a :: T).Pairwise
        (fun x y => (s.drv.Driver_Table x).wake_time ≤ (s.drv.Driver_Table y).wake_time) := by
      unfold wakeTimes at hsorted
      exact List.pairwise_map.1 hsorted
    by_cases hdue : t ≥ (s.drv.Driver_Table a).wake_time
    · obtain ⟨d1, hrun, hq1, hnx, hsame, hframe⟩ := removeFromSleepQueue_head s.drv a T hq
      have hslot : (s.drv.Driver_Table a).slot = (a : Int) := (hin a (List.mem_cons_self _ _)).2
      have haM : a < c.MAXPROC := (hin a (List.mem_cons_self _ _)).1
      have hnd : (a :: T).Nodup := hq.2.1
      have haT : a ∉ T := (List.nodup_cons.1 hnd).1
      rw [hslot] at hrun
      have hne : ((a : Int) ≠ -1) := by omega
      have h0 : (0 : Int) ≤ (a : Int) := Int.ofNat_nonneg a
      have h1 : (a : Int) < (c.MAXPROC : Int) := by exact_mod_cast haM
      have hsorted1 : (wakeTimes d1 T).Pairwise (· ≤ ·) := by
        unfold wakeTimes
        rw [List.pairwise_map]
        refine (List.pairwise_cons.1 hs).2.imp ?_
        intro x y hxy
        rw [(hsame x).1, (hsame y).1]
        exact hxy
      have hin1 : ∀ k ∈ T, k < c.MAXPROC ∧ (d1.Driver_Table k).slot = (k : Int) := by
        intro k hk
        have := hin k (List.mem_cons_of_mem _ hk)
        exact ⟨this.1, by rw [(hsame k).2.1]; exact this.2⟩
      obtain ⟨s2, hrun2, hq2, hcalls2, hnx2, hsame2, hframe2⟩ :=
        ih { s with drv := d1,
                    calls := s.calls ++ [DriverCall.semv (d1.Driver_Table a).semHandle] } n
          (by simp at hf; omega) hq1 hsorted1 hin1
      have hcong := dueAt_congr s.drv d1 t T hsame
      simp only [hcong.1, hcong.2] at hq2 hcalls2 hnx2
      have hd : dueAt s.drv t (a :: T) = a :: dueAt s.drv t T := by
        unfold dueAt
        rw [List.filter_cons_of_pos]
        simpa using hdue
      have ha : aheadAt s.drv t (a :: T) = aheadAt s.drv t T := by
        unfold aheadAt
        rw [List.filter_cons_of_neg]
        simp only [decide_eq_true_eq, not_lt]
        exact hdue
      refine ⟨s2, ?_, by rw [ha]; exact hq2, ?_, ?_, ?_, ?_⟩
      · simp only [ClockDriver_loop, bind_run, K.bind, getK_run, hhead, hdue, if_true, liftDriver,
          hrun, ne_eq, hne, not_false_eq_true, tableIndex, h0, h1, and_self, pure_run,
          Int.toNat_ofNat, semv_real, modifyK_run]
        exact hrun2
      · rw [hcalls2, hd]
        simp only [List.map_cons, List.append_assoc, List.singleton_append]
        congr 1
        congr 1
        · rw [(hsame a).2.2]
        · apply List.map_congr_left
          intro k _
          rw [(hsame k).2.2]
      · intro k hk
        rw [hd] at hk
        rcases List.mem_cons.1 hk with rfl | hk
        · have hka : k ∉ T := haT
          rw [hframe2 k hka]
          exact hnx
        · exact hnx2 k hk
      · intro k
        refine ⟨?_, ?_, ?_⟩
        · rw [(hsame2 k).1, (hsame k).1]
        · rw [(hsame2 k).2.1, (hsame k).2.1]
        · rw [(hsame2 k).2.2, (hsame k).2.2]
      · intro k hk
        have hk1 : k ≠ a := fun hh => hk (hh ▸ List.mem_cons_self _ _)
        have hk2 : k ∉ T := fun hh => hk (List.mem_cons_of_mem _ hh)
        rw [hframe2 k hk2]
        exact hframe k hk1
    · have hall : ∀ k ∈ a :: T, t < (s.drv.Driver_Table k).wake_time := by
        intro k hk
        rcases List.mem_cons.1 hk with rfl | hk
        · omega
        · have := (List.pairwise_cons.1 hs).1 k hk
          omega
      have hd : dueAt s.drv t (a :: T) = [] := by
        unfold dueAt
        rw [List.filter_eq_nil_iff]
        intro k hk
        have := hall k hk
        simp only [decide_eq_true_eq, not_le]
        exact this
      have ha : aheadAt s.drv t (a :: T) = a :: T := by
        unfold aheadAt
        rw [List.filter_eq_self]
        intro k hk
        simpa using hall k hk
      refine ⟨s, ?_, by rw [ha]; exact hq, by rw [hd]; simp, by rw [hd]; simp,
        fun _ => ⟨rfl, rfl, rfl⟩, fun _ _ => rfl⟩
      simp only [ClockDriver_loop, bind_run, K.bind, getK_run, hhead, hdue, if_false, pure_run]

/-- C31: when the sleep queue consists of the driver table entries `L` in non-decreasing
order of `wake_time`, each below `MAXPROC` and holding its own index in its `slot` field,
one pass of the loop of `ClockDriver` at the time `t` returns; the V operations it has made
are exactly those on the private semaphores of the entries of `L` with `wake_time ≤ t`, one
each and in queue order; the sleep queue afterwards consists of the entries of `L` with
`wake_time > t`, in their order; the entries taken off have no `nextAsleep` link, and no
wake-up time, `slot` field or semaphore handle has changed. -/
theorem ClockDriver_wakes_due_sleepers (c : Config) (s : DriverSys) (t : Int) (L : List Nat)
    (hq : SleepQueue s.drv L) (hsorted : (wakeTimes s.drv L).Pairwise (· ≤ ·))
    (hin : ∀ k ∈ L, k < c.MAXPROC ∧ (s.drv.Driver_Table k).slot = (k : Int)) :
    ∃ s1, ClockDriver_wake c t s = Outcome.ret () s1 ∧
      SleepQueue s1.drv (aheadAt s.drv t L) ∧
      s1.calls = s.calls ++ (dueAt s.drv t L).map
        (fun k => DriverCall.semv (s.drv.Driver_Table k).semHandle) ∧
      (∀ k ∈ dueAt s.drv t L, (s1.drv.Driver_Table k).nextAsleep = none) ∧
      SameSleepers s.drv s1.drv := by
  have hlen := length_le_of_bounded L c.MAXPROC hq.2.1 (fun k hk => (hin k hk).1)
  obtain ⟨s1, h1, h2, h3, h4, h5, _⟩ :=
    ClockDriver_loop_spec c t L s (c.MAXPROC + 1) (by omega) hq hsorted hin
  exact ⟨s1, h1, h2, h3, h4, h5⟩

theorem ClockDriver_wakes_due_sleepers_witness :
    ∃ s1, ClockDriver_wake usloss 2000000 sleepingState = Outcome.ret () s1 ∧
      SleepQueue s1.drv (aheadAt sleepingState.drv 2000000 [3, 4, 2]) ∧
      s1.calls = sleepingState.calls ++ (dueAt sleepingState.drv 2000000 [3, 4, 2]).map
        (fun k => DriverCall.semv (sleepingState.drv.Driver_Table k).semHandle) ∧
      (∀ k ∈ dueAt sleepingState.drv 2000000 [3, 4, 2], (s1.drv.Driver_Table k).nextAsleep = none) ∧
      SameSleepers sleepingState.drv s1.drv :=
  ClockDriver_wakes_due_sleepers usloss sleepingState 2000000 [3, 4, 2]
    ⟨⟨rfl, rfl, rfl, rfl⟩, by decide, by decide⟩ (by decide) (by decide)

/-- The pass of C31 run on the code: with the sleepers of 1 s, 2 s and 3 s queued (entries
3, 4 and 2) and the time 2000000, the loop V-s the semaphores 13 and 14 and leaves entry 2
queued. -/
theorem ClockDriver_wake_example :
    ∃ s1, ClockDriver_wake usloss 2000000 sleepingState = Outcome.ret () s1 ∧
      sleepList 50 s1.drv = [2] ∧ s1.calls = [DriverCall.semv 13, DriverCall.semv 14] := by
  obtain ⟨s1, h1, hp⟩ := retSat_spec (ClockDriver_wake usloss 2000000 sleepingState) ()
    (fun s1 => decide (sleepList 50 s1.drv = [2] ∧
      s1.calls = [DriverCall.semv 13, DriverCall.semv 14])) (by decide!)
  exact ⟨s1, h1, of_decide_eq_true hp⟩

/-! ## The disk driver -/

/-- C32: the loop of `addToDiskQueue` reads `cur->nextAsleep->track_start` where the next
disk request is meant.  From the empty queue of unit 0, the requests of slot 3 (track 1)
and slot 4 (track 5) are queued as [3, 4]; entry 3 is on no sleep queue, its `nextAsleep` is
`NULL`.  Inserting the request of slot 5 (track 3) dereferences that `NULL`: the call does
not return. -/
theorem addToDiskQueue_reads_nextAsleep :
    ∃ s1, addToDiskQueue usloss diskConsts 3 0 diskIdleState = Outcome.ret () s1 ∧
    ∃ s2, addToDiskQueue usloss diskConsts 4 0 s1 = Outcome.ret () s2 ∧
      diskList 50 s2 0 = [3, 4] ∧
      (s2.drv.Driver_Table 3).nextAsleep = none ∧
      addToDiskQueue usloss diskConsts 5 0 s2 = Outcome.fault := by
  obtain ⟨s1, h1, hp⟩ := retSat_spec (addToDiskQueue usloss diskConsts 3 0 diskIdleState) ()
    (fun s1 => (addToDiskQueue usloss diskConsts 4 0 s1).retSat () (fun s2 =>
      decide (diskList 50 s2 0 = [3, 4] ∧ (s2.drv.Driver_Table 3).nextAsleep = none) &&
      (addToDiskQueue usloss diskConsts 5 0 s2).isFault)) (by decide!)
  obtain ⟨s2, h2, hq⟩ := retSat_spec _ _ _ hp
  simp only [Bool.and_eq_true, decide_eq_true_eq] at hq
  exact ⟨s1, h1, s2, h2, hq.1.1, hq.1.2, isFault_spec _ hq.2⟩

/-- C33: the disk driver services the request of slot 3 (track 5), the only one queued on
unit 0.  While it is preempted in `device_output`, the process of slot 4 queues its request
for track 2, which `addToDiskQueue` puts in front.  `handleDiskRead(3, 0)` then removes the
head of the queue, the request of slot 4, and V-s the semaphore of slot 3: the request of
slot 3 is still queued, the request of slot 4 is gone without a transfer and without a V.
The next round of the driver services slot 3 once more and empties the queue.
`handleDiskWrite` does the same. -/
theorem handleDiskRead_removes_queue_head :
    diskList 50 diskBusyState 0 = [3] ∧
    (∃ s1, handleDiskRead usloss diskConsts
        (preemptedOutput (addToDiskQueue usloss diskConsts 4 0)) 3 0 diskBusyState =
          Outcome.ret () s1 ∧
      diskList 50 s1 0 = [3] ∧
      s1.calls = [DriverCall.output 0 { opr := 0, reg1 := 0, reg2 := 1000 },
        DriverCall.semv 3] ∧
      ∃ s2, handleDiskRead usloss diskConsts recordOutput 3 0 s1 = Outcome.ret () s2 ∧
        diskList 50 s2 0 = [] ∧
        s2.calls = [DriverCall.output 0 { opr := 0, reg1 := 0, reg2 := 1000 },
          DriverCall.semv 3, DriverCall.output 0 { opr := 0, reg1 := 0, reg2 := 1000 },
          DriverCall.semv 3]) ∧
    ∃ s3, handleDiskWrite usloss diskConsts
        (preemptedOutput (addToDiskQueue usloss diskConsts 4 0)) 3 0 diskBusyState =
          Outcome.ret () s3 ∧
      diskList 50 s3 0 = [3] ∧
      s3.calls = [DriverCall.output 0 { opr := 1, reg1 := 0, reg2 := 1000 },
        DriverCall.semv 3] := by
  obtain ⟨s1, h1, hp⟩ := retSat_spec (handleDiskRead usloss diskConsts
      (preemptedOutput (addToDiskQueue usloss diskConsts 4 0)) 3 0 diskBusyState) ()
    (fun s1 => decide (diskList 50 s1 0 = [3] ∧
      s1.calls = [DriverCall.output 0 { opr := 0, reg1 := 0, reg2 := 1000 },
        DriverCall.semv 3]) &&
      (handleDiskRead usloss diskConsts recordOutput 3 0 s1).retSat () (fun s2 =>
        decide (diskList 50 s2 0 = [] ∧
        s2.calls = [DriverCall.output 0 { opr := 0, reg1 := 0, reg2 := 1000 },
          DriverCall.semv 3, DriverCall.output 0 { opr := 0, reg1 := 0, reg2 := 1000 },
          DriverCall.semv 3])))
    (by decide!)
  simp only [Bool.and_eq_true, decide_eq_true_eq] at hp
  obtain ⟨s2, h2, hq⟩ := retSat_spec _ _ _ hp.2
  obtain ⟨s3, h3, hr⟩ := retSat_spec (handleDiskWrite usloss diskConsts
      (preemptedOutput (addToDiskQueue usloss diskConsts 4 0)) 3 0 diskBusyState) ()
    (fun s3 => decide (diskList 50 s3 0 = [3] ∧
      s3.calls = [DriverCall.output 0 { opr := 1, reg1 := 0, reg2 := 1000 },
        DriverCall.semv 3]))
    (by decide!)
  exact ⟨by decide, ⟨s1, h1, hp.1.1, hp.1.2, s2, h2, of_decide_eq_true hq⟩, s3, h3,
    of_decide_eq_true hr⟩

/-- C34: the wrap test is `current_sector > DISK_TRACK_SIZE`.  For a request of 2 sectors
from track 5, sector 15 (buffer address 1000, 16 sectors per track) `handleDiskRead` issues
a READ of sector 15, then a READ of sector 16, and only then a SEEK to track 6;
`handleDiskWrite` issues the same with WRITE.  For 3 sectors from sector 14 the sectors
14, 15 and 16 are read, followed by a SEEK after the last transfer. -/
theorem handleDisk_issues_sector_sixteen :
    ∃ s1, handleDiskRead usloss diskConsts recordOutput 3 0 (diskWrapState 0 15 2) =
        Outcome.ret () s1 ∧
    s1.calls = [DriverCall.output 0 { opr := 0, reg1 := 15, reg2 := 1000 },
      DriverCall.output 0 { opr := 0, reg1 := 16, reg2 := 1512 },
      DriverCall.output 0 { opr := 2, reg1 := 6, reg2 := 1512 }, DriverCall.semv 3] ∧
    ∃ s2, handleDiskWrite usloss diskConsts recordOutput 3 0 (diskWrapState 1 15 2) =
        Outcome.ret () s2 ∧
    s2.calls = [DriverCall.output 0 { opr := 1, reg1 := 15, reg2 := 1000 },
      DriverCall.output 0 { opr := 1, reg1 := 16, reg2 := 1512 },
      DriverCall.output 0 { opr := 2, reg1 := 6, reg2 := 1512 }, DriverCall.semv 3] ∧
    ∃ s3, handleDiskRead usloss diskConsts recordOutput 3 0 (diskWrapState 0 14 3) =
        Outcome.ret () s3 ∧
    s3.calls = [DriverCall.output 0 { opr := 0, reg1 := 14, reg2 := 1000 },
      DriverCall.output 0 { opr := 0, reg1 := 15, reg2 := 1512 },
      DriverCall.output 0 { opr := 0, reg1 := 16, reg2 := 2024 },
      DriverCall.output 0 { opr := 2, reg1 := 6, reg2 := 2024 }, DriverCall.semv 3] := by
  obtain ⟨s1, h1, hp1⟩ := retSat_spec
    (handleDiskRead usloss diskConsts recordOutput 3 0 (diskWrapState 0 15 2)) ()
    (fun s1 => decide (s1.calls = [DriverCall.output 0 { opr := 0, reg1 := 15, reg2 := 1000 },
      DriverCall.output 0 { opr := 0, reg1 := 16, reg2 := 1512 },
      DriverCall.output 0 { opr := 2, reg1 := 6, reg2 := 1512 }, DriverCall.semv 3]))
    (by decide!)
  obtain ⟨s2, h2, hp2⟩ := retSat_spec
    (handleDiskWrite usloss diskConsts recordOutput 3 0 (diskWrapState 1 15 2)) ()
    (fun s2 => decide (s2.calls = [DriverCall.output 0 { opr := 1, reg1 := 15, reg2 := 1000 },
      DriverCall.output 0 { opr := 1, reg1 := 16, reg2 := 1512 },
      DriverCall.output 0 { opr := 2, reg1 := 6, reg2 := 1512 }, DriverCall.semv 3]))
    (by decide!)
  obtain ⟨s3, h3, hp3⟩ := retSat_spec
    (handleDiskRead usloss diskConsts recordOutput 3 0 (diskWrapState 0 14 3)) ()
    (fun s3 => decide (s3.calls = [DriverCall.output 0 { opr := 0, reg1 := 14, reg2 := 1000 },
      DriverCall.output 0 { opr := 0, reg1 := 15, reg2 := 1512 },
      DriverCall.output 0 { opr := 0, reg1 := 16, reg2 := 2024 },
      DriverCall.output 0 { opr := 2, reg1 := 6, reg2 := 2024 }, DriverCall.semv 3]))
    (by decide!)
  exact ⟨s1, h1, of_decide_eq_true hp1, s2, h2, of_decide_eq_true hp2, s3, h3,
    of_decide_eq_true hp3⟩

/-! ## The child list, the mailbox process table and the frame of the mailbox calls -/

/-- C35: pid 2 (priority 2, running) forks three children of priority 3 and joins none.
After the first two forks its child list is [3, 4].  The third `fork1` stores the new
child in the `next_sibling_ptr` of the first child: the child list is [3, 5] while
`num_children` is 3, and pid 4, still READY with parent 2, is on it no more. -/
theorem fork1_third_child_unlinks_second :
    ∃ s1, fork1 usloss forkLimits 5 (some 1) none 81920 3 forkParentState =
        Outcome.ret 3 s1 ∧ childList usloss s1.proc 2 = [3] ∧
    ∃ s2, fork1 usloss forkLimits 5 (some 1) none 81920 3 s1 = Outcome.ret 4 s2 ∧
      childList usloss s2.proc 2 = [3, 4] ∧
    ∃ s3, fork1 usloss forkLimits 5 (some 1) none 81920 3 s2 = Outcome.ret 5 s3 ∧
      s3.proc.Current = some 2 ∧
      childList usloss s3.proc 2 = [3, 5] ∧ (s3.proc.ProcTable 2).num_children = 3 ∧
      (s3.proc.ProcTable 4).parent_pid = 2 ∧ (s3.proc.ProcTable 4).status = 1 := by
  obtain ⟨s1, h1, hp⟩ := retSat_spec
    (fork1 usloss forkLimits 5 (some 1) none 81920 3 forkParentState) 3
    (fun s1 => decide (childList usloss s1.proc 2 = [3]) &&
      (fork1 usloss forkLimits 5 (some 1) none 81920 3 s1).retSat 4 (fun s2 =>
        decide (childList usloss s2.proc 2 = [3, 4]) &&
        (fork1 usloss forkLimits 5 (some 1) none 81920 3 s2).retSat 5 (fun s3 =>
          decide (s3.proc.Current = some 2 ∧
      childList usloss s3.proc 2 = [3, 5] ∧ (s3.proc.ProcTable 2).num_children = 3 ∧
      (s3.proc.ProcTable 4).parent_pid = 2 ∧ (s3.proc.ProcTable 4).status = 1))))
    (by decide!)
  simp only [Bool.and_eq_true, decide_eq_true_eq] at hp
  obtain ⟨s2, h2, hq⟩ := retSat_spec _ _ _ hp.2
  simp only [Bool.and_eq_true, decide_eq_true_eq] at hq
  obtain ⟨s3, h3, hr⟩ := retSat_spec _ _ _ hq.2
  exact ⟨s1, h1, hp.1, s2, h2, hq.1, s3, h3, of_decide_eq_true hr⟩

/-- C36: pid 2 and pid 3 are both in `MBoxProcTable` (entries 0 and 1) and `CurrentProc`
points to the entry of pid 3, which made the last registration; pid 2 is running.
`handleProc` finds pid 2 in the table and returns from inside its loop: `CurrentProc` still
designates the entry of pid 3.  The `MboxReceive` of pid 2 on the empty mailbox 7 then puts
that entry, with pid 3, on the waiting queue before it blocks. -/
theorem handleProc_keeps_stale_CurrentProc :
    get_pid registeredState.proc = Outcome.ret 2 registeredState.proc ∧
    ∃ s1, handleProc usloss registeredState = Outcome.ret () s1 ∧
      s1.CurrentProc = some 1 ∧ (s1.MBoxProcTable 1).pid = 3 ∧
    ∃ s2, MboxReceive usloss 7 zeroBuf 4 registeredState = Outcome.halt 1 s2 ∧
      (s2.MailBoxTable 7).waitingProc = some 1 ∧ (s2.MailBoxTable 7).numWaiting = 1 ∧
      (s2.MBoxProcTable 1).pid = 3 := by
  obtain ⟨s1, h1, hp⟩ := retSat_spec (handleProc usloss registeredState) ()
    (fun s1 => decide (s1.CurrentProc = some 1 ∧ (s1.MBoxProcTable 1).pid = 3)) (by decide!)
  obtain ⟨s2, h2, hq⟩ := haltSat_spec (MboxReceive usloss 7 zeroBuf 4 registeredState) 1
    (fun s2 => decide ((s2.MailBoxTable 7).waitingProc = some 1 ∧
      (s2.MailBoxTable 7).numWaiting = 1 ∧ (s2.MBoxProcTable 1).pid = 3)) (by decide!)
  have e1 := of_decide_eq_true hp
  exact ⟨rfl, s1, h1, e1.1, e1.2, s2, h2, of_decide_eq_true hq⟩

/-- C37: mailbox 7 (slots of 4 bytes) holds the 1-byte message "A".  `MboxReceive` and
`MboxCondReceive` into a 4-byte buffer filled with the byte 9 return the length 1, and the
buffer then holds 65, 0, 0, 0: the `memcpy` copies the capacity `msg_size`, not the length
of the message, so the bytes 1 to 3 are overwritten with what the mail slot holds behind
the message.  Byte 4, outside the capacity, keeps its 9. -/
theorem MboxReceive_copies_capacity :
    ∃ s1, MboxSend usloss 7 msgA 1 twoUserState = Outcome.ret 0 s1 ∧
    (∃ buf s2, MboxReceive usloss 7 nineBuf 4 s1 = Outcome.ret (1, buf) s2 ∧
      buf 0 = 65 ∧ buf 1 = 0 ∧ buf 2 = 0 ∧ buf 3 = 0 ∧ buf 4 = 9) ∧
    ∃ buf s2, MboxCondReceive usloss 7 nineBuf 4 s1 = Outcome.ret (1, buf) s2 ∧
      buf 0 = 65 ∧ buf 1 = 0 ∧ buf 2 = 0 ∧ buf 3 = 0 ∧ buf 4 = 9 := by
  obtain ⟨s1, h1, hp⟩ := retSat_spec (MboxSend usloss 7 msgA 1 twoUserState) 0
    (fun s1 => (MboxReceive usloss 7 nineBuf 4 s1).retWhen (fun a _ =>
        decide (a.1 = 1 ∧ a.2 0 = 65 ∧ a.2 1 = 0 ∧ a.2 2 = 0 ∧ a.2 3 = 0 ∧ a.2 4 = 9)) &&
      (MboxCondReceive usloss 7 nineBuf 4 s1).retWhen (fun a _ =>
        decide (a.1 = 1 ∧ a.2 0 = 65 ∧ a.2 1 = 0 ∧ a.2 2 = 0 ∧ a.2 3 = 0 ∧ a.2 4 = 9)))
    (by decide!)
  simp only [Bool.and_eq_true] at hp
  obtain ⟨a, s2, h2, hq⟩ := retWhen_spec _ _ hp.1
  obtain ⟨b, s3, h3, hr⟩ := retWhen_spec _ _ hp.2
  have ea := of_decide_eq_true hq
  have eb := of_decide_eq_true hr
  have ha : a = (1, a.2) := Prod.ext ea.1 rfl
  have hb : b = (1, b.2) := Prod.ext eb.1 rfl
  rw [ha] at h2
  rw [hb] at h3
  exact ⟨s1, h1, ⟨a.2, s2, h2, ea.2⟩, b.2, s3, h3, eb.2⟩

/-- C38: pid 2 enters with interrupts enabled and sends to mailbox 7; this first call
returns with interrupts enabled.  Its next calls do not: `MboxSend` to the unknown id 9 and
`MboxCreate(-1, 4)` return -1 with the interrupt bit of the PSR clear, because `handleProc`
returns from inside its loop, after `disableInterrupts`, for a caller that is in the table.
And the successful `MboxReceive` of pid 3, a caller new to the table, returns 1 with the
bit clear: it enables interrupts only when it wakes a blocked sender. -/
theorem mailbox_calls_return_with_interrupts_off :
    twoUserState.psr.testBit 1 = true ∧
    ∃ s1, MboxSend usloss 7 msgA 1 twoUserState = Outcome.ret 0 s1 ∧ s1.psr.testBit 1 = true ∧
    (∃ s2, MboxSend usloss 9 msgA 1 s1 = Outcome.ret (-1) s2 ∧ s2.psr.testBit 1 = false) ∧
    (∃ s2, MboxCreate usloss (-1) 4 s1 = Outcome.ret (-1) s2 ∧ s2.psr.testBit 1 = false) ∧
    (∃ r s2, MboxReceive usloss 7 zeroBuf 4 (resumedAs s1 3) = Outcome.ret r s2 ∧ r.1 = 1 ∧
      s2.psr.testBit 1 = false) := by
  obtain ⟨s1, h1, hp⟩ := retSat_spec (MboxSend usloss 7 msgA 1 twoUserState) 0
    (fun s1 => s1.psr.testBit 1 &&
      (MboxSend usloss 9 msgA 1 s1).retSat (-1) (fun s2 => !s2.psr.testBit 1) &&
      (MboxCreate usloss (-1) 4 s1).retSat (-1) (fun s2 => !s2.psr.testBit 1) &&
      (MboxReceive usloss 7 zeroBuf 4 (resumedAs s1 3)).retWhen (fun r s2 =>
        decide (r.1 = 1) && !s2.psr.testBit 1))
    (by decide!)
  simp only [Bool.and_eq_true, Bool.not_eq_true', decide_eq_true_eq] at hp
  obtain ⟨s2, h2, hq2⟩ := retSat_spec _ _ _ hp.1.1.2
  obtain ⟨s3, h3, hq3⟩ := retSat_spec _ _ _ hp.1.2
  obtain ⟨r, s4, h4, hq4⟩ := retWhen_spec _ _ hp.2
  simp only [Bool.and_eq_true, Bool.not_eq_true', decide_eq_true_eq] at hq2 hq3 hq4
  exact ⟨by decide, s1, h1, hp.1.1.1, ⟨s2, h2, hq2⟩, ⟨s3, h3, hq3⟩, r, s4, h4, hq4.1, hq4.2⟩

/-- C39: semaphore 0 has the waiter list [pid 3, pid 4] and semaphore 1 has none.
`syscall_semV` on semaphore 0 takes pid 3 off the list, which is then [4], and leaves the
`nextWaiting` link of pid 3 pointing to pid 4.  When pid 3 is next put on a waiter list, by
`addToWaitList(1, 3)` for semaphore 1, that list reads [3, 4]: pid 4, which waits on
semaphore 0, is on both lists. -/
theorem syscall_semV_keeps_nextWaiting :
    waiterList usloss twoSemState 0 = [3, 4] ∧
    ∃ s1, syscall_semV usloss 200 (semArgs 0) twoSemState =
        Outcome.ret { semArgs 0 with arg4 := 0 } s1 ∧
      waiterList usloss s1 0 = [4] ∧ (s1.userProcTable 3).nextWaiting = some 4 ∧
      waiterList usloss s1 1 = [] ∧
    ∃ s2, addToWaitList usloss 200 1 3 s1 = Outcome.ret () s2 ∧
      waiterList usloss s2 1 = [3, 4] ∧ waiterList usloss s2 0 = [4] := by
  obtain ⟨s1, h1, hp⟩ := retSat_spec (syscall_semV usloss 200 (semArgs 0) twoSemState)
    { semArgs 0 with arg4 := 0 }
    (fun s1 => decide (waiterList usloss s1 0 = [4] ∧ (s1.userProcTable 3).nextWaiting = some 4 ∧
      waiterList usloss s1 1 = []) &&
      (addToWaitList usloss 200 1 3 s1).retSat () (fun s2 =>
        decide (waiterList usloss s2 1 = [3, 4] ∧ waiterList usloss s2 0 = [4])))
    (by decide!)
  simp only [Bool.and_eq_true, decide_eq_true_eq] at hp
  obtain ⟨s2, h2, hq⟩ := retSat_spec _ _ _ hp.2
  exact ⟨by decide, s1, h1, hp.1.1, hp.1.2.1, hp.1.2.2, s2, h2, of_decide_eq_true hq⟩

/-- C40: on the blocked list [pid 3, pid 4], `removeFromBlockedList(4)`, the removal of the
last entry, dereferences `NULL` and does not return, while `removeFromBlockedList(3)`
returns 0 and leaves [4] with pid 3 READY; and `removeFromBlockedList(7)`, for a pid that
is not on the list, returns 0, not -1, leaving the list as it was. -/
theorem removeFromBlockedList_last_or_absent :
    blockedQueue usloss blockedTwoProcs = [3, 4] ∧
    removeFromBlockedList usloss 4 blockedTwoProcs = Outcome.fault ∧
    (∃ p1, removeFromBlockedList usloss 3 blockedTwoProcs = Outcome.ret 0 p1 ∧
      blockedQueue usloss p1 = [4] ∧ (p1.ProcTable 3).status = 1) ∧
    ∃ p2, removeFromBlockedList usloss 7 blockedTwoProcs = Outcome.ret 0 p2 ∧
      blockedQueue usloss p2 = [3, 4] := by
  obtain ⟨p1, h1, hp⟩ := retSat_spec (removeFromBlockedList usloss 3 blockedTwoProcs) 0
    (fun p1 => decide (blockedQueue usloss p1 = [4] ∧ (p1.ProcTable 3).status = 1)) (by decide!)
  obtain ⟨p2, h2, hq⟩ := retSat_spec (removeFromBlockedList usloss 7 blockedTwoProcs) 0
    (fun p2 => decide (blockedQueue usloss p2 = [3, 4])) (by decide!)
  exact ⟨by decide, isFault_spec _ (by decide!), ⟨p1, h1, of_decide_eq_true hp⟩, p2, h2,
    of_decide_eq_true hq⟩

end CustomOS
